import Mathlib

/-!
# BlinkTradeJS: message decoding and subscription plumbing

A shallow embedding of `src/baseTransport.js` and `src/ws.js`; of
`src/blinktradeWS.js` the positional `myOrders` and `cancelOrder` are embedded,
the bodies it shares with the other two files being embedded once.

Conventions of the embedding.

* A JavaScript value is a `JsVal`.  A number is a double: `num q` is the finite
  double that denotes the rational `q` (the two zeros, which `===` identifies,
  being one value), `inf` is one of the two infinities and `nan` is `NaN`.  An
  arithmetic result is the exact result rounded to the nearest double, ties to
  even (`roundDouble`).
* A JavaScript object is the list of its own properties in insertion order
  (`Obj`), each name occurring once; a name is read through its first entry.
  JavaScript enumerates integer-like names ahead of the others: the theorems
  speak of which names an object has and of what it holds under them, not of
  the order of enumeration.  Field, currency and market names are taken not to
  be names that every object inherits (`toString`, `constructor`, `__proto__`
  and the like), which JavaScript treats apart.
* A promise is described by the way it ends (`Outcome`): still pending, resolved
  with a value, or rejected with a reason.  The promise returned by the
  transport's `send` is an input of every operation.  The reply it resolves
  with is a parsed message, an object (`Obj`); a `send` that resolves with
  `null` or `undefined`, on which the first read of a handler would throw, is
  not among the replies described here.
* Modules that are imported by the sources but are not part of them
  (`listener`, `wsTransport`, `constants/*`) appear as parameters or as
  definitions marked `Modelled from the spec`.
-/

set_option autoImplicit false

/-- A JavaScript value as it is parsed from, or built for, the wire. -/
inductive JsVal where
  | undefined : JsVal
  | null : JsVal
  | bool (b : Bool) : JsVal
  | nan : JsVal
  | inf (negative : Bool) : JsVal
  | num (q : ℚ) : JsVal
  | str (s : String) : JsVal
  | arr (xs : List JsVal) : JsVal
  | obj (kvs : List (String × JsVal)) : JsVal

/-- A JavaScript object: its own properties, in insertion order. -/
abbrev Obj := List (String × JsVal)

namespace Obj

/-- Own-property lookup: `none` when the object has no property `k`. -/
def getOwn : Obj → String → Option JsVal
  | [], _ => none
  | (k', v) :: rest, k => if k' = k then some v else getOwn rest k

/-- Property read `o.k` (or `o[k]`): `undefined` when the property is absent. -/
def prop (o : Obj) (k : String) : JsVal :=
  (getOwn o k).getD JsVal.undefined

/-- Assignment `o[k] = v`: an existing property keeps its place, a new one goes last. -/
def setProp : Obj → String → JsVal → Obj
  | [], k, v => [(k, v)]
  | (k', v') :: rest, k, v =>
    if k' = k then (k', v) :: rest else (k', v') :: setProp rest k v

/-- The rest of a destructuring `const { k, ...rest } = o`: every property but `k`. -/
def rest : Obj → String → Obj
  | [], _ => []
  | (k', v) :: more, k => if k' = k then rest more k else (k', v) :: rest more k

/-- Names of the own properties: `Object.keys(o)`. -/
def keys (o : Obj) : List String :=
  o.map Prod.fst

end Obj

namespace JsVal

/-- The own enumerable properties of a value: those of a plain object, the
indexed elements of an array, the indexed characters of a string, none for the
other primitives. -/
def asObj : JsVal → Obj
  | obj kvs => kvs
  | arr xs => xs.enum.map (fun p => (toString p.1, p.2))
  | str s => s.toList.enum.map (fun p => (toString p.1, str (String.singleton p.2)))
  | _ => []

/-- Property read `v[k]` on a value that is not `undefined` or `null` (reading
those two throws, which callers settle before they come here).  The `length`
of arrays and strings is not an enumerable property and is not read by the
embedded code. -/
def prop (v : JsVal) (k : String) : JsVal :=
  Obj.prop v.asObj k

/-- Whether reading a property of the value throws a `TypeError`. -/
def isNullish : JsVal → Bool
  | undefined => true
  | null => true
  | _ => false

/-- The string a value turns into when it is used as a property name or put
into a template.  Strings stand for themselves; `undefined`, `null`, booleans,
`NaN` and integers (of fewer than 22 digits) are rendered as JavaScript does.
Column names and symbols are strings on the wire; the rendering of arrays, of
fractions and of larger integers is not modelled further. -/
def propertyKey : JsVal → String
  | str s => s
  | undefined => "undefined"
  | null => "null"
  | bool true => "true"
  | bool false => "false"
  | nan => "NaN"
  | inf false => "Infinity"
  | inf true => "-Infinity"
  | num q => if q.den = 1 then toString q.num else toString q.num ++ "/" ++ toString q.den
  | arr _ => ""
  | obj _ => "[object Object]"

/-- Truthiness of a value: `undefined`, `null`, `false`, `0`, `NaN` and `''` are falsy. -/
def truthy : JsVal → Bool
  | undefined => false
  | null => false
  | bool b => b
  | nan => false
  | inf _ => true
  | num q => decide (q ≠ 0)
  | str s => decide (s ≠ "")
  | arr _ => true
  | obj _ => true

/-- The elements of an array-like value, as lodash walks it by `length` and
index: an array gives its elements, a string its characters (taken by code
point); `undefined`, `null`, numbers and booleans have no `length`.  (A plain
object is array-like only through a numeric `length` property of its own,
which no wire value has; it is read as having none.) -/
def elements : JsVal → List JsVal
  | arr xs => xs
  | str s => s.toList.map (fun c => str (String.singleton c))
  | _ => []

end JsVal

/-! ## lodash -/

namespace Lodash

/-- The loop of lodash's `baseZipObject(props, values, assignValue)`: one
assignment per name, the value being `values[index]` while `index` is below
`values.length` and `undefined` after that. -/
def baseZipObject : List String → List JsVal → Obj → Obj
  | [], _, result => result
  | p :: ps, [], result => baseZipObject ps [] (Obj.setProp result p JsVal.undefined)
  | p :: ps, v :: vs, result => baseZipObject ps vs (Obj.setProp result p v)

/-- lodash `_.zipObject(props, values)` = `baseZipObject(props || [], values || [], assignValue)`. -/
def zipObject (props values : JsVal) : Obj :=
  baseZipObject (props.elements.map JsVal.propertyKey) values.elements []

/-- lodash `_.map(collection, iteratee)` with a one-argument iteratee: an array
(or string) is mapped element by element, a plain object (without a numeric
`length` of its own) value by value, and `undefined`, `null`, numbers and
booleans give `[]`. -/
def map (collection : JsVal) (iteratee : JsVal → JsVal) : List JsVal :=
  match collection with
  | JsVal.obj kvs => kvs.map (fun p => iteratee p.2)
  | c => c.elements.map iteratee

end Lodash

/-! ## Promises -/

/-- What a promise is rejected with, or what a handler throws: a `TypeError`
raised by the language, or any value. -/
inductive Reason where
  | typeError : Reason
  | value (v : JsVal) : Reason

/-- The way a promise ends. -/
inductive Outcome (α : Type) where
  | pending : Outcome α
  | resolved (v : α) : Outcome α
  | rejected (e : Reason) : Outcome α

namespace Outcome

/-- The promise `new Promise((resolve, reject) => p.then(handler).catch(reject))`.
The handler's result says how far it got: `error t` when it threw `t` before
calling `resolve`, `ok (some v)` when it called `resolve(v)`, `ok none` when it
returned without calling `resolve`. -/
def thenCatch {α β : Type} (p : Outcome α) (handler : α → Except Reason (Option β)) : Outcome β :=
  match p with
  | pending => pending
  | rejected e => rejected e
  | resolved data =>
    match handler data with
    | Except.error t => rejected t
    | Except.ok none => pending
    | Except.ok (some v) => resolved v

/-- The promise `new Promise((resolve, reject) => p.then(handler))`, with no
`catch`: a rejection of `p`, or a throw of the handler, reaches nobody. -/
def thenOnly {α β : Type} (p : Outcome α) (handler : α → Except Reason (Option β)) : Outcome β :=
  match p with
  | pending => pending
  | rejected _ => pending
  | resolved data =>
    match handler data with
    | Except.error _ => pending
    | Except.ok none => pending
    | Except.ok (some v) => resolved v

/-- Whether the promise has been settled. -/
def settled {α : Type} : Outcome α → Bool
  | pending => false
  | _ => true

end Outcome

/-! ## Numbers -/

/-- The integer nearest to `N / D` (`D` positive), the even one of the two
when `N / D` lies half way between them. -/
def roundHalfEven (N D : Nat) : Nat :=
  if 2 * (N % D) < D then N / D
  else if 2 * (N % D) = D then (if (N / D) % 2 = 0 then N / D else N / D + 1)
  else N / D + 1

/-- The count of binary digits of `n`, found by halving at most `fuel` times. -/
def bitsFuel : Nat → Nat → Nat
  | 0, _ => 0
  | fuel + 1, n => if n = 0 then 0 else bitsFuel fuel (n / 2) + 1

/-- The count of binary digits of `n`: `0` for `0`, and `k + 1` when
`2 ^ k ≤ n < 2 ^ (k + 1)`. -/
def bitLength (n : Nat) : Nat :=
  bitsFuel n n

/-- The whole part of the binary logarithm of `a / b`, for positive `a` and
`b`: the difference of the digit counts, or one less. -/
def floorLog2 (a b : Nat) : Int :=
  if bitLength b ≤ bitLength a then
    (if b * 2 ^ (bitLength a - bitLength b) ≤ a then ((bitLength a - bitLength b : Nat) : Int)
     else ((bitLength a - bitLength b : Nat) : Int) - 1)
  else
    (if b ≤ a * 2 ^ (bitLength b - bitLength a) then -((bitLength b - bitLength a : Nat) : Int)
     else -((bitLength b - bitLength a : Nat) : Int) - 1)

/-- The Number value of an exact result: the double nearest to `q`, ties going
to the even significand.  With `e` the exponent of the last binary place
(`⌊log2 |q|⌋ - 52`, and `-1074` for the subnormal range), the significand is
`|q| / 2 ^ e` rounded to an integer; a result of `2 ^ 1024` or more is an
infinity. -/
def roundDouble (q : ℚ) : JsVal :=
  if q = 0 then JsVal.num 0
  else
    let a := q.num.natAbs
    let b := q.den
    let e : Int := max (floorLog2 a b - 52) (-1074)
    let n : Nat :=
      if 0 ≤ e then roundHalfEven a (b * 2 ^ e.toNat) else roundHalfEven (a * 2 ^ (-e).toNat) b
    if 0 ≤ e ∧ 2 ^ 1024 ≤ n * 2 ^ e.toNat then JsVal.inf (decide (q < 0))
    else
      let magnitude : ℚ :=
        if 0 ≤ e then ((n * 2 ^ e.toNat : Nat) : ℚ) else (n : ℚ) / ((2 ^ (-e).toNat : Nat) : ℚ)
      JsVal.num (if q < 0 then -magnitude else magnitude)

/-- The values of the finite doubles: `± m × 2 ^ E` with `m < 2 ^ 53` and
`-1074 ≤ E ≤ 971`. -/
def IsDouble (d : ℚ) : Prop :=
  ∃ (m : ℕ) (E : ℤ), m < 2 ^ 53 ∧ -1074 ≤ E ∧ E ≤ 971 ∧
    (d = (m : ℚ) * 2 ^ E ∨ d = -((m : ℚ) * 2 ^ E))

/-! ### Strings as numbers -/

/-- The white space and the line terminators that the conversion of a string
to a number strips from both ends. -/
def isStrWhiteSpace (c : Char) : Bool :=
  c.toNat == 0x9 || c.toNat == 0xA || c.toNat == 0xB || c.toNat == 0xC || c.toNat == 0xD ||
  c.toNat == 0x20 || c.toNat == 0xA0 || c.toNat == 0x1680 ||
  (0x2000 ≤ c.toNat && c.toNat ≤ 0x200A) || c.toNat == 0x2028 || c.toNat == 0x2029 ||
  c.toNat == 0x202F || c.toNat == 0x205F || c.toNat == 0x3000 || c.toNat == 0xFEFF

/-- The value of a digit of the given base (`0`-`9`, `a`-`f`, `A`-`F`). -/
def digitOf (base : Nat) (c : Char) : Option Nat :=
  let d : Option Nat :=
    if 48 ≤ c.toNat ∧ c.toNat ≤ 57 then some (c.toNat - 48)
    else if 97 ≤ c.toNat ∧ c.toNat ≤ 102 then some (c.toNat - 87)
    else if 65 ≤ c.toNat ∧ c.toNat ≤ 70 then some (c.toNat - 55)
    else none
  match d with
  | some v => if v < base then some v else none
  | none => none

/-- The values of a run of digits, when every character is a digit of the base. -/
def digitsOf (base : Nat) : List Char → Option (List Nat)
  | [] => some []
  | c :: cs =>
    match digitOf base c, digitsOf base cs with
    | some d, some ds => some (d :: ds)
    | _, _ => none

/-- The number written by digits, most significant first. -/
def valueOf (base : Nat) (ds : List Nat) : Nat :=
  ds.foldl (fun acc d => acc * base + d) 0

/-- The exact value `± N × 10 ^ k`. -/
def scaleTen (negative : Bool) (N : Nat) (k : Int) : ℚ :=
  let m : ℚ :=
    if 0 ≤ k then ((N * 10 ^ k.toNat : Nat) : ℚ) else (N : ℚ) / ((10 ^ (-k).toNat : Nat) : ℚ)
  if negative then -m else m

/-- A leading sign, and what follows it. -/
def splitSign : List Char → Bool × List Char
  | '-' :: r => (true, r)
  | '+' :: r => (false, r)
  | r => (false, r)

/-- The exponent written after `e` or `E`: an optional sign and at least one digit. -/
def parseExponent (cs : List Char) : Option Int :=
  match (splitSign cs).2, digitsOf 10 (splitSign cs).2 with
  | [], _ => none
  | _, some ds =>
    some (if (splitSign cs).1 then -((valueOf 10 ds : Nat) : Int) else ((valueOf 10 ds : Nat) : Int))
  | _, none => none

/-- The digits before the point of a decimal literal. -/
def wholeDigits (body : List Char) : List Char :=
  body.takeWhile Char.isDigit

/-- The digits after the point of a decimal literal, if it has a point. -/
def fractionDigits (body : List Char) : List Char :=
  match body.dropWhile Char.isDigit with
  | '.' :: r => r.takeWhile Char.isDigit
  | _ => []

/-- What follows the digits of a decimal literal: nothing, or an exponent part. -/
def afterDigits (body : List Char) : List Char :=
  match body.dropWhile Char.isDigit with
  | '.' :: r => r.dropWhile Char.isDigit
  | r => r

/-- A decimal literal with an optional sign: `Infinity`, or digits with an
optional point and an optional exponent, at least one digit standing before or
after the point.  Anything else is `NaN`. -/
def parseDecimal (cs : List Char) : JsVal :=
  let negative := (splitSign cs).1
  let body := (splitSign cs).2
  if body = "Infinity".toList then JsVal.inf negative
  else if (wholeDigits body).isEmpty && (fractionDigits body).isEmpty then JsVal.nan
  else
    match digitsOf 10 (wholeDigits body ++ fractionDigits body) with
    | none => JsVal.nan
    | some ds =>
      match afterDigits body with
      | [] => roundDouble (scaleTen negative (valueOf 10 ds) (-((fractionDigits body).length : Int)))
      | c :: r =>
        if c = 'e' ∨ c = 'E' then
          match parseExponent r with
          | some k =>
            roundDouble (scaleTen negative (valueOf 10 ds) (k - ((fractionDigits body).length : Int)))
          | none => JsVal.nan
        else JsVal.nan

/-- An unsigned literal of base 16, 8 or 2, after its `0x`, `0o` or `0b`. -/
def parseRadix (base : Nat) (cs : List Char) : JsVal :=
  match cs, digitsOf base cs with
  | [], _ => JsVal.nan
  | _, some ds => roundDouble ((valueOf base ds : Nat) : ℚ)
  | _, none => JsVal.nan

/-- The number a string stands for: white space is stripped from both ends;
nothing left is `0`; what is left must be one whole literal, decimal or of
base 16, 8 or 2, and is `NaN` otherwise.  (A decimal literal of more than 20
significant digits is rounded from its exact value, as the usual engines do.) -/
def stringToNumber (s : String) : JsVal :=
  match ((s.toList.dropWhile isStrWhiteSpace).reverse.dropWhile isStrWhiteSpace).reverse with
  | [] => JsVal.num 0
  | '0' :: x :: r =>
    if x = 'x' ∨ x = 'X' then parseRadix 16 r
    else if x = 'o' ∨ x = 'O' then parseRadix 8 r
    else if x = 'b' ∨ x = 'B' then parseRadix 2 r
    else parseDecimal ('0' :: x :: r)
  | cs => parseDecimal cs

namespace JsVal

mutual
/-- The number an array stands for: its text, the elements joined by commas,
read as a number.  An empty array has the empty text, which is `0`; an array of
two or more elements has a comma in its text, which no number has. -/
def listToNumber : List JsVal → JsVal
  | [] => num 0
  | [v] => elementToNumber v
  | _ :: _ :: _ => nan
/-- The number the text of one array element stands for: `undefined` and
`null` have the empty text, a number its own shortest decimal text, which reads
back as the number, a boolean `true` or `false`, an object `[object Object]`. -/
def elementToNumber : JsVal → JsVal
  | undefined => num 0
  | null => num 0
  | bool _ => nan
  | nan => nan
  | inf s => inf s
  | num q => num q
  | str s => stringToNumber s
  | arr xs => listToNumber xs
  | obj _ => nan
end

/-- The number a value stands for in arithmetic, always `nan`, `inf` or `num`:
numbers are themselves, `undefined` is `NaN`, `null` and `false` are `0`, `true`
is `1`, a string is read as a literal, an array through its text, and an object
is `NaN`. -/
def toNumber : JsVal → JsVal
  | num q => num q
  | nan => nan
  | inf s => inf s
  | undefined => nan
  | null => num 0
  | bool true => num 1
  | bool false => num 0
  | str s => stringToNumber s
  | arr xs => listToNumber xs
  | obj _ => nan

/-- The quotient `v / 1e8`: the exact quotient by `10 ^ 8` rounded to a double. -/
def div1e8 (v : JsVal) : JsVal :=
  match v.toNumber with
  | num q => roundDouble (q / 100000000)
  | inf s => inf s
  | _ => nan

/-- The difference `a - b`: the exact difference rounded to a double; an
infinity less a finite number, or less the opposite infinity, is itself, and
an infinity less itself is `NaN`. -/
def sub (a b : JsVal) : JsVal :=
  match a.toNumber, b.toNumber with
  | num x, num y => roundDouble (x - y)
  | num _, inf s => inf (!s)
  | inf s, num _ => inf s
  | inf s, inf t => if s = t then nan else inf s
  | _, _ => nan

/-- The comparison `x <= y` of two numbers; a comparison with `NaN` is false. -/
def numberLessEq : JsVal → JsVal → Bool
  | num x, num y => decide (x ≤ y)
  | num _, inf t => !t
  | inf s, num _ => s
  | inf s, inf t => s || !t
  | _, _ => false

/-- Whether a value is the number `r`. -/
def isNum (v : JsVal) (r : ℚ) : Bool :=
  match v with
  | num q => decide (q = r)
  | _ => false

/-- The default of a destructured parameter, `{ k: K = d }`: `d` replaces `undefined` only. -/
def orDefault (v d : JsVal) : JsVal :=
  match v with
  | undefined => d
  | w => w

end JsVal

/-- The text test `s.includes(t)`. -/
def String.includesText (s t : String) : Bool :=
  decide (t.toList <:+: s.toList)

/-! ## constants/requests -/

/-- The message-type tags of `constants/requests`, a module the sources import
and do not contain: the embedding takes the table as a parameter. -/
structure MsgTypesTable where
  BALANCE : JsVal
  ORDER_LIST : JsVal
  ORDER_SEND : JsVal
  ORDER_CANCEL : JsVal
  REQUEST_WITHDRAW_LIST : JsVal
  REQUEST_WITHDRAW : JsVal
  REQUEST_DEPOSIT_LIST : JsVal
  REQUEST_DEPOSIT : JsVal
  REQUEST_DEPOSIT_METHODS : JsVal
  SECURITY_STATUS : JsVal
  MARKET_DATA_FULL_REFRESH : JsVal
  MARKET_DATA_UNSUBSCRIBE : JsVal
  LOGIN : JsVal
  TRADE_HISTORY : JsVal

/-- The part of a transport instance the request operations use: the broker
it talks to and its `send` (`sendMessageAsPromise` or `fetchTrade`, chosen by
the constructor), given by the way the promise it returns for a message ends. -/
structure Transport where
  brokerId : JsVal
  send : Obj → Outcome Obj

/-- What a standing listener does when it fires: it calls the caller's
`callback(err, value)`, or it emits an event on the instance's event emitter. -/
inductive Emission where
  | callback (err value : JsVal) : Emission
  | emit (event : String) (payload : JsVal) : Emission

/-- The run of a listener on one message: what it did, in order, and what it
threw, if it threw. -/
structure Fired where
  emissions : List Emission
  thrown : Option Reason

/-- A standing listener: a function of the message it is fired with. -/
abbrev Listener := Obj → Fired

/-- A call into the modules the sources import and do not contain (`listener`,
the socket of `wsTransport`). -/
inductive Call where
  | deleteRequest (requestType : JsVal) : Call
  | registerEventEmitter (key : String) (id : JsVal) (listener : Listener) : Call
  | sendMessage (msg : Obj) : Call

/-- The run of an operation that returns a promise: how the promise ends and
the calls made on the way, in order. -/
structure Run where
  promise : Outcome Obj
  calls : List Call

/-- The argument of `cancelOrder`, by its declared type
`number | { orderId: number; clientId?: number }`. -/
inductive CancelParam where
  | number (n : ℚ) : CancelParam
  | object (o : Obj) : CancelParam

/-- The argument of `cancelOrder` as a value. -/
def CancelParam.toJsVal : CancelParam → JsVal
  | CancelParam.number n => JsVal.num n
  | CancelParam.object o => JsVal.obj o

/-! ## src/baseTransport.js -/

namespace BaseTransport

open JsVal

/-- The handler of `balance`: the available amount of every currency, added to
the reply. -/
def balanceHandler (brokerId : JsVal) (data : Obj) : Except Reason (Option Obj) :=
  let balances := Obj.prop data brokerId.propertyKey
  if balances.isNullish then
    -- `Object.keys(undefined)` throws
    Except.error Reason.typeError
  else
    let Available : Obj := balances.asObj.keys.foldl
      (fun (Available : Obj) (currency : String) =>
        if !currency.includesText "locked" then
          Obj.setProp Available currency
            (JsVal.sub (balances.prop currency) (balances.prop (currency ++ "_locked")))
        else Available)
      []
    Except.ok (some (Obj.setProp data "Available" (obj Available)))

/-- Operation `balance(callback)`; `reqId` is what `generateRequestId()` returned. -/
def balance (MsgTypes : MsgTypesTable) (T : Transport) (reqId : JsVal) : Outcome Obj :=
  let msg : Obj := [("MsgType", MsgTypes.BALANCE), ("BalanceReqID", reqId)]
  (T.send msg).thenCatch (balanceHandler T.brokerId)

/-- The decoding of one compact record, `row => _.zipObject(Columns, row)`, as
`myOrders`, `requestWithdrawList` and `requestDepositList` hand it to `_.map`. -/
def decodeRow (Columns row : JsVal) : JsVal :=
  obj (Lodash.zipObject Columns row)

/-- The handler shared, up to the name of the row group, by `myOrders`,
`requestWithdrawList` and `requestDepositList`:
`const { Columns, ...rest } = data; const Grp = _.map(data.Grp, row => _.zipObject(Columns, row));
return resolve({ ...rest, Grp })`.  The reply `data` is an object, on which the
destructuring does not throw, and `_.map` and `_.zipObject` take any value. -/
def decodeGroupHandler (grp : String) (data : Obj) : Except Reason (Option Obj) :=
  let Columns := Obj.prop data "Columns"
  let others := Obj.rest data "Columns"
  let Grp := Lodash.map (Obj.prop data grp) (decodeRow Columns)
  Except.ok (some (Obj.setProp others grp (arr Grp)))

/-- Operation `myOrders({ page, pageSize }, callback)`. -/
def myOrders (MsgTypes : MsgTypesTable) (T : Transport) (reqId : JsVal)
    (page pageSize : JsVal) : Outcome Obj :=
  let msg : Obj := [("MsgType", MsgTypes.ORDER_LIST), ("OrdersReqID", reqId),
    ("Page", page.orDefault (num 0)), ("PageSize", pageSize.orDefault (num 40))]
  (T.send msg).thenCatch (decodeGroupHandler "OrdListGrp")

/-- The status list sent when the caller gives none: `['1', '2', '4', '8']`. -/
def defaultStatusList : JsVal :=
  arr [str "1", str "2", str "4", str "8"]

/-- Operation `requestWithdrawList({ page, pageSize, statusList }, callback)`. -/
def requestWithdrawList (MsgTypes : MsgTypesTable) (T : Transport) (reqId : JsVal)
    (page pageSize statusList : JsVal) : Outcome Obj :=
  let msg : Obj := [("MsgType", MsgTypes.REQUEST_WITHDRAW_LIST), ("WithdrawListReqID", reqId),
    ("Page", page.orDefault (num 0)), ("PageSize", pageSize.orDefault (num 20)),
    ("StatusList", statusList.orDefault defaultStatusList)]
  (T.send msg).thenCatch (decodeGroupHandler "WithdrawListGrp")

/-- Operation `requestDepositList({ page, pageSize, status }, callback)`: the
promise chain ends at `then`, without the `catch(reject)` of its siblings. -/
def requestDepositList (MsgTypes : MsgTypesTable) (T : Transport) (reqId : JsVal)
    (page pageSize status : JsVal) : Outcome Obj :=
  let msg : Obj := [("MsgType", MsgTypes.REQUEST_DEPOSIT_LIST), ("DepositListReqID", reqId),
    ("Page", page.orDefault (num 0)), ("PageSize", pageSize.orDefault (num 20)),
    ("StatusList", status.orDefault defaultStatusList)]
  (T.send msg).thenOnly (decodeGroupHandler "DepositListGrp")

/-- Operation `sendOrder({ side, amount, price, symbol }, callback)`;
`CLIENT_ORDER_ID` is the constant of `constants/requestTypes`, and
`deleteRequest` is taken to return to its caller. -/
def sendOrder (MsgTypes : MsgTypesTable) (CLIENT_ORDER_ID : JsVal) (T : Transport) (reqId : JsVal)
    (side amount price symbol : JsVal) : Run :=
  let msg : Obj := [("MsgType", MsgTypes.ORDER_SEND), ("ClOrdID", reqId), ("Symbol", symbol),
    ("Side", side), ("OrdType", str "2"), ("Price", price), ("OrderQty", amount),
    ("BrokerID", T.brokerId)]
  match T.send msg with
  | Outcome.pending => { promise := Outcome.pending, calls := [] }
  | Outcome.rejected e => { promise := Outcome.rejected e, calls := [] }
  | Outcome.resolved data =>
    { promise := Outcome.resolved data, calls := [Call.deleteRequest CLIENT_ORDER_ID] }

/-- The message `cancelOrder` builds. -/
def cancelOrderMsg (MsgTypes : MsgTypesTable) (param : CancelParam) : Obj :=
  let orderId :=
    if (param.toJsVal.prop "orderId").truthy then param.toJsVal.prop "orderId" else param.toJsVal
  let msg : Obj := [("MsgType", MsgTypes.ORDER_CANCEL), ("OrderID", orderId)]
  if (param.toJsVal.prop "clientId").truthy then
    Obj.setProp msg "ClOrdID" (param.toJsVal.prop "clientId")
  else msg

/-- Operation `cancelOrder(param, callback)`. -/
def cancelOrder (MsgTypes : MsgTypesTable) (T : Transport) (param : CancelParam) : Outcome Obj :=
  T.send (cancelOrderMsg MsgTypes param)

/-- Operation `requestWithdraw({ amount, data, currency, method }, callback)`. -/
def requestWithdraw (MsgTypes : MsgTypesTable) (T : Transport) (reqId : JsVal)
    (amount data currency method : JsVal) : Outcome Obj :=
  let msg : Obj := [("MsgType", MsgTypes.REQUEST_WITHDRAW), ("WithdrawReqID", reqId),
    ("ClOrdID", reqId), ("Method", method.orDefault (str "bitcoin")), ("Amount", amount),
    ("Currency", currency.orDefault (str "BTC")), ("Data", data)]
  T.send msg

/-- The test `currency !== 'BTC'`. -/
def isNotBTC : JsVal → Bool
  | str s => decide (s ≠ "BTC")
  | _ => true

/-- The message `requestDeposit` builds. -/
def requestDepositMsg (MsgTypes : MsgTypesTable) (brokerId reqId : JsVal)
    (currency value depositMethodId : JsVal) : Obj :=
  let msg : Obj := [("MsgType", MsgTypes.REQUEST_DEPOSIT), ("DepositReqID", reqId),
    ("ClOrdID", reqId), ("Currency", currency.orDefault (str "BTC")), ("BrokerID", brokerId)]
  if isNotBTC (currency.orDefault (str "BTC")) then
    Obj.setProp (Obj.setProp msg "DepositMethodID" depositMethodId) "Value" value
  else msg

/-- Operation `requestDeposit({ currency, value, depositMethodId }, callback)`. -/
def requestDeposit (MsgTypes : MsgTypesTable) (T : Transport) (reqId : JsVal)
    (currency value depositMethodId : JsVal) : Outcome Obj :=
  T.send (requestDepositMsg MsgTypes T.brokerId reqId currency value depositMethodId)

/-- Operation `requestDepositMethods(callback)`. -/
def requestDepositMethods (MsgTypes : MsgTypesTable) (T : Transport) (reqId : JsVal) :
    Outcome Obj :=
  let msg : Obj := [("MsgType", MsgTypes.REQUEST_DEPOSIT_METHODS), ("DepositMethodReqID", reqId)]
  T.send msg

end BaseTransport

/-! ## src/ws.js -/

/-- What `ws.js` takes from `constants/actionTypes` and from the host, neither
of which is among the sources: the `ORDER_BOOK` prefix, the tables
`EVENTS.ORDERBOOK` and `EVENTS.TRADES`, and `new Date(text).toString()`. -/
structure ActionTypes where
  ORDER_BOOK : String
  EVENTS_ORDERBOOK : Obj
  EVENTS_TRADES : Obj
  dateString : String → JsVal

/-- The result of an operation that returns a plain value: the value and the
calls made on the way. -/
structure Done where
  returned : JsVal
  calls : List Call

namespace JsVal

/-- The test `v === 'text'` against a string literal. -/
def isStr : JsVal → String → Bool
  | str s, t => decide (s = t)
  | _, _ => false

end JsVal

namespace BlinkTradeWS

open JsVal

/-- The function `formatTicker` of `subscribeTicker`:
`{ ...data, SellVolume: data.SellVolume / 1e8, LowPx: ..., ..., BestBid: data.BestBid / 1e8 }`. -/
def formatTicker (data : Obj) : Obj :=
  let r1 := Obj.setProp data "SellVolume" (Obj.prop data "SellVolume").div1e8
  let r2 := Obj.setProp r1 "LowPx" (Obj.prop data "LowPx").div1e8
  let r3 := Obj.setProp r2 "LastPx" (Obj.prop data "LastPx").div1e8
  let r4 := Obj.setProp r3 "BestAsk" (Obj.prop data "BestAsk").div1e8
  let r5 := Obj.setProp r4 "HighPx" (Obj.prop data "HighPx").div1e8
  let r6 := Obj.setProp r5 "BuyVolume" (Obj.prop data "BuyVolume").div1e8
  Obj.setProp r6 "BestBid" (Obj.prop data "BestBid").div1e8

/-- The standing listener `subscribeTicker` registers: it hands the scaled
ticker to the caller's callback, when there is one, and emits it under
`BLINK:<Symbol>`. -/
def tickerListener (hasCallback : Bool) : Listener := fun ticker =>
  { emissions :=
      (if hasCallback then [Emission.callback null (obj (formatTicker ticker))] else []) ++
      [Emission.emit ("BLINK:" ++ (Obj.prop ticker "Symbol").propertyKey)
        (obj (formatTicker ticker))],
    thrown := none }

/-- The message `subscribeTicker` submits. -/
def subscribeTickerMsg (MsgTypes : MsgTypesTable) (reqId symbols : JsVal) : Obj :=
  [("MsgType", MsgTypes.SECURITY_STATUS), ("SecurityStatusReqID", reqId),
    ("SubscriptionRequestType", str "1"), ("Instruments", symbols)]

/-- Operation `subscribeTicker(symbols, callback)`; `send` is
`super.sendMessageAsPromise`. -/
def subscribeTicker (MsgTypes : MsgTypesTable) (send : Obj → Outcome Obj) (reqId symbols : JsVal)
    (hasCallback : Bool) : Run :=
  match send (subscribeTickerMsg MsgTypes reqId symbols) with
  | Outcome.pending => { promise := Outcome.pending, calls := [] }
  | Outcome.rejected e => { promise := Outcome.rejected e, calls := [] }
  | Outcome.resolved data =>
    { promise := Outcome.resolved (formatTicker data),
      calls := [Call.registerEventEmitter "SecurityStatusReqID"
        (Obj.prop data "SecurityStatusReqID") (tickerListener hasCallback)] }

/-- Operation `unSubscribeTicker(SecurityStatusReqID)`. -/
def unSubscribeTicker (MsgTypes : MsgTypesTable) (SecurityStatusReqID : JsVal) : Done :=
  let msg : Obj := [("MsgType", MsgTypes.SECURITY_STATUS),
    ("SecurityStatusReqID", SecurityStatusReqID), ("SubscriptionRequestType", str "2")]
  { returned := SecurityStatusReqID, calls := [Call.sendMessage msg] }

/-- The record `dataOrder` that `subscribeEvent` builds for one incremental entry. -/
def dataOrder (A : ActionTypes) (order : JsVal) : Obj :=
  [("index", order.prop "MDEntryPositionNo"),
   ("price", (order.prop "MDEntryPx").div1e8),
   ("size", (order.prop "MDEntrySize").div1e8),
   ("side", if (order.prop "MDEntryType").isStr "0" then str "buy" else str "sell"),
   ("userId", order.prop "UserID"),
   ("orderId", order.prop "OrderID"),
   ("symbol", order.prop "Symbol"),
   ("time", A.dateString ((order.prop "MDEntryDate").propertyKey ++ " " ++
      (order.prop "MDEntryTime").propertyKey))]

/-- The `switch (order.MDEntryType)` of `subscribeEvent`: the event emitted for
one incremental entry, if any. -/
def orderEvent (A : ActionTypes) (order : JsVal) : List Emission :=
  if (order.prop "MDEntryType").isStr "0" || (order.prop "MDEntryType").isStr "1" then
    let orderbookEvent := A.ORDER_BOOK ++ ":" ++
      (Obj.prop A.EVENTS_ORDERBOOK (order.prop "MDUpdateAction").propertyKey).propertyKey
    [Emission.emit orderbookEvent
      (obj (Obj.setProp (dataOrder A order) "type" (str orderbookEvent)))]
  else if (order.prop "MDEntryType").isStr "2" then
    let tradeEvent := A.ORDER_BOOK ++ ":" ++
      (Obj.prop A.EVENTS_TRADES (order.prop "MDUpdateAction").propertyKey).propertyKey
    [Emission.emit tradeEvent (obj (Obj.setProp (dataOrder A order) "type" (str tradeEvent)))]
  else []

/-- The walk `data.MDIncGrp.map(order => ...)` of `subscribeEvent`: reading a
field of an entry that is `null` or `undefined` throws and ends the walk. -/
def walkIncGrp (A : ActionTypes) (hasCallback : Bool) : List JsVal → Fired
  | [] => { emissions := [], thrown := none }
  | order :: more =>
    if order.isNullish then { emissions := [], thrown := some Reason.typeError }
    else
      let here := (if hasCallback then [Emission.callback null (obj (dataOrder A order))] else [])
        ++ orderEvent A order
      let later := walkIncGrp A hasCallback more
      { emissions := here ++ later.emissions, thrown := later.thrown }

/-- The standing listener `subscribeEvent` of `subscribeOrderbook`. -/
def subscribeEvent (A : ActionTypes) (hasCallback : Bool) : Listener := fun data =>
  if (Obj.prop data "MDBkTyp").isStr "3" then
    match Obj.prop data "MDIncGrp" with
    | arr orders => walkIncGrp A hasCallback orders
    | _ => { emissions := [], thrown := some Reason.typeError }
  else { emissions := [], thrown := none }

/-- The filter of the full refresh:
`order.MDEntryType === '0' || order.MDEntryType === '1'`. -/
def isBidOrAsk (order : JsVal) : Bool :=
  (order.prop "MDEntryType").isStr "0" || (order.prop "MDEntryType").isStr "1"

/-- The triple pushed for one entry of the full refresh:
`[order.MDEntryPx / 1e8, order.MDEntrySize / 1e8, order.UserID]`. -/
def bookEntry (order : JsVal) : JsVal :=
  arr [(order.prop "MDEntryPx").div1e8, (order.prop "MDEntrySize").div1e8, order.prop "UserID"]

/-- The reducer of the full refresh:
`(prev[side] || (prev[side] = [])).push([...]); return prev`. -/
def splitStep (prev : Obj) (order : JsVal) : Obj :=
  let side := if (order.prop "MDEntryType").isStr "0" then "bids" else "asks"
  let sofar : List JsVal :=
    match Obj.prop prev side with
    | arr xs => xs
    | _ => []
  Obj.setProp prev side (arr (sofar ++ [bookEntry order]))

/-- The split of the full refresh: `MDFullGrp.filter(...).reduce(..., [])`, the
accumulator being read through its `bids` and `asks` properties. -/
def splitBook (orders : List JsVal) : Obj :=
  (orders.filter isBidOrAsk).foldl splitStep []

/-- The message `subscribeOrderbook` submits. -/
def subscribeOrderbookMsg (MsgTypes : MsgTypesTable) (reqId symbols : JsVal) : Obj :=
  [("MsgType", MsgTypes.MARKET_DATA_FULL_REFRESH), ("MDReqID", reqId),
    ("SubscriptionRequestType", str "1"), ("MarketDepth", num 0), ("MDUpdateType", str "1"),
    ("MDEntryTypes", arr [str "0", str "1", str "2"]), ("Instruments", symbols)]

/-- The order book `subscribeOrderbook` resolves with:
`{ ...data, MDFullGrp: { [data.Symbol]: { bids, asks } } }`. -/
def formatOrderbook (data : Obj) (orders : List JsVal) : Obj :=
  let split := splitBook orders
  Obj.setProp data "MDFullGrp"
    (obj [((Obj.prop data "Symbol").propertyKey,
      obj [("bids", Obj.prop split "bids"), ("asks", Obj.prop split "asks")])])

/-- Operation `subscribeOrderbook(symbols, callback)`; `send` is
`super.sendMessageAsPromise`.  Only a reply of type `'W'` is handled: any other
reply leaves the handler without a call of `resolve` or `reject`. -/
def subscribeOrderbook (MsgTypes : MsgTypesTable) (A : ActionTypes) (send : Obj → Outcome Obj)
    (reqId symbols : JsVal) (hasCallback : Bool) : Run :=
  match send (subscribeOrderbookMsg MsgTypes reqId symbols) with
  | Outcome.pending => { promise := Outcome.pending, calls := [] }
  | Outcome.rejected e => { promise := Outcome.rejected e, calls := [] }
  | Outcome.resolved data =>
    if (Obj.prop data "MsgType").isStr "W" then
      match Obj.prop data "MDFullGrp" with
      | arr orders =>
        if orders.any isNullish then
          -- the filter reads `order.MDEntryType` of every entry
          { promise := Outcome.rejected Reason.typeError, calls := [] }
        else
          { promise := Outcome.resolved (formatOrderbook data orders),
            calls := [Call.registerEventEmitter "MDReqID" (Obj.prop data "MDReqID")
              (subscribeEvent A hasCallback)] }
      | _ =>
        -- `data.MDFullGrp.filter` is not a function
        { promise := Outcome.rejected Reason.typeError, calls := [] }
    else { promise := Outcome.pending, calls := [] }

/-- Operation `unSubscribeOrderbook(MDReqID)`. -/
def unSubscribeOrderbook (MsgTypes : MsgTypesTable) (MDReqID : JsVal) : Done :=
  let msg : Obj := [("MsgType", MsgTypes.MARKET_DATA_UNSUBSCRIBE), ("MDReqID", MDReqID),
    ("MarketDepth", num 0), ("SubscriptionRequestType", str "2")]
  { returned := MDReqID, calls := [Call.sendMessage msg] }

end BlinkTradeWS

/-! ## The listener module and the socket -/

/-- Modelled from the spec: the state behind `listener` and the socket of
`wsTransport`, neither of which is among the sources.  Section 4.3 describes
the Subscription Registry as a mapping from a key to the callbacks standing
under it, in registration order; section 6 gives the connection a `send`
primitive, whose messages are kept here in the order they went out. -/
structure Core where
  registry : List (String × JsVal × Listener)
  outbound : List Obj

namespace JsVal

/-- Equality of two identifiers, as `===` decides it on primitive values. -/
def sameId : JsVal → JsVal → Bool
  | undefined, undefined => true
  | null, null => true
  | bool a, bool b => a == b
  | num a, num b => decide (a = b)
  | inf a, inf b => a == b
  | str a, str b => decide (a = b)
  | _, _ => false

end JsVal

namespace Core

/-- Modelled from the spec: the effect of one call.  `registerEventEmitter` is
`subscribe(key, callback)`, which appends the callback under its key;
`sendMessage` hands the message to the connection; `deleteRequest` releases a
request of the Correlation Table, which is not part of this state. -/
def step (c : Core) : Call → Core
  | Call.registerEventEmitter key id listener =>
    { c with registry := c.registry ++ [(key, id, listener)] }
  | Call.sendMessage msg => { c with outbound := c.outbound ++ [msg] }
  | Call.deleteRequest _ => c

/-- The state after a run of calls. -/
def after (c : Core) (calls : List Call) : Core :=
  calls.foldl step c

/-- The entries standing under a key. -/
def standing (c : Core) (key : String) (id : JsVal) : List (String × JsVal × Listener) :=
  c.registry.filter (fun e => decide (e.1 = key) && e.2.1.sameId id)

/-- Modelled from the spec: `publish(key, event)` fires every callback standing
under the key, in registration order. -/
def publish (c : Core) (key : String) (id : JsVal) (event : Obj) : List Emission :=
  (c.standing key id).flatMap (fun e => (e.2.2 event).emissions)

/-- The empty state of a fresh connection. -/
def empty : Core :=
  { registry := [], outbound := [] }

end Core

/-! ## Statements and sample values -/

/-- What it means for the record `record` to be the decoding of the row `xs`
against the column names `names`: its fields are exactly the names, and under
the `j`-th name it holds the `j`-th value of the row (`undefined` where the row
has no such position). -/
def RowDecoded (names : List String) (xs : List JsVal) (record : Obj) : Prop :=
  (∀ k : String, k ∈ record.keys ↔ k ∈ names) ∧
  ∀ (j : Nat) (hj : j < names.length),
    Obj.getOwn record (names.get ⟨j, hj⟩) = some (xs.getD j JsVal.undefined)

/-- What it means for `result` to be the decoding of the reply `data`, whose
row group `grp` holds `rows`: the group of `result` has one entry per row; when
`data.Columns` lists pairwise distinct names, the `i`-th entry is, for every
`i`, the record that decodes the `i`-th row against those names; whatever
`data.Columns` is, the `i`-th entry is what `_.zipObject(Columns, row)` makes of
the `i`-th row; every field of `data` other than `Columns` and the group is
carried over unchanged; and `result` has no `Columns` field. -/
def GroupDecoded (grp : String) (data : Obj) (rows : List JsVal) (result : Obj) : Prop :=
  ∃ entries : List JsVal,
    Obj.getOwn result grp = some (JsVal.arr entries) ∧
    entries.length = rows.length ∧
    (∀ names : List String, names.Nodup →
      Obj.prop data "Columns" = JsVal.arr (names.map JsVal.str) →
      ∀ (i : Nat) (xs : List JsVal), rows[i]? = some (JsVal.arr xs) →
        ∃ record : Obj, entries[i]? = some (JsVal.obj record) ∧ RowDecoded names xs record) ∧
    (∀ (i : Nat) (hi : i < rows.length),
      entries[i]? = some (BaseTransport.decodeRow (Obj.prop data "Columns") (rows.get ⟨i, hi⟩))) ∧
    (∀ k : String, k ≠ "Columns" → k ≠ grp → Obj.getOwn result k = Obj.getOwn data k) ∧
    Obj.getOwn result "Columns" = none

/-- A table of message-type tags to evaluate the operations with. -/
def sampleMsgTypes : MsgTypesTable :=
  { BALANCE := JsVal.str "U2",
    ORDER_LIST := JsVal.str "U4",
    ORDER_SEND := JsVal.str "D",
    ORDER_CANCEL := JsVal.str "F",
    REQUEST_WITHDRAW_LIST := JsVal.str "U26",
    REQUEST_WITHDRAW := JsVal.str "U6",
    REQUEST_DEPOSIT_LIST := JsVal.str "U30",
    REQUEST_DEPOSIT := JsVal.str "U18",
    REQUEST_DEPOSIT_METHODS := JsVal.str "U20",
    SECURITY_STATUS := JsVal.str "e",
    MARKET_DATA_FULL_REFRESH := JsVal.str "V",
    MARKET_DATA_UNSUBSCRIBE := JsVal.str "V",
    LOGIN := JsVal.str "BE",
    TRADE_HISTORY := JsVal.str "U32" }

/-- A transport whose `send` resolves every message with the reply `data`. -/
def repliesWith (data : Obj) : Transport :=
  { brokerId := JsVal.num 5, send := fun _ => Outcome.resolved data }

/-- A reply of three columns whose only row has two values. -/
def shortRowReply : Obj :=
  [("OrdersReqID", JsVal.num 930019),
   ("Columns", JsVal.arr [JsVal.str "A", JsVal.str "B", JsVal.str "C"]),
   ("OrdListGrp", JsVal.arr [JsVal.arr [JsVal.num 1, JsVal.num 2]])]

/-- A reply of two orders under two columns. -/
def twoOrdersReply : Obj :=
  [("MsgType", JsVal.str "U5"),
   ("Columns", JsVal.arr [JsVal.str "OrderID", JsVal.str "Symbol"]),
   ("OrdListGrp", JsVal.arr [JsVal.arr [JsVal.num 11, JsVal.str "BTCUSD"],
      JsVal.arr [JsVal.num 12, JsVal.str "BTCBRL"]])]

/-- Event names and a date rendering to evaluate the listeners with. -/
def sampleActionTypes : ActionTypes :=
  { ORDER_BOOK := "OB",
    EVENTS_ORDERBOOK := [("0", JsVal.str "NEW_ORDER"), ("1", JsVal.str "UPDATE_ORDER"),
      ("2", JsVal.str "DELETE_ORDER"), ("3", JsVal.str "DELETE_ORDERS_THRU")],
    EVENTS_TRADES := [("0", JsVal.str "TRADE_NEW")],
    dateString := fun text => JsVal.str text }

/-- A reply to a market-data request that is not a full refresh. -/
def marketDataReject : Obj :=
  [("MsgType", JsVal.str "Y"), ("MDReqID", JsVal.num 17), ("MDReqRejReason", JsVal.str "0")]

/-- A full refresh with one bid, one trade and one ask. -/
def fullRefresh : Obj :=
  [("MsgType", JsVal.str "W"), ("MDReqID", JsVal.num 17), ("Symbol", JsVal.str "BTCUSD"),
   ("MDFullGrp", JsVal.arr [
      JsVal.obj [("MDEntryType", JsVal.str "0"), ("MDEntryPx", JsVal.num 150000000),
        ("MDEntrySize", JsVal.num 200000000), ("UserID", JsVal.num 90)],
      JsVal.obj [("MDEntryType", JsVal.str "2"), ("MDEntryPx", JsVal.num 150000000),
        ("MDEntrySize", JsVal.num 100000000), ("UserID", JsVal.num 91)],
      JsVal.obj [("MDEntryType", JsVal.str "1"), ("MDEntryPx", JsVal.num 160000000),
        ("MDEntrySize", JsVal.num 300000000), ("UserID", JsVal.num 92)]])]

/-- A full refresh of an empty book. -/
def emptyRefresh : Obj :=
  [("MsgType", JsVal.str "W"), ("MDReqID", JsVal.num 17), ("Symbol", JsVal.str "BTCUSD"),
   ("MDFullGrp", JsVal.arr [])]

/-- A ticker message carrying the identifier `id`. -/
def tickerReply (id : JsVal) : Obj :=
  [("MsgType", JsVal.str "f"), ("SecurityStatusReqID", id), ("Symbol", JsVal.str "BTCUSD"),
   ("SellVolume", JsVal.num 150000000), ("LowPx", JsVal.num 100000000),
   ("LastPx", JsVal.num 200000000), ("BestAsk", JsVal.num 210000000),
   ("HighPx", JsVal.num 300000000), ("BuyVolume", JsVal.num 50000000),
   ("BestBid", JsVal.num 190000000)]

/-- A ticker with a volume of one unit and a price of `123456789` units. -/
def smallTicker : Obj :=
  [("MsgType", JsVal.str "f"), ("SecurityStatusReqID", JsVal.num 17),
   ("Symbol", JsVal.str "BTCUSD"),
   ("SellVolume", JsVal.num 1), ("LowPx", JsVal.num 123456789),
   ("LastPx", JsVal.num 123456789), ("BestAsk", JsVal.num 123456789),
   ("HighPx", JsVal.num 123456789), ("BuyVolume", JsVal.num 1),
   ("BestBid", JsVal.num 123456789)]

/-- The seven scaled fields of a ticker. -/
def tickerPriceFields : List String :=
  ["SellVolume", "LowPx", "LastPx", "BestAsk", "HighPx", "BuyVolume", "BestBid"]

/-- The value found under `bids` or `asks` after the split, given the entries
pushed for that side: the list when something was pushed, `undefined` when
nothing was. -/
def sideValue (entries : List JsVal) : JsVal :=
  if entries.isEmpty then JsVal.undefined else JsVal.arr entries

/-- The test `order.MDEntryType === '0'`. -/
def isBid (order : JsVal) : Bool :=
  (order.prop "MDEntryType").isStr "0"

/-- The test `order.MDEntryType === '1'`. -/
def isAsk (order : JsVal) : Bool :=
  (order.prop "MDEntryType").isStr "1"

/-! ## Session, trade history and the positional decoder -/

namespace JsVal

/-- Strict equality `a === b` of two values read from a parsed message:
primitives are compared by value, `NaN` equals nothing, and two arrays or
objects, being separate in memory, are never equal. -/
def strictEq : JsVal → JsVal → Bool
  | undefined, undefined => true
  | null, null => true
  | bool a, bool b => a == b
  | num a, num b => decide (a = b)
  | inf a, inf b => a == b
  | str a, str b => decide (a = b)
  | _, _ => false

/-- Indexed read `v[i]` with a numeric literal `i`, on a value that is not
`undefined` or `null`: the element of an array, the character of a string,
the property named by the digits of `i` of an object, and `undefined` where
there is none. -/
def index (v : JsVal) (i : Nat) : JsVal :=
  match v with
  | arr xs => xs.getD i undefined
  | str s => (s.toList.map (fun c => str (String.singleton c))).getD i undefined
  | obj kvs => Obj.prop kvs (toString i)
  | _ => undefined

/-- The comparison `a <= b`: two strings are compared as texts (by code
point), any other pair by the numbers they stand for, and a comparison with
`NaN` is false.  (Prices are numbers or strings on the wire.  An array or an
object is first turned into its text by JavaScript and is read here through
the number of that text, which differs only when the other side is a text too.) -/
def lessEq (a b : JsVal) : Bool :=
  match a, b with
  | str s, str t => decide (s ≤ t)
  | _, _ => numberLessEq a.toNumber b.toNumber

end JsVal

/-- The run of `login`: how the promise ends and what `this.session` holds
afterwards. -/
structure LoginRun where
  promise : Outcome Obj
  session : Obj

/-- The state of the walk of `tradeHistory`: the variables `last` and `IsPump`
and the object `TradeHistory`. -/
structure PumpState where
  last : JsVal
  IsPump : Bool
  TradeHistory : Obj

namespace BlinkTradeWS

open JsVal

/-- The message `login` builds; `userAgent` holds the four `UserAgent...`
fields read from the browser and is empty under Node, where
`...userAgent` spreads `undefined`. -/
def loginMsg (MsgTypes : MsgTypesTable) (brokerId reqId username password secondFactor : JsVal)
    (userAgent : Obj) : Obj :=
  let msg : Obj := userAgent.foldl (fun (m : Obj) p => Obj.setProp m p.1 p.2)
    [("MsgType", MsgTypes.LOGIN), ("UserReqID", reqId), ("BrokerID", brokerId),
      ("Username", username), ("Password", password), ("UserReqTyp", str "1")]
  if secondFactor.truthy then Obj.setProp msg "SecondFactor" secondFactor else msg

/-- The test `data.UserStatus === 1`. -/
def isOne : JsVal → Bool
  | num q => decide (q = 1)
  | _ => false

/-- Operation `login({ username, password, secondFactor }, callback)`, started
with `session` in `this.session`; `send` is `super.sendMessageAsPromise`. -/
def login (MsgTypes : MsgTypesTable) (send : Obj → Outcome Obj)
    (brokerId reqId username password secondFactor : JsVal) (userAgent : Obj) (session : Obj) :
    LoginRun :=
  match send (loginMsg MsgTypes brokerId reqId username password secondFactor userAgent) with
  | Outcome.pending => { promise := Outcome.pending, session := session }
  | Outcome.rejected e => { promise := Outcome.rejected e, session := session }
  | Outcome.resolved data =>
    if isOne (Obj.prop data "UserStatus") then
      { promise := Outcome.resolved data, session := data }
    else
      { promise := Outcome.rejected (Reason.value (obj data)), session := session }

/-- Operation `cancelOrder(param, callback)` of `blinktradeWS.js`, whose
message is built by the statements of `baseTransport.js`. -/
def cancelOrder (MsgTypes : MsgTypesTable) (send : Obj → Outcome Obj) (param : CancelParam) :
    Outcome Obj :=
  send (BaseTransport.cancelOrderMsg MsgTypes param)

/-- The record `tradeHistory` puts in front of a market's list for one row. -/
def tradeRecord (trade : JsVal) (IsPump : Bool) : JsVal :=
  obj [("TradeID", trade.index 0), ("Market", trade.index 1), ("Side", trade.index 2),
    ("Price", trade.index 3), ("Size", trade.index 4), ("Buyer", trade.index 5),
    ("Seller", trade.index 6), ("Created", trade.index 7), ("IsPump", bool IsPump)]

/-- The assignment `IsPump = last === trade[3] ? IsPump : last <= trade[3]`. -/
def nextPump (last : JsVal) (IsPump : Bool) (price : JsVal) : Bool :=
  if last.strictEq price then IsPump else last.lessEq price

/-- The list standing under a market: `TradeHistory[market] || []`. -/
def listUnder (TradeHistory : Obj) (market : String) : List JsVal :=
  match Obj.prop TradeHistory market with
  | arr xs => xs
  | _ => []

/-- The body of the walk of `tradeHistory` for one row. -/
def tradeStep (s : PumpState) (trade : JsVal) : PumpState :=
  let IsPump := nextPump s.last s.IsPump (trade.index 3)
  let market := (trade.index 1).propertyKey
  { last := trade.index 3,
    IsPump := IsPump,
    TradeHistory := Obj.setProp s.TradeHistory market
      (arr (tradeRecord trade IsPump :: listUnder s.TradeHistory market)) }

/-- The walk `data.TradeHistoryGrp.reverse().map(...)`, from `last = 0`,
`IsPump = false` and an empty `TradeHistory`: the rows are taken last to first. -/
def walkTrades (rows : List JsVal) : PumpState :=
  rows.reverse.foldl tradeStep { last := num 0, IsPump := false, TradeHistory := [] }

/-- The handler of `tradeHistory`.  Reversing something that is not an array,
or reading a row that is `null` or `undefined`, throws. -/
def tradeHistoryHandler (data : Obj) : Except Reason (Option Obj) :=
  match Obj.prop data "TradeHistoryGrp" with
  | arr rows =>
    if rows.any isNullish then Except.error Reason.typeError
    else
      Except.ok (some (Obj.setProp (Obj.rest data "Columns") "TradeHistoryGrp"
        (obj (walkTrades rows).TradeHistory)))
  | _ => Except.error Reason.typeError

/-- Operation `tradeHistory({ page, pageSize }, callback)`; `send` is
`super.sendMessageAsPromise`. -/
def tradeHistory (MsgTypes : MsgTypesTable) (send : Obj → Outcome Obj)
    (reqId page pageSize : JsVal) : Outcome Obj :=
  let msg : Obj := [("MsgType", MsgTypes.TRADE_HISTORY), ("TradeHistoryReqID", reqId),
    ("Page", page.orDefault (num 0)), ("PageSize", pageSize.orDefault (num 80))]
  (send msg).thenCatch tradeHistoryHandler

/-- The record the `myOrders` of `blinktradeWS.js` builds from one row, position
by position. -/
def orderRecord (order : JsVal) : JsVal :=
  obj [("ClOrdID", order.index 0), ("OrderID", order.index 1), ("CumQty", order.index 2),
    ("OrdStatus", order.index 3), ("LeavesQty", order.index 4), ("CxlQty", order.index 5),
    ("AvgPx", order.index 6), ("Symbol", order.index 7), ("Side", order.index 8),
    ("OrdType", order.index 9), ("OrderQty", order.index 10), ("Price", order.index 11),
    ("OrderDate", order.index 12), ("Volume", order.index 13),
    ("TimeInForce", order.index 14)]

/-- The handler of the `myOrders` of `blinktradeWS.js`:
`data.OrdListGrp.map(order => OrdListGrp.push({ ClOrdID: order[0], ... }))`.
Mapping something that is not an array, or reading a row that is `null` or
`undefined`, throws. -/
def myOrdersHandler (data : Obj) : Except Reason (Option Obj) :=
  match Obj.prop data "OrdListGrp" with
  | arr rows =>
    if rows.any isNullish then Except.error Reason.typeError
    else
      Except.ok (some (Obj.setProp (Obj.rest data "Columns") "OrdListGrp"
        (arr (rows.map orderRecord))))
  | _ => Except.error Reason.typeError

/-- Operation `myOrders({ page, pageSize }, callback)` of `blinktradeWS.js`;
`send` is `super.sendMessageAsPromise`. -/
def myOrders (MsgTypes : MsgTypesTable) (send : Obj → Outcome Obj)
    (reqId page pageSize : JsVal) : Outcome Obj :=
  let msg : Obj := [("MsgType", MsgTypes.ORDER_LIST), ("OrdersReqID", reqId),
    ("Page", page.orDefault (num 0)), ("PageSize", pageSize.orDefault (num 40))]
  (send msg).thenCatch myOrdersHandler

end BlinkTradeWS

/-- The IsPump rule as it is stated for `tradeHistory`, on the prices of the
rows in the order of the reply: the last row is a pump when its price is above
`0`; an earlier row takes over the flag of the row after it when the two prices
are equal, and is a pump otherwise exactly when its price is above the price of
the row after it. -/
def statedPump : List ℚ → List Bool
  | [] => []
  | [p] => [decide (0 < p)]
  | p :: q :: more =>
    (if p = q then (statedPump (q :: more)).headD false else decide (q < p))
      :: statedPump (q :: more)

/-- The variables `last` and `IsPump` after the walk of `tradeHistory` has
taken the given rows, last to first. -/
def pumpAfter : List JsVal → JsVal × Bool
  | [] => (JsVal.num 0, false)
  | r :: more =>
    (r.index 3, BlinkTradeWS.nextPump (pumpAfter more).1 (pumpAfter more).2 (r.index 3))

/-- The rows of a reply, each with the value of `IsPump` the walk of
`tradeHistory` gives it. -/
def flagged : List JsVal → List (JsVal × Bool)
  | [] => []
  | r :: more => (r, (pumpAfter (r :: more)).2) :: flagged more

/-- The market a row is filed under: `trade[1]` as a property name. -/
def marketKey (trade : JsVal) : String :=
  (trade.index 1).propertyKey

/-- The fifteen columns of an order list, in the order of the positional
decoder of `blinktradeWS.js`. -/
def orderColumns : List String :=
  ["ClOrdID", "OrderID", "CumQty", "OrdStatus", "LeavesQty", "CxlQty", "AvgPx", "Symbol",
    "Side", "OrdType", "OrderQty", "Price", "OrderDate", "Volume", "TimeInForce"]

/-- A login reply that accepts the user. -/
def loginAccepted : Obj :=
  [("MsgType", JsVal.str "BF"), ("UserReqID", JsVal.num 17), ("UserStatus", JsVal.num 1),
   ("Username", JsVal.str "trader"), ("UserID", JsVal.num 90800003)]

/-- A login reply that refuses the user. -/
def loginRefused : Obj :=
  [("MsgType", JsVal.str "BF"), ("UserReqID", JsVal.num 17), ("UserStatus", JsVal.num 3),
   ("UserStatusText", JsVal.str "MSG_LOGIN_ERROR_INVALID_USERNAME_OR_PASSWORD")]

/-- The login message of the sample runs. -/
def sampleLoginMsg : Obj :=
  BlinkTradeWS.loginMsg sampleMsgTypes (JsVal.num 5) (JsVal.num 17) (JsVal.str "trader")
    (JsVal.str "secret") JsVal.undefined []

/-- Four trades on two markets, newest first. -/
def sampleTrades : List JsVal :=
  [JsVal.arr [JsVal.num 104, JsVal.str "BTCUSD", JsVal.str "1", JsVal.num 500, JsVal.num 1,
      JsVal.num 31, JsVal.num 32, JsVal.str "2017-01-04"],
   JsVal.arr [JsVal.num 103, JsVal.str "BTCBRL", JsVal.str "2", JsVal.num 100, JsVal.num 2,
      JsVal.num 33, JsVal.num 34, JsVal.str "2017-01-03"],
   JsVal.arr [JsVal.num 102, JsVal.str "BTCUSD", JsVal.str "1", JsVal.num 300, JsVal.num 3,
      JsVal.num 35, JsVal.num 36, JsVal.str "2017-01-02"],
   JsVal.arr [JsVal.num 101, JsVal.str "BTCUSD", JsVal.str "2", JsVal.num 200, JsVal.num 4,
      JsVal.num 37, JsVal.num 38, JsVal.str "2017-01-01"]]

/-- A trade-history reply holding `sampleTrades`. -/
def tradesReply : Obj :=
  [("MsgType", JsVal.str "U33"), ("TradeHistoryReqID", JsVal.num 17),
   ("Columns", JsVal.arr [JsVal.str "TradeID", JsVal.str "Market", JsVal.str "Side",
      JsVal.str "Price", JsVal.str "Size", JsVal.str "Buyer", JsVal.str "Seller",
      JsVal.str "Created"]),
   ("TradeHistoryGrp", JsVal.arr sampleTrades)]

/-- A balance reply for the broker 5, with two currencies and their locked
amounts. -/
def balanceReply : Obj :=
  [("5", JsVal.obj [("BTC", JsVal.num 300000000), ("BTC_locked", JsVal.num 100000000),
      ("USD", JsVal.num 5000), ("USD_locked", JsVal.num 0)]),
   ("MsgType", JsVal.str "U3"), ("BalanceReqID", JsVal.num 17)]

/-- A balance reply for the broker 5 with `2 ^ 54` units of which one is locked. -/
def largeBalanceReply : Obj :=
  [("5", JsVal.obj [("BTC", JsVal.num 18014398509481984), ("BTC_locked", JsVal.num 1)]),
   ("MsgType", JsVal.str "U3"), ("BalanceReqID", JsVal.num 17)]

/-- A balance reply for the broker 5 that has a field `Available` of its own. -/
def staleBalanceReply : Obj :=
  [("5", JsVal.obj [("BTC", JsVal.num 300000000), ("BTC_locked", JsVal.num 100000000)]),
   ("MsgType", JsVal.str "U3"), ("Available", JsVal.str "stale"), ("BalanceReqID", JsVal.num 17)]

/-- The object `Available` that the handler of `balance` builds from the
balance table of the broker. -/
def availableOf (balances : JsVal) : Obj :=
  balances.asObj.keys.foldl
    (fun (Available : Obj) (currency : String) =>
      if !currency.includesText "locked" then
        Obj.setProp Available currency
          (JsVal.sub (balances.prop currency) (balances.prop (currency ++ "_locked")))
      else Available)
    []

/-- An order-list reply with the fifteen columns and one order. -/
def ordersReply : Obj :=
  [("MsgType", JsVal.str "U5"), ("OrdersReqID", JsVal.num 17), ("Page", JsVal.num 0),
   ("Columns", JsVal.arr (orderColumns.map JsVal.str)),
   ("OrdListGrp", JsVal.arr [JsVal.arr [JsVal.num 7, JsVal.num 1459028830811, JsVal.num 0,
      JsVal.str "0", JsVal.num 100000000, JsVal.num 0, JsVal.num 0, JsVal.str "BTCUSD",
      JsVal.str "1", JsVal.str "2", JsVal.num 100000000, JsVal.num 55000000000,
      JsVal.str "2016-03-26 21:47:10", JsVal.num 0, JsVal.str "0"]])]

/-! # Theorems -/

/-! ## Numbers: rounding to the nearest double -/

theorem bitsFuel_zero (f : Nat) : bitsFuel f 0 = 0 := by
  cases f <;> simp [bitsFuel]

theorem bitsFuel_bounds (f : Nat) : ∀ n : Nat, n ≤ f → 0 < n →
    1 ≤ bitsFuel f n ∧ 2 ^ (bitsFuel f n - 1) ≤ n ∧ n < 2 ^ bitsFuel f n := by
  induction f with
  | zero => intro n h1 h2; omega
  | succ f ih =>
    intro n hn hpos
    have hne : n ≠ 0 := by omega
    simp only [bitsFuel, hne, if_false]
    by_cases h2 : n / 2 = 0
    · have h1 : n = 1 := by omega
      subst h1
      simp [bitsFuel_zero]
    · have hle : n / 2 ≤ f := by omega
      obtain ⟨k1, klo, khi⟩ := ih (n / 2) hle (by omega)
      refine ⟨by omega, ?_, ?_⟩
      · have e1 : bitsFuel f (n / 2) + 1 - 1 = (bitsFuel f (n / 2) - 1) + 1 := by omega
        rw [e1, pow_succ]
        omega
      · rw [pow_succ]
        omega

theorem bitLength_bounds (n : Nat) (h : 0 < n) :
    1 ≤ bitLength n ∧ 2 ^ (bitLength n - 1) ≤ n ∧ n < 2 ^ bitLength n :=
  bitsFuel_bounds n n (le_refl n) h

/-- The whole part of the binary logarithm: `2 ^ L ≤ a / b < 2 ^ (L + 1)`. -/
theorem floorLog2_spec (a b : Nat) (ha : 0 < a) (hb : 0 < b) :
    (2 : ℚ) ^ (floorLog2 a b) ≤ (a : ℚ) / b ∧ (a : ℚ) / b < (2 : ℚ) ^ (floorLog2 a b + 1) := by
  obtain ⟨a1, alo, ahi⟩ := bitLength_bounds a ha
  obtain ⟨b1, blo, bhi⟩ := bitLength_bounds b hb
  have hbq : (0 : ℚ) < b := by exact_mod_cast hb
  have h2 : (2 : ℚ) ≠ 0 := by norm_num
  unfold floorLog2
  by_cases hAB : bitLength b ≤ bitLength a
  · rw [if_pos hAB]
    obtain ⟨d, hd⟩ : ∃ d, bitLength a = bitLength b + d := ⟨bitLength a - bitLength b, by omega⟩
    have hsub : bitLength a - bitLength b = d := by omega
    rw [hsub]
    have hA1 : (2 : ℕ) ^ bitLength a = 2 ^ (bitLength b - 1) * 2 ^ (d + 1) := by
      rw [← pow_add]; congr 1; omega
    have hA2 : (2 : ℕ) ^ bitLength a = 2 ^ bitLength b * 2 ^ d := by
      rw [← pow_add]; congr 1
    have hA3 : (2 : ℕ) ^ bitLength a = 2 * 2 ^ (bitLength a - 1) := by
      rw [← pow_succ']; congr 1; omega
    by_cases hc : b * 2 ^ d ≤ a
    · rw [if_pos hc]
      constructor
      · rw [zpow_natCast, le_div_iff₀ hbq]
        have : ((b * 2 ^ d : ℕ) : ℚ) ≤ (a : ℚ) := by exact_mod_cast hc
        push_cast at this
        linarith
      · have e1 : ((d : ℕ) : ℤ) + 1 = ((d + 1 : ℕ) : ℤ) := by push_cast; ring
        rw [e1, zpow_natCast, div_lt_iff₀ hbq]
        have h3 : a < b * 2 ^ (d + 1) := by
          calc a < 2 ^ bitLength a := ahi
            _ = 2 ^ (bitLength b - 1) * 2 ^ (d + 1) := hA1
            _ ≤ b * 2 ^ (d + 1) := Nat.mul_le_mul_right _ blo
        have : ((a : ℕ) : ℚ) < ((b * 2 ^ (d + 1) : ℕ) : ℚ) := by exact_mod_cast h3
        push_cast at this
        linarith
    · rw [if_neg hc]
      have hc' : a < b * 2 ^ d := by omega
      constructor
      · rw [zpow_sub_one₀ h2, zpow_natCast, le_div_iff₀ hbq]
        have h3 : b * 2 ^ d ≤ 2 * a := by
          have : b * 2 ^ d < 2 ^ bitLength b * 2 ^ d :=
            Nat.mul_lt_mul_of_pos_right bhi (by positivity)
          omega
        have : ((b * 2 ^ d : ℕ) : ℚ) ≤ ((2 * a : ℕ) : ℚ) := by exact_mod_cast h3
        push_cast at this
        have h4 : (2 : ℚ) ^ d * 2⁻¹ * b = (b * 2 ^ d) / 2 := by ring
        rw [h4]
        linarith
      · rw [sub_add_cancel, zpow_natCast, div_lt_iff₀ hbq]
        have : ((a : ℕ) : ℚ) < ((b * 2 ^ d : ℕ) : ℚ) := by exact_mod_cast hc'
        push_cast at this
        linarith
  · rw [if_neg hAB]
    obtain ⟨d, hd⟩ : ∃ d, bitLength b = bitLength a + d := ⟨bitLength b - bitLength a, by omega⟩
    have hsub : bitLength b - bitLength a = d := by omega
    rw [hsub]
    have hdq : (0 : ℚ) < 2 ^ d := by positivity
    have hB1 : (2 : ℕ) ^ bitLength b = 2 ^ (bitLength a - 1) * 2 ^ (d + 1) := by
      rw [← pow_add]; congr 1; omega
    have hB2 : (2 : ℕ) ^ bitLength b = 2 ^ bitLength a * 2 ^ d := by
      rw [← pow_add]; congr 1
    have hB3 : (2 : ℕ) ^ bitLength b = 2 * 2 ^ (bitLength b - 1) := by
      rw [← pow_succ']; congr 1; omega
    by_cases hc : b ≤ a * 2 ^ d
    · rw [if_pos hc]
      constructor
      · rw [zpow_neg, zpow_natCast, le_div_iff₀ hbq, inv_mul_le_iff₀ hdq]
        have : ((b : ℕ) : ℚ) ≤ ((a * 2 ^ d : ℕ) : ℚ) := by exact_mod_cast hc
        push_cast at this
        linarith
      · have e1 : -((d : ℕ) : ℤ) + 1 = -(((d : ℕ) : ℤ) - 1) := by ring
        rw [e1, zpow_neg, zpow_sub_one₀ h2, zpow_natCast, div_lt_iff₀ hbq]
        have h3 : a * 2 ^ d < 2 * b := by
          have : a * 2 ^ d < 2 ^ bitLength a * 2 ^ d :=
            Nat.mul_lt_mul_of_pos_right ahi (by positivity)
          omega
        have : ((a * 2 ^ d : ℕ) : ℚ) < ((2 * b : ℕ) : ℚ) := by exact_mod_cast h3
        push_cast at this
        have h4 : ((2 : ℚ) ^ d * 2⁻¹)⁻¹ * b = 2 * b / 2 ^ d := by
          field_simp
        rw [h4, lt_div_iff₀ hdq]
        linarith
    · rw [if_neg hc]
      have hc' : a * 2 ^ d < b := by omega
      constructor
      · have e1 : -((d : ℕ) : ℤ) - 1 = -(((d + 1 : ℕ) : ℕ) : ℤ) := by push_cast; ring
        have hdq1 : (0 : ℚ) < 2 ^ (d + 1) := by positivity
        rw [e1, zpow_neg, zpow_natCast, le_div_iff₀ hbq, inv_mul_le_iff₀ hdq1]
        have h3 : b ≤ a * 2 ^ (d + 1) := by
          have : 2 ^ (bitLength a - 1) * 2 ^ (d + 1) ≤ a * 2 ^ (d + 1) :=
            Nat.mul_le_mul_right _ alo
          omega
        have : ((b : ℕ) : ℚ) ≤ ((a * 2 ^ (d + 1) : ℕ) : ℚ) := by exact_mod_cast h3
        push_cast at this
        linarith
      · rw [sub_add_cancel, zpow_neg, zpow_natCast, div_lt_iff₀ hbq]
        have : ((a * 2 ^ d : ℕ) : ℚ) < ((b : ℕ) : ℚ) := by exact_mod_cast hc'
        push_cast at this
        have h4 : ((2 : ℚ) ^ d)⁻¹ * b = b / 2 ^ d := by ring
        rw [h4, lt_div_iff₀ hdq]
        linarith

/-- No integer is nearer to `N / D` than the rounded one. -/
theorem roundHalfEven_nearest (N D : Nat) (hD : 0 < D) (k : ℤ) :
    |((roundHalfEven N D : ℕ) : ℚ) - (N : ℚ) / D| ≤ |(k : ℚ) - (N : ℚ) / D| := by
  have hDq : (0 : ℚ) < D := by exact_mod_cast hD
  have hN : (N : ℚ) = (D : ℚ) * ((N / D : ℕ) : ℚ) + ((N % D : ℕ) : ℚ) := by
    exact_mod_cast (Nat.div_add_mod N D).symm
  have hx : (N : ℚ) / D = ((N / D : ℕ) : ℚ) + ((N % D : ℕ) : ℚ) / D := by
    rw [hN]; field_simp; ring
  have hr : N % D < D := Nat.mod_lt N hD
  have hf0 : (0 : ℚ) ≤ ((N % D : ℕ) : ℚ) / D := by positivity
  have hf1 : ((N % D : ℕ) : ℚ) / D < 1 := by
    rw [div_lt_one hDq]; exact_mod_cast hr
  have hlt : 2 * (N % D) < D → 2 * (((N % D : ℕ) : ℚ) / D) < 1 := by
    intro h
    have : ((2 * (N % D) : ℕ) : ℚ) < (D : ℚ) := by exact_mod_cast h
    push_cast at this
    rw [← mul_div_assoc, div_lt_one hDq]
    exact this
  have heq : 2 * (N % D) = D → 2 * (((N % D : ℕ) : ℚ) / D) = 1 := by
    intro h
    have : ((2 * (N % D) : ℕ) : ℚ) = (D : ℚ) := by exact_mod_cast h
    push_cast at this
    rw [← mul_div_assoc, this, div_self (ne_of_gt hDq)]
  have hgt : D < 2 * (N % D) → 1 < 2 * (((N % D : ℕ) : ℚ) / D) := by
    intro h
    have : (D : ℚ) < ((2 * (N % D) : ℕ) : ℚ) := by exact_mod_cast h
    push_cast at this
    rw [← mul_div_assoc, one_lt_div hDq]
    exact this
  have hk : (k : ℚ) ≤ ((N / D : ℕ) : ℚ) ∨ ((N / D : ℕ) : ℚ) + 1 ≤ (k : ℚ) := by
    rcases le_or_lt k ((N / D : ℕ) : ℤ) with h | h
    · left
      have : ((k : ℤ) : ℚ) ≤ (((N / D : ℕ) : ℤ) : ℚ) := Int.cast_le.mpr h
      rwa [Int.cast_natCast] at this
    · right
      have h' : ((N / D : ℕ) : ℤ) + 1 ≤ k := h
      have : ((((N / D : ℕ) : ℤ) + 1 : ℤ) : ℚ) ≤ ((k : ℤ) : ℚ) := Int.cast_le.mpr h'
      rwa [Int.cast_add, Int.cast_one, Int.cast_natCast] at this
  have hB1 := le_abs_self ((k : ℚ) - (N : ℚ) / D)
  have hB2 := neg_le_abs ((k : ℚ) - (N : ℚ) / D)
  rw [hx] at hB1 hB2 ⊢
  generalize ((N % D : ℕ) : ℚ) / D = f at *
  unfold roundHalfEven
  by_cases h1 : 2 * (N % D) < D
  · rw [if_pos h1]
    have hf := hlt h1
    rw [abs_le]
    rcases hk with h | h <;> constructor <;> linarith
  · rw [if_neg h1]
    by_cases h2 : 2 * (N % D) = D
    · rw [if_pos h2]
      have hf := heq h2
      by_cases h3 : N / D % 2 = 0
      · rw [if_pos h3, abs_le]
        rcases hk with h | h <;> constructor <;> linarith
      · rw [if_neg h3, abs_le]
        push_cast
        rcases hk with h | h <;> constructor <;> linarith
    · rw [if_neg h2]
      have hf := hgt (by omega)
      rw [abs_le]
      push_cast
      rcases hk with h | h <;> constructor <;> linarith

theorem scaled_round (a b : Nat) (hb : 0 < b) (e k : ℤ) :
    |(((if 0 ≤ e then roundHalfEven a (b * 2 ^ e.toNat)
        else roundHalfEven (a * 2 ^ (-e).toNat) b : ℕ)) : ℚ) - (a : ℚ) / b / 2 ^ e|
      ≤ |(k : ℚ) - (a : ℚ) / b / 2 ^ e| := by
  have hbq : (0 : ℚ) < b := by exact_mod_cast hb
  by_cases he : 0 ≤ e
  · rw [if_pos he]
    obtain ⟨t, rfl⟩ : ∃ t : ℕ, e = (t : ℤ) := ⟨e.toNat, (Int.toNat_of_nonneg he).symm⟩
    have h1 : (a : ℚ) / b / 2 ^ ((t : ℕ) : ℤ) = (a : ℚ) / ((b * 2 ^ t : ℕ) : ℚ) := by
      rw [zpow_natCast, div_div]
      push_cast
      rfl
    rw [h1, Int.toNat_natCast]
    exact roundHalfEven_nearest a (b * 2 ^ t) (by positivity) k
  · rw [if_neg he]
    obtain ⟨t, rfl⟩ : ∃ t : ℕ, e = -(t : ℤ) :=
      ⟨(-e).toNat, by rw [Int.toNat_of_nonneg (by omega)]; ring⟩
    have h1 : (a : ℚ) / b / 2 ^ (-((t : ℕ) : ℤ)) = ((a * 2 ^ t : ℕ) : ℚ) / (b : ℚ) := by
      rw [zpow_neg, zpow_natCast]
      push_cast
      field_simp
    rw [h1, neg_neg, Int.toNat_natCast]
    exact roundHalfEven_nearest (a * 2 ^ t) b hb k

theorem magnitude_eq (n : Nat) (e : ℤ) :
    (if 0 ≤ e then ((n * 2 ^ e.toNat : ℕ) : ℚ) else (n : ℚ) / ((2 ^ (-e).toNat : ℕ) : ℚ))
      = (n : ℚ) * 2 ^ e := by
  by_cases he : 0 ≤ e
  · rw [if_pos he]
    obtain ⟨t, rfl⟩ : ∃ t : ℕ, e = (t : ℤ) := ⟨e.toNat, (Int.toNat_of_nonneg he).symm⟩
    rw [zpow_natCast, Int.toNat_natCast]
    push_cast
    rfl
  · rw [if_neg he]
    obtain ⟨t, rfl⟩ : ∃ t : ℕ, e = -(t : ℤ) :=
      ⟨(-e).toNat, by rw [Int.toNat_of_nonneg (by omega)]; ring⟩
    rw [zpow_neg, zpow_natCast, neg_neg, Int.toNat_natCast]
    push_cast
    rw [div_eq_mul_inv]

theorem nearest_core (x : ℚ) (L e : ℤ) (n : ℕ) (hL1 : (2 : ℚ) ^ L ≤ x)
    (hL2 : x < (2 : ℚ) ^ (L + 1)) (he : e = max (L - 52) (-1074))
    (hn : ∀ k : ℤ, |(n : ℚ) - x / 2 ^ e| ≤ |(k : ℚ) - x / 2 ^ e|) :
    (n : ℚ) ≤ 2 ^ 53 ∧ (-1074 < e → (2 : ℚ) ^ 52 ≤ n) ∧ |(n : ℚ) * 2 ^ e - x| ≤ x ∧
    ∀ (m : ℕ) (E : ℤ), m < 2 ^ 53 → -1074 ≤ E → |(n : ℚ) * 2 ^ e - x| ≤ |(m : ℚ) * 2 ^ E - x| := by
  have h2 : (2 : ℚ) ≠ 0 := by norm_num
  have h12 : (1 : ℚ) ≤ 2 := by norm_num
  have hx : 0 < x := lt_of_lt_of_le (by positivity) hL1
  have hp : (0 : ℚ) < 2 ^ e := by positivity
  have he1 : L - 52 ≤ e := by rw [he]; exact le_max_left _ _
  have he2 : -1074 ≤ e := by rw [he]; exact le_max_right _ _
  have he3 : -1074 < e → e = L - 52 := by
    intro h
    rcases max_choice (L - 52) (-1074) with h' | h'
    · rw [he, h']
    · rw [he, h'] at h; omega
  have hxy : x = x / 2 ^ e * 2 ^ e := by field_simp
  have hscale : ∀ c : ℚ, |c * 2 ^ e - x| = 2 ^ e * |c - x / 2 ^ e| := by
    intro c
    rw [← abs_of_pos hp, ← abs_mul, abs_of_pos hp]
    congr 1
    field_simp
  have hy0 : 0 < x / 2 ^ e := by positivity
  have hy53 : x / 2 ^ e < 2 ^ 53 := by
    rw [div_lt_iff₀ hp]
    calc x < (2 : ℚ) ^ (L + 1) := hL2
      _ ≤ (2 : ℚ) ^ (53 + e) := zpow_le_zpow_right₀ h12 (by omega)
      _ = 2 ^ 53 * 2 ^ e := by rw [zpow_add₀ h2]; norm_num
  have hy52 : -1074 < e → (2 : ℚ) ^ 52 ≤ x / 2 ^ e := by
    intro h
    rw [le_div_iff₀ hp]
    calc (2 : ℚ) ^ 52 * 2 ^ e = (2 : ℚ) ^ (52 + e) := by rw [zpow_add₀ h2]; norm_num
      _ = (2 : ℚ) ^ L := by rw [he3 h]; congr 1; ring
      _ ≤ x := hL1
  have hn53 := hn (2 ^ 53)
  have hn52 := hn (2 ^ 52)
  have hn0 := hn 0
  push_cast at hn53 hn52 hn0
  rw [show (9007199254740992 : ℚ) = 2 ^ 53 by norm_num] at hn53
  rw [show (4503599627370496 : ℚ) = 2 ^ 52 by norm_num] at hn52
  generalize x / 2 ^ e = y at *
  refine ⟨?_, ?_, ?_, ?_⟩
  · rw [abs_of_pos (by linarith : (0 : ℚ) < 2 ^ 53 - y)] at hn53
    have := (abs_le.mp hn53).2
    linarith
  · intro h
    have hy := hy52 h
    rw [abs_of_nonpos (by linarith : (2 : ℚ) ^ 52 - y ≤ 0)] at hn52
    have := (abs_le.mp hn52).1
    linarith
  · rw [hscale]
    rw [abs_of_nonpos (by linarith : (0 : ℚ) - y ≤ 0)] at hn0
    calc 2 ^ e * |(n : ℚ) - y| ≤ 2 ^ e * (-(0 - y)) := mul_le_mul_of_nonneg_left hn0 hp.le
      _ = x := by rw [hxy]; ring
  · intro m E hm hE
    have hmq : (m : ℚ) ≤ 2 ^ 53 := by
      have : ((m : ℕ) : ℚ) < ((2 ^ 53 : ℕ) : ℚ) := by exact_mod_cast hm
      push_cast at this
      exact this.le
    by_cases hEe : e ≤ E
    · obtain ⟨t, ht⟩ : ∃ t : ℕ, E = e + t := ⟨(E - e).toNat, by
        rw [Int.toNat_of_nonneg (by omega)]; ring⟩
      have hk := hn ((m : ℤ) * 2 ^ t)
      push_cast at hk
      have e1 : (m : ℚ) * 2 ^ E = ((m : ℚ) * 2 ^ t) * 2 ^ e := by
        rw [ht, zpow_add₀ h2, zpow_natCast]; ring
      rw [e1, hscale, hscale]
      exact mul_le_mul_of_nonneg_left hk hp.le
    · have hlt : -1074 < e := by omega
      have hy := hy52 hlt
      have hE2 : (2 : ℚ) ^ E ≤ 2 ^ (e - 1) := zpow_le_zpow_right₀ h12 (by omega)
      have hE3 : (2 : ℚ) ^ (e - 1) = 2 ^ e / 2 := by rw [zpow_sub_one₀ h2]; ring
      have hE0 : (0 : ℚ) < 2 ^ E := by positivity
      have hm0 : (0 : ℚ) ≤ m := by positivity
      have hmE : (m : ℚ) * 2 ^ E ≤ 2 ^ 52 * 2 ^ e := by
        calc (m : ℚ) * 2 ^ E ≤ 2 ^ 53 * 2 ^ E := mul_le_mul_of_nonneg_right hmq hE0.le
          _ ≤ 2 ^ 53 * (2 ^ e / 2) := by
            rw [← hE3]; exact mul_le_mul_of_nonneg_left hE2 (by positivity)
          _ = 2 ^ 52 * 2 ^ e := by ring
      have hxe : (2 : ℚ) ^ 52 * 2 ^ e ≤ x := by
        rw [hxy]; exact mul_le_mul_of_nonneg_right hy hp.le
      rw [abs_of_nonpos (by linarith : (2 : ℚ) ^ 52 - y ≤ 0)] at hn52
      rw [hscale, abs_of_nonpos (by linarith : (m : ℚ) * 2 ^ E - x ≤ 0)]
      calc 2 ^ e * |(n : ℚ) - y| ≤ 2 ^ e * (-(2 ^ 52 - y)) :=
            mul_le_mul_of_nonneg_left hn52 hp.le
        _ = y * 2 ^ e - 2 ^ 52 * 2 ^ e := by ring
        _ = x - 2 ^ 52 * 2 ^ e := by rw [← hxy]
        _ ≤ -((m : ℚ) * 2 ^ E - x) := by linarith

theorem natAbs_div_den (q : ℚ) : ((q.num.natAbs : ℕ) : ℚ) / (q.den : ℚ) = |q| := by
  have h1 : ((q.num.natAbs : ℕ) : ℚ) = |(q.num : ℚ)| := by
    rw [Nat.cast_natAbs, Int.cast_abs]
  have h2 : (0 : ℚ) < q.den := by exact_mod_cast q.den_pos
  rw [h1]
  conv_rhs => rw [← Rat.num_div_den q, abs_div, abs_of_pos h2]

set_option exponentiation.threshold 1100 in
/-- The result of rounding a number other than `0`: a significand `n` of at most
`2 ^ 53` at an exponent `e`, an infinity when `n × 2 ^ e` reaches `2 ^ 1024`. -/
theorem roundDouble_shape (q : ℚ) (hq : q ≠ 0) :
    ∃ (n : ℕ) (e : ℤ), (-1074 : ℤ) ≤ e ∧ (n : ℚ) ≤ 2 ^ 53 ∧ (-1074 < e → (2 : ℚ) ^ 52 ≤ n) ∧
      |(n : ℚ) * 2 ^ e - abs q| ≤ abs q ∧
      (∀ (m : ℕ) (E : ℤ), m < 2 ^ 53 → -1074 ≤ E →
        |(n : ℚ) * 2 ^ e - abs q| ≤ |(m : ℚ) * 2 ^ E - abs q|) ∧
      roundDouble q = if (2 : ℚ) ^ 1024 ≤ (n : ℚ) * 2 ^ e then JsVal.inf (decide (q < 0))
        else JsVal.num (if q < 0 then -((n : ℚ) * 2 ^ e) else (n : ℚ) * 2 ^ e) := by
  have ha : 0 < q.num.natAbs := Int.natAbs_pos.mpr (Rat.num_ne_zero.mpr hq)
  have hb : 0 < q.den := q.den_pos
  obtain ⟨hL1, hL2⟩ := floorLog2_spec q.num.natAbs q.den ha hb
  rw [natAbs_div_den] at hL1 hL2
  have hsr := scaled_round q.num.natAbs q.den hb
    (max (floorLog2 q.num.natAbs q.den - 52) (-1074))
  rw [natAbs_div_den] at hsr
  obtain ⟨c1, c2, c3, c4⟩ := nearest_core |q| (floorLog2 q.num.natAbs q.den)
    (max (floorLog2 q.num.natAbs q.den - 52) (-1074)) _ hL1 hL2 rfl hsr
  refine ⟨_, _, le_max_right _ _, c1, c2, c3, c4, ?_⟩
  unfold roundDouble
  rw [if_neg hq]
  simp only []
  rw [magnitude_eq]
  generalize hn : (if 0 ≤ max (floorLog2 q.num.natAbs q.den - 52) (-1074) then
      roundHalfEven q.num.natAbs (q.den * 2 ^ (max (floorLog2 q.num.natAbs q.den - 52) (-1074)).toNat)
    else roundHalfEven (q.num.natAbs * 2 ^ (-max (floorLog2 q.num.natAbs q.den - 52) (-1074)).toNat)
      q.den) = n at *
  generalize max (floorLog2 q.num.natAbs q.den - 52) (-1074) = e at *
  have hov : (0 ≤ e ∧ 2 ^ 1024 ≤ n * 2 ^ e.toNat) ↔ (2 : ℚ) ^ 1024 ≤ (n : ℚ) * 2 ^ e := by
    constructor
    · rintro ⟨h0, h1⟩
      have : ((2 ^ 1024 : ℕ) : ℚ) ≤ ((n * 2 ^ e.toNat : ℕ) : ℚ) := Nat.cast_le.mpr h1
      obtain ⟨t, rfl⟩ : ∃ t : ℕ, e = (t : ℤ) := ⟨e.toNat, (Int.toNat_of_nonneg h0).symm⟩
      rw [Int.toNat_natCast] at this
      rw [zpow_natCast]
      simp only [Nat.cast_pow, Nat.cast_mul, Nat.cast_ofNat] at this
      exact this
    · intro h
      have h0 : 0 ≤ e := by
        by_contra hneg
        have hlt : (2 : ℚ) ^ e ≤ 2 ^ (0 : ℤ) := zpow_le_zpow_right₀ (by norm_num) (by omega)
        have hpos : (0 : ℚ) < 2 ^ e := by positivity
        have hn0 : (0 : ℚ) ≤ n := by positivity
        have : (n : ℚ) * 2 ^ e ≤ 2 ^ 53 * 1 := by
          calc (n : ℚ) * 2 ^ e ≤ 2 ^ 53 * 2 ^ e := mul_le_mul_of_nonneg_right c1 hpos.le
            _ ≤ 2 ^ 53 * 1 := by
              apply mul_le_mul_of_nonneg_left _ (by positivity)
              simpa using hlt
        have h53 : (2 : ℚ) ^ 53 * 1 < 2 ^ 1024 := by norm_num
        linarith
      refine ⟨h0, ?_⟩
      obtain ⟨t, rfl⟩ : ∃ t : ℕ, e = (t : ℤ) := ⟨e.toNat, (Int.toNat_of_nonneg h0).symm⟩
      rw [zpow_natCast] at h
      rw [Int.toNat_natCast]
      have : ((2 ^ 1024 : ℕ) : ℚ) ≤ ((n * 2 ^ t : ℕ) : ℚ) := by
        simp only [Nat.cast_pow, Nat.cast_mul, Nat.cast_ofNat]
        exact h
      exact Nat.cast_le.mp this
  by_cases h : (2 : ℚ) ^ 1024 ≤ (n : ℚ) * 2 ^ e
  · rw [if_pos h, if_pos (hov.mpr h)]
  · rw [if_neg h, if_neg (fun h' => h (hov.mp h'))]

theorem two_pow_1024_eq : (2 : ℚ) ^ 1024 = 2 ^ 52 * 2 ^ (972 : ℤ) ∧
    (2 : ℚ) ^ 1024 = 2 ^ 53 * 2 ^ (971 : ℤ) := by
  constructor
  · rw [show (972 : ℤ) = ((972 : ℕ) : ℤ) by norm_num, zpow_natCast, ← pow_add]
  · rw [show (971 : ℤ) = ((971 : ℕ) : ℤ) by norm_num, zpow_natCast, ← pow_add]

theorem isDouble_zero : IsDouble 0 :=
  ⟨0, 0, by norm_num, by norm_num, by norm_num, Or.inl (by simp)⟩

/-- A Number is a double, and no double is nearer to the exact result. -/
theorem roundDouble_nearest (q r : ℚ) (h : roundDouble q = JsVal.num r) :
    IsDouble r ∧ ∀ d : ℚ, IsDouble d → |r - q| ≤ |d - q| := by
  by_cases hq : q = 0
  · subst hq
    have : r = 0 := by
      have h' : JsVal.num 0 = JsVal.num r := by simpa [roundDouble] using h
      injection h' with h''
      exact h''.symm
    subst this
    exact ⟨isDouble_zero, fun d _ => by simp⟩
  · obtain ⟨n, e, he, c1, c2, c3, c4, hshape⟩ := roundDouble_shape q hq
    have h2 : (2 : ℚ) ≠ 0 := by norm_num
    rw [hshape] at h
    by_cases hov : (2 : ℚ) ^ 1024 ≤ (n : ℚ) * 2 ^ e
    · rw [if_pos hov] at h
      exact JsVal.noConfusion h
    · rw [if_neg hov] at h
      injection h with hr
      have hov' : (n : ℚ) * 2 ^ e < 2 ^ 1024 := lt_of_not_le hov
      have hp : (0 : ℚ) < 2 ^ e := by positivity
      have hmag : IsDouble ((n : ℚ) * 2 ^ e) ∧ IsDouble (-((n : ℚ) * 2 ^ e)) := by
        have hn53 : n ≤ 2 ^ 53 := by
          have : ((n : ℕ) : ℚ) ≤ ((2 ^ 53 : ℕ) : ℚ) := by push_cast; exact c1
          exact_mod_cast this
        rcases Nat.lt_or_ge n (2 ^ 53) with hlt | hge
        · have he971 : e ≤ 971 := by
            by_contra hcon
            have h52 := c2 (by omega)
            have hle : (2 : ℚ) ^ (972 : ℤ) ≤ 2 ^ e := zpow_le_zpow_right₀ (by norm_num) (by omega)
            have : (2 : ℚ) ^ 1024 ≤ (n : ℚ) * 2 ^ e := by
              calc (2 : ℚ) ^ 1024 = 2 ^ 52 * 2 ^ (972 : ℤ) := two_pow_1024_eq.1
                _ ≤ (n : ℚ) * 2 ^ e :=
                  mul_le_mul h52 hle (zpow_nonneg (by norm_num) _) (Nat.cast_nonneg n)
            exact hov this
          exact ⟨⟨n, e, hlt, he, he971, Or.inl rfl⟩, ⟨n, e, hlt, he, he971, Or.inr rfl⟩⟩
        · have hn : n = 2 ^ 53 := le_antisymm hn53 hge
          have he970 : e + 1 ≤ 971 := by
            by_contra hcon
            have hle : (2 : ℚ) ^ (971 : ℤ) ≤ 2 ^ e := zpow_le_zpow_right₀ (by norm_num) (by omega)
            have : (2 : ℚ) ^ 1024 ≤ (n : ℚ) * 2 ^ e := by
              rw [hn]
              push_cast
              calc (2 : ℚ) ^ 1024 = 2 ^ 53 * 2 ^ (971 : ℤ) := two_pow_1024_eq.2
                _ ≤ 2 ^ 53 * 2 ^ e := mul_le_mul_of_nonneg_left hle (by positivity)
            exact hov this
          have hval : (n : ℚ) * 2 ^ e = ((2 ^ 52 : ℕ) : ℚ) * 2 ^ (e + 1) := by
            rw [hn, zpow_add_one₀ h2]
            push_cast
            ring
          rw [hval]
          exact ⟨⟨2 ^ 52, e + 1, by norm_num, by omega, he970, Or.inl rfl⟩,
            ⟨2 ^ 52, e + 1, by norm_num, by omega, he970, Or.inr rfl⟩⟩
      have hx0 : 0 < |q| := abs_pos.mpr hq
      have key : ∀ d : ℚ, IsDouble d →
          |(n : ℚ) * 2 ^ e - abs q| ≤ |d - abs q| ∧
          |(n : ℚ) * 2 ^ e - abs q| ≤ |(-d) - abs q| := by
        rintro d ⟨m, E, hm, hE, _, hd | hd⟩
        · have hd0 : 0 ≤ d := by
            rw [hd]; exact mul_nonneg (Nat.cast_nonneg m) (zpow_nonneg (by norm_num) E)
          refine ⟨by rw [hd]; exact c4 m E hm hE, ?_⟩
          rw [abs_of_nonpos (by linarith : -d - |q| ≤ 0)]
          linarith
        · have hd0 : d ≤ 0 := by
            rw [hd]
            have : (0 : ℚ) ≤ (m : ℚ) * 2 ^ E :=
              mul_nonneg (Nat.cast_nonneg m) (zpow_nonneg (by norm_num) E)
            linarith
          refine ⟨?_, by rw [hd, neg_neg]; exact c4 m E hm hE⟩
          rw [abs_of_nonpos (by linarith : d - |q| ≤ 0)]
          linarith
      by_cases hneg : q < 0
      · rw [if_pos hneg] at hr
        subst hr
        refine ⟨hmag.2, fun d hd => ?_⟩
        have hq' : |q| = -q := abs_of_neg hneg
        have e1 : |-((n : ℚ) * 2 ^ e) - q| = |(n : ℚ) * 2 ^ e - abs q| := by
          rw [hq', ← abs_neg]; congr 1; ring
        have e2 : |d - q| = |(-d) - abs q| := by
          rw [hq', ← abs_neg]; congr 1; ring
        rw [e1, e2]
        exact (key d hd).2
      · rw [if_neg hneg] at hr
        subst hr
        refine ⟨hmag.1, fun d hd => ?_⟩
        have hq' : |q| = q := abs_of_nonneg (le_of_not_lt hneg)
        have := (key d hd).1
        rwa [hq'] at this

/-- A double stands for itself: rounding leaves it as it is. -/
theorem roundDouble_of_isDouble (d : ℚ) (h : IsDouble d) : roundDouble d = JsVal.num d := by
  by_cases hq : d = 0
  · subst hq
    simp [roundDouble]
  · obtain ⟨n, e, he, c1, c2, c3, c4, hshape⟩ := roundDouble_shape d hq
    have hexact : (n : ℚ) * 2 ^ e = |d| ∧ |d| < 2 ^ 1024 := by
      obtain ⟨m, E, hm, hE, hE2, hd⟩ := h
      have hmq : (m : ℚ) < 2 ^ 53 := by
        have : ((m : ℕ) : ℚ) < ((2 ^ 53 : ℕ) : ℚ) := by exact_mod_cast hm
        push_cast at this
        exact this
      have hpos : (0 : ℚ) ≤ (m : ℚ) * 2 ^ E := by positivity
      have habs : |d| = (m : ℚ) * 2 ^ E := by
        rcases hd with hd | hd
        · rw [hd, abs_of_nonneg hpos]
        · rw [hd, abs_neg, abs_of_nonneg hpos]
      have h0 := c4 m E hm hE
      rw [habs, sub_self, abs_zero] at h0
      have h1 : (n : ℚ) * 2 ^ e - (m : ℚ) * 2 ^ E = 0 := abs_eq_zero.mp (le_antisymm h0 (abs_nonneg _))
      refine ⟨by rw [habs]; linarith, ?_⟩
      rw [habs]
      have hE0 : (0 : ℚ) < 2 ^ E := by positivity
      have hle : (2 : ℚ) ^ E ≤ 2 ^ (971 : ℤ) := zpow_le_zpow_right₀ (by norm_num) hE2
      calc (m : ℚ) * 2 ^ E < 2 ^ 53 * 2 ^ E := mul_lt_mul_of_pos_right hmq hE0
        _ ≤ 2 ^ 53 * 2 ^ (971 : ℤ) := mul_le_mul_of_nonneg_left hle (by positivity)
        _ = 2 ^ 1024 := two_pow_1024_eq.2.symm
    rw [hshape, hexact.1, if_neg (not_le.mpr hexact.2)]
    by_cases hneg : d < 0
    · rw [if_pos hneg, abs_of_neg hneg, neg_neg]
    · rw [if_neg hneg, abs_of_nonneg (le_of_not_lt hneg)]

/-! ## Numbers, evaluated -/

theorem JsVal.eq_num_of_isNum (v : JsVal) (r : ℚ) (h : v.isNum r = true) : v = JsVal.num r := by
  cases v <;> simp_all [JsVal.isNum]

/-- The double `0.1`. -/
theorem roundDouble_tenth :
    roundDouble (1 / 10) = JsVal.num (3602879701896397 / 36028797018963968) :=
  JsVal.eq_num_of_isNum _ _ (by decide!)

/-- The quotient `123456789 / 1e8` is the double `1.23456789`, not the fraction. -/
theorem div1e8_of_123456789 :
    (JsVal.num 123456789).div1e8 = JsVal.num (5559999489367579 / 4503599627370496) :=
  JsVal.eq_num_of_isNum _ _ (by decide!)

/-- The quotient `1 / 1e8` is the double `1e-8`. -/
theorem div1e8_of_one :
    (JsVal.num 1).div1e8 = JsVal.num (3022314549036573 / 302231454903657293676544) :=
  JsVal.eq_num_of_isNum _ _ (by decide!)

/-- A price given by its digits is divided as the number it stands for:
`'150000000' / 1e8` is `1.5`. -/
theorem div1e8_of_digits : (JsVal.str "150000000").div1e8 = JsVal.num (3 / 2) :=
  JsVal.eq_num_of_isNum _ _ (by decide!)

/-- Beyond `2 ^ 53` a difference is rounded: `9007199254740992 - (-1)` is
`9007199254740992`. -/
theorem sub_beyond_two_pow_53 :
    JsVal.sub (JsVal.num 9007199254740992) (JsVal.num (-1)) = JsVal.num 9007199254740992 :=
  JsVal.eq_num_of_isNum _ _ (by decide!)

/-- Amounts given by their digits are subtracted as numbers: `'5' - ' 2.5e0 '` is `2.5`. -/
theorem sub_of_digits : JsVal.sub (JsVal.str "5") (JsVal.str " 2.5e0 ") = JsVal.num (5 / 2) :=
  JsVal.eq_num_of_isNum _ _ (by decide!)

/-- The comparisons `0 <= '100'` and `2 <= '100'` are of numbers and hold; the
comparison `'2' <= '100'` is of texts and fails. -/
theorem lessEq_number_and_digits :
    JsVal.lessEq (JsVal.num 0) (JsVal.str "100") = true ∧
    JsVal.lessEq (JsVal.num 2) (JsVal.str "100") = true ∧
    JsVal.lessEq (JsVal.str "2") (JsVal.str "100") = false := by
  refine ⟨?_, ?_, ?_⟩ <;> decide!

/-- What is not a numeric literal, or not a primitive that stands for a
number, is `NaN` in arithmetic. -/
theorem div1e8_not_a_number :
    stringToNumber "12px" = JsVal.nan ∧ stringToNumber "1e" = JsVal.nan ∧
    stringToNumber "." = JsVal.nan ∧ stringToNumber "-0x1F" = JsVal.nan ∧
    (JsVal.str "1,5").div1e8 = JsVal.nan ∧ (JsVal.obj []).div1e8 = JsVal.nan ∧
    JsVal.undefined.div1e8 = JsVal.nan :=
  ⟨rfl, rfl, rfl, rfl, rfl, rfl, rfl⟩

/-! ## Objects: reading after writing -/

namespace Obj

theorem getOwn_setProp (o : Obj) (k : String) (v : JsVal) (q : String) :
    getOwn (setProp o k v) q = if k = q then some v else getOwn o q := by
  induction o with
  | nil => simp [setProp, getOwn]
  | cons e rest ih =>
    obtain ⟨k', v'⟩ := e
    by_cases h : k' = k
    · subst h
      by_cases hq : k' = q <;> simp [setProp, getOwn, hq]
    · by_cases hq : k' = q
      · subst hq
        have hne : ¬ k = k' := fun h' => h h'.symm
        simp [setProp, getOwn, h, hne]
      · simp [setProp, getOwn, h, hq, ih]

theorem getOwn_rest (o : Obj) (k q : String) :
    getOwn (rest o k) q = if k = q then none else getOwn o q := by
  induction o with
  | nil => simp [rest, getOwn]
  | cons e more ih =>
    obtain ⟨k', v'⟩ := e
    by_cases h : k' = k
    · subst h
      by_cases hq : k' = q
      · subst hq
        simpa [rest, getOwn] using ih
      · simp [rest, getOwn, hq, ih]
    · by_cases hq : k' = q
      · subst hq
        have hne : ¬ k = k' := fun h' => h h'.symm
        simp [rest, getOwn, h, hne]
      · simp [rest, getOwn, h, hq, ih]

theorem keys_setProp_of_not_mem (o : Obj) (k : String) (v : JsVal) (h : k ∉ keys o) :
    keys (setProp o k v) = keys o ++ [k] := by
  induction o with
  | nil => simp [setProp, keys]
  | cons e more ih =>
    obtain ⟨k', v'⟩ := e
    have hk : ¬ k' = k := by
      intro h'; apply h; simp [keys, h']
    have hm : k ∉ keys more := by
      intro h'; apply h; simp only [keys, List.map_cons, List.mem_cons]; exact Or.inr h'
    have := ih hm
    simp only [keys] at this
    simp [setProp, keys, hk, this]

theorem keys_setProp_of_mem (o : Obj) (k : String) (v : JsVal) (h : k ∈ keys o) :
    keys (setProp o k v) = keys o := by
  induction o with
  | nil => simp [keys] at h
  | cons e more ih =>
    obtain ⟨k', v'⟩ := e
    by_cases hk : k' = k
    · simp [setProp, keys, hk]
    · have hm : k ∈ keys more := by
        simp only [keys, List.map_cons, List.mem_cons] at h
        rcases h with h | h
        · exact absurd h.symm hk
        · exact h
      have := ih hm
      simp only [keys] at this
      simp [setProp, keys, hk, this]

end Obj

/-! ## Compact records -/

namespace Lodash

theorem baseZipObject_cons (p : String) (ps : List String) (vs : List JsVal) (r : Obj) :
    baseZipObject (p :: ps) vs r
      = baseZipObject ps vs.tail (Obj.setProp r p (vs.getD 0 JsVal.undefined)) := by
  cases vs <;> simp [baseZipObject]

theorem getOwn_baseZipObject_of_not_mem (ps : List String) (vs : List JsVal) (r : Obj)
    (q : String) (h : q ∉ ps) :
    Obj.getOwn (baseZipObject ps vs r) q = Obj.getOwn r q := by
  induction ps generalizing vs r with
  | nil => simp [baseZipObject]
  | cons p ps ih =>
    have hp : ¬ p = q := fun h' => h (by simp [h'])
    have hq : q ∉ ps := fun h' => h (by simp [h'])
    rw [baseZipObject_cons, ih _ _ hq, Obj.getOwn_setProp]
    simp [hp]

theorem getOwn_baseZipObject (ps : List String) (vs : List JsVal) (r : Obj) (hd : ps.Nodup)
    (i : Nat) (hi : i < ps.length) :
    Obj.getOwn (baseZipObject ps vs r) (ps.get ⟨i, hi⟩) = some (vs.getD i JsVal.undefined) := by
  induction ps generalizing vs r i with
  | nil => simp at hi
  | cons p ps ih =>
    rw [baseZipObject_cons]
    have hp : p ∉ ps := (List.nodup_cons.mp hd).1
    have hps : ps.Nodup := (List.nodup_cons.mp hd).2
    cases i with
    | zero =>
      simp only [List.get_eq_getElem, List.getElem_cons_zero]
      rw [getOwn_baseZipObject_of_not_mem _ _ _ _ hp, Obj.getOwn_setProp]
      simp
    | succ j =>
      have hj : j < ps.length := by simpa using hi
      have := ih vs.tail (Obj.setProp r p (vs.getD 0 JsVal.undefined)) hps j hj
      simp only [List.get_eq_getElem, List.getElem_cons_succ] at this ⊢
      rw [this]
      cases vs <;> simp

theorem keys_baseZipObject (ps : List String) (vs : List JsVal) (r : Obj) (hd : ps.Nodup)
    (hr : ∀ p ∈ ps, p ∉ Obj.keys r) :
    Obj.keys (baseZipObject ps vs r) = Obj.keys r ++ ps := by
  induction ps generalizing vs r with
  | nil => simp [baseZipObject]
  | cons p ps ih =>
    have hp : p ∉ ps := (List.nodup_cons.mp hd).1
    have hps : ps.Nodup := (List.nodup_cons.mp hd).2
    have hpr : p ∉ Obj.keys r := hr p (by simp)
    rw [baseZipObject_cons, ih _ _ hps, Obj.keys_setProp_of_not_mem _ _ _ hpr]
    · simp
    · intro q hq
      rw [Obj.keys_setProp_of_not_mem _ _ _ hpr]
      intro hmem
      rcases List.mem_append.mp hmem with h | h
      · exact hr q (by simp [hq]) h
      · have : q = p := by simpa using h
        exact hp (this ▸ hq)

theorem zipObject_names (Columns : List String) (row : List JsVal) :
    zipObject (JsVal.arr (Columns.map JsVal.str)) (JsVal.arr row) = baseZipObject Columns row [] := by
  simp [zipObject, JsVal.elements, Function.comp_def, JsVal.propertyKey]

end Lodash

namespace BaseTransport

open JsVal

theorem decodeRow_names (Columns : List String) (row : List JsVal) (hd : Columns.Nodup) :
    ∃ record : Obj,
      decodeRow (arr (Columns.map str)) (arr row) = obj record ∧
      record.keys = Columns ∧
      ∀ (i : Nat) (hi : i < Columns.length),
        Obj.getOwn record (Columns.get ⟨i, hi⟩) = some (row.getD i undefined) := by
  refine ⟨Lodash.baseZipObject Columns row [], ?_, ?_, ?_⟩
  · simp [decodeRow, Lodash.zipObject_names]
  · simpa [Obj.keys] using Lodash.keys_baseZipObject Columns row [] hd (by simp [Obj.keys])
  · intro i hi
    exact Lodash.getOwn_baseZipObject Columns row [] hd i hi

theorem decodeGroupHandler_decodes (grp : String) (hg : grp ≠ "Columns") (data : Obj)
    (rows : List JsVal) (h : Obj.getOwn data grp = some (arr rows)) :
    ∃ result : Obj, decodeGroupHandler grp data = Except.ok (some result) ∧
      GroupDecoded grp data rows result := by
  have hp : Obj.prop data grp = arr rows := by simp [Obj.prop, h]
  refine ⟨_, rfl, rows.map (decodeRow (Obj.prop data "Columns")), ?_, ?_, ?_, ?_, ?_, ?_⟩
  · simp [Obj.getOwn_setProp, hp, Lodash.map, JsVal.elements]
  · simp
  · intro names hd hcols i xs hrow
    obtain ⟨record, h1, h2, h3⟩ := decodeRow_names names xs hd
    refine ⟨record, ?_, fun k => by rw [h2], h3⟩
    rw [List.getElem?_map, hrow, hcols]
    simp [h1]
  · intro i hi
    simp [List.getElem?_map, List.getElem?_eq_getElem hi]
  · intro k hk hkg
    have h1 : ¬ grp = k := fun h' => hkg h'.symm
    have h2 : ¬ "Columns" = k := fun h' => hk h'.symm
    simp [Obj.getOwn_setProp, Obj.getOwn_rest, h1, h2]
  · simp [Obj.getOwn_setProp, Obj.getOwn_rest, hg]

end BaseTransport

/-- C1. Compact-record decoding, as `myOrders`, `requestWithdrawList` and
`requestDepositList` apply it to each row: for pairwise distinct column names
and a row of the same length, the decoded record has exactly the names of
`Columns` as its fields and holds `row[i]` under `Columns[i]` at every
position `i`. -/
theorem C1_decodeRow_zips (Columns : List String) (row : List JsVal) (hd : Columns.Nodup)
    (hl : Columns.length = row.length) :
    ∃ record : Obj,
      BaseTransport.decodeRow (JsVal.arr (Columns.map JsVal.str)) (JsVal.arr row)
        = JsVal.obj record ∧
      (∀ k : String, k ∈ record.keys ↔ k ∈ Columns) ∧
      ∀ (i : Nat) (hi : i < Columns.length),
        Obj.getOwn record (Columns.get ⟨i, hi⟩) = some (row.get ⟨i, hl ▸ hi⟩) := by
  obtain ⟨record, h1, h2, h3⟩ := BaseTransport.decodeRow_names Columns row hd
  refine ⟨record, h1, fun k => by rw [h2], ?_⟩
  intro i hi
  have hr : i < row.length := hl ▸ hi
  rw [h3 i hi]
  simp [List.getD_eq_getElem?_getD, List.getElem?_eq_getElem hr]

/-- Witness of C1: `Columns = ["A","B","C"]` and `row = [1,2,3]`. -/
theorem C1_decodeRow_zips_witness :
    ["A", "B", "C"].Nodup ∧
    ["A", "B", "C"].length = [JsVal.num 1, JsVal.num 2, JsVal.num 3].length ∧
    BaseTransport.decodeRow (JsVal.arr [JsVal.str "A", JsVal.str "B", JsVal.str "C"])
        (JsVal.arr [JsVal.num 1, JsVal.num 2, JsVal.num 3])
      = JsVal.obj [("A", JsVal.num 1), ("B", JsVal.num 2), ("C", JsVal.num 3)] ∧
    ∃ record : Obj,
      BaseTransport.decodeRow (JsVal.arr (["A", "B", "C"].map JsVal.str))
        (JsVal.arr [JsVal.num 1, JsVal.num 2, JsVal.num 3]) = JsVal.obj record ∧
      (∀ k : String, k ∈ record.keys ↔ k ∈ ["A", "B", "C"]) ∧
      ∀ (i : Nat) (hi : i < ["A", "B", "C"].length),
        Obj.getOwn record (["A", "B", "C"].get ⟨i, hi⟩)
          = some ([JsVal.num 1, JsVal.num 2, JsVal.num 3].get ⟨i, hi⟩) :=
  ⟨by decide, rfl, rfl,
    C1_decodeRow_zips ["A", "B", "C"] [JsVal.num 1, JsVal.num 2, JsVal.num 3] (by decide) rfl⟩

/-- C2, counterexample. A reply with three columns and a row of two values
is not refused: `myOrders` resolves, and the record it returns is padded with
`C: undefined`; a row of four values is cut to three. -/
theorem C2_short_row_is_padded :
    BaseTransport.myOrders sampleMsgTypes (repliesWith shortRowReply) (JsVal.num 17)
        JsVal.undefined JsVal.undefined
      = Outcome.resolved [("OrdersReqID", JsVal.num 930019),
          ("OrdListGrp", JsVal.arr [JsVal.obj
            [("A", JsVal.num 1), ("B", JsVal.num 2), ("C", JsVal.undefined)]])] ∧
    BaseTransport.decodeRow (JsVal.arr [JsVal.str "A", JsVal.str "B", JsVal.str "C"])
        (JsVal.arr [JsVal.num 1, JsVal.num 2, JsVal.num 3, JsVal.num 4])
      = JsVal.obj [("A", JsVal.num 1), ("B", JsVal.num 2), ("C", JsVal.num 3)] :=
  ⟨rfl, rfl⟩

/-- C2, amended. Compact-record decoding, as `myOrders`, `requestWithdrawList`
and `requestDepositList` apply it to each row, gives a record whatever the
length of the row: for pairwise distinct column names, the decoded record has
exactly the names of `Columns` as its fields and holds under `Columns[i]` the
value `row[i]` when the row has a position `i`, and `undefined` when it has
not; values of the row beyond the last column are in no field. -/
theorem C2_mismatched_row_is_decoded (Columns : List String) (row : List JsVal)
    (hd : Columns.Nodup) :
    ∃ record : Obj,
      BaseTransport.decodeRow (JsVal.arr (Columns.map JsVal.str)) (JsVal.arr row)
        = JsVal.obj record ∧
      (∀ k : String, k ∈ record.keys ↔ k ∈ Columns) ∧
      ∀ (i : Nat) (hi : i < Columns.length),
        Obj.getOwn record (Columns.get ⟨i, hi⟩) = some (row.getD i JsVal.undefined) := by
  obtain ⟨record, h1, h2, h3⟩ := BaseTransport.decodeRow_names Columns row hd
  exact ⟨record, h1, fun k => by rw [h2], h3⟩

/-- Witness of C2, amended: three columns against a row of two values, and
against a row of four. -/
theorem C2_mismatched_row_is_decoded_witness :
    ["A", "B", "C"].Nodup ∧
    (∃ record : Obj,
      BaseTransport.decodeRow (JsVal.arr (["A", "B", "C"].map JsVal.str))
        (JsVal.arr [JsVal.num 1, JsVal.num 2]) = JsVal.obj record ∧
      (∀ k : String, k ∈ record.keys ↔ k ∈ ["A", "B", "C"]) ∧
      ∀ (i : Nat) (hi : i < ["A", "B", "C"].length),
        Obj.getOwn record (["A", "B", "C"].get ⟨i, hi⟩)
          = some ([JsVal.num 1, JsVal.num 2].getD i JsVal.undefined)) ∧
    BaseTransport.decodeRow (JsVal.arr (["A", "B", "C"].map JsVal.str))
        (JsVal.arr [JsVal.num 1, JsVal.num 2])
      = JsVal.obj [("A", JsVal.num 1), ("B", JsVal.num 2), ("C", JsVal.undefined)] :=
  ⟨by decide,
    C2_mismatched_row_is_decoded ["A", "B", "C"] [JsVal.num 1, JsVal.num 2] (by decide),
    rfl⟩

/-- C3. Group decoding in `myOrders`, `requestWithdrawList` and
`requestDepositList`: when `send` delivers the reply `data`, each operation
resolves with a result whose group has one entry per row of the reply's group,
the `i`-th entry being the decoding of the `i`-th row against `data.Columns`
(for distinct column names, the record that has those names as its fields and
holds the `j`-th value of the row under the `j`-th name), so that the order of
the rows is kept; the result carries every other field of the reply unchanged
and has no `Columns` field. -/
theorem C3_group_decoding (MsgTypes : MsgTypesTable) (T : Transport)
    (reqId page pageSize statusList : JsVal) (data : Obj)
    (hsend : ∀ msg, T.send msg = Outcome.resolved data) :
    (∀ rows, Obj.getOwn data "OrdListGrp" = some (JsVal.arr rows) →
      ∃ result, BaseTransport.myOrders MsgTypes T reqId page pageSize = Outcome.resolved result ∧
        GroupDecoded "OrdListGrp" data rows result) ∧
    (∀ rows, Obj.getOwn data "WithdrawListGrp" = some (JsVal.arr rows) →
      ∃ result, BaseTransport.requestWithdrawList MsgTypes T reqId page pageSize statusList
          = Outcome.resolved result ∧
        GroupDecoded "WithdrawListGrp" data rows result) ∧
    (∀ rows, Obj.getOwn data "DepositListGrp" = some (JsVal.arr rows) →
      ∃ result, BaseTransport.requestDepositList MsgTypes T reqId page pageSize statusList
          = Outcome.resolved result ∧
        GroupDecoded "DepositListGrp" data rows result) := by
  refine ⟨?_, ?_, ?_⟩
  · intro rows h
    obtain ⟨result, hr, hdec⟩ :=
      BaseTransport.decodeGroupHandler_decodes "OrdListGrp" (by decide) data rows h
    exact ⟨result, by simp [BaseTransport.myOrders, hsend, Outcome.thenCatch, hr], hdec⟩
  · intro rows h
    obtain ⟨result, hr, hdec⟩ :=
      BaseTransport.decodeGroupHandler_decodes "WithdrawListGrp" (by decide) data rows h
    exact ⟨result, by simp [BaseTransport.requestWithdrawList, hsend, Outcome.thenCatch, hr], hdec⟩
  · intro rows h
    obtain ⟨result, hr, hdec⟩ :=
      BaseTransport.decodeGroupHandler_decodes "DepositListGrp" (by decide) data rows h
    exact ⟨result, by simp [BaseTransport.requestDepositList, hsend, Outcome.thenOnly, hr], hdec⟩

/-- Witness of C3: a reply of two orders under the columns `OrderID` and
`Symbol`, delivered to `myOrders`, and the result it resolves with. -/
theorem C3_group_decoding_witness :
    (∀ msg, (repliesWith twoOrdersReply).send msg = Outcome.resolved twoOrdersReply) ∧
    Obj.getOwn twoOrdersReply "OrdListGrp"
      = some (JsVal.arr [JsVal.arr [JsVal.num 11, JsVal.str "BTCUSD"],
          JsVal.arr [JsVal.num 12, JsVal.str "BTCBRL"]]) ∧
    (∃ result, BaseTransport.myOrders sampleMsgTypes (repliesWith twoOrdersReply) (JsVal.num 17)
          JsVal.undefined JsVal.undefined = Outcome.resolved result ∧
      GroupDecoded "OrdListGrp" twoOrdersReply
        [JsVal.arr [JsVal.num 11, JsVal.str "BTCUSD"], JsVal.arr [JsVal.num 12, JsVal.str "BTCBRL"]]
        result) ∧
    BaseTransport.myOrders sampleMsgTypes (repliesWith twoOrdersReply) (JsVal.num 17)
        JsVal.undefined JsVal.undefined
      = Outcome.resolved [("MsgType", JsVal.str "U5"),
          ("OrdListGrp", JsVal.arr [
            JsVal.obj [("OrderID", JsVal.num 11), ("Symbol", JsVal.str "BTCUSD")],
            JsVal.obj [("OrderID", JsVal.num 12), ("Symbol", JsVal.str "BTCBRL")]])] :=
  ⟨fun _ => rfl, rfl,
    (C3_group_decoding sampleMsgTypes (repliesWith twoOrdersReply) (JsVal.num 17) JsVal.undefined
      JsVal.undefined JsVal.undefined twoOrdersReply (fun _ => rfl)).1 _ rfl,
    rfl⟩

/-- C4, at the failing input. When `send` rejects with `e`, eight of the nine
request operations reject with that same `e`; `requestDepositList`, whose
chain has no `catch(reject)`, leaves its promise pending. -/
theorem C4_requestDepositList_drops_rejection (MsgTypes : MsgTypesTable)
    (CLIENT_ORDER_ID brokerId reqId a b c d : JsVal) (param : CancelParam) (e : Reason) :
    BaseTransport.balance MsgTypes { brokerId := brokerId, send := fun _ => Outcome.rejected e }
        reqId = Outcome.rejected e ∧
    BaseTransport.myOrders MsgTypes { brokerId := brokerId, send := fun _ => Outcome.rejected e }
        reqId a b = Outcome.rejected e ∧
    (BaseTransport.sendOrder MsgTypes CLIENT_ORDER_ID
        { brokerId := brokerId, send := fun _ => Outcome.rejected e } reqId a b c d).promise
      = Outcome.rejected e ∧
    BaseTransport.cancelOrder MsgTypes
        { brokerId := brokerId, send := fun _ => Outcome.rejected e } param = Outcome.rejected e ∧
    BaseTransport.requestWithdrawList MsgTypes
        { brokerId := brokerId, send := fun _ => Outcome.rejected e } reqId a b c
      = Outcome.rejected e ∧
    BaseTransport.requestWithdraw MsgTypes
        { brokerId := brokerId, send := fun _ => Outcome.rejected e } reqId a b c d
      = Outcome.rejected e ∧
    BaseTransport.requestDeposit MsgTypes
        { brokerId := brokerId, send := fun _ => Outcome.rejected e } reqId a b c
      = Outcome.rejected e ∧
    BaseTransport.requestDepositMethods MsgTypes
        { brokerId := brokerId, send := fun _ => Outcome.rejected e } reqId = Outcome.rejected e ∧
    BaseTransport.requestDepositList MsgTypes
        { brokerId := brokerId, send := fun _ => Outcome.rejected e } reqId a b c
      = Outcome.pending :=
  ⟨rfl, rfl, rfl, rfl, rfl, rfl, rfl, rfl, rfl⟩

/-! ## Subscriptions -/

theorem BlinkTradeWS.formatTicker_other (data : Obj) (k : String) (hk : k ∉ tickerPriceFields) :
    Obj.getOwn (BlinkTradeWS.formatTicker data) k = Obj.getOwn data k := by
  simp only [tickerPriceFields, List.mem_cons, List.mem_singleton, not_or, List.not_mem_nil,
    or_false] at hk
  obtain ⟨k1, k2, k3, k4, k5, k6, k7⟩ := hk
  have n1 : ¬ "SellVolume" = k := fun h => k1 h.symm
  have n2 : ¬ "LowPx" = k := fun h => k2 h.symm
  have n3 : ¬ "LastPx" = k := fun h => k3 h.symm
  have n4 : ¬ "BestAsk" = k := fun h => k4 h.symm
  have n5 : ¬ "HighPx" = k := fun h => k5 h.symm
  have n6 : ¬ "BuyVolume" = k := fun h => k6 h.symm
  have n7 : ¬ "BestBid" = k := fun h => k7 h.symm
  simp [BlinkTradeWS.formatTicker, Obj.getOwn_setProp, n1, n2, n3, n4, n5, n6, n7]

theorem BlinkTradeWS.formatTicker_field (data : Obj) (k : String) (hk : k ∈ tickerPriceFields) :
    Obj.getOwn (BlinkTradeWS.formatTicker data) k = some (Obj.prop data k).div1e8 := by
  simp only [tickerPriceFields, List.mem_cons, List.mem_singleton, List.not_mem_nil,
    or_false] at hk
  rcases hk with h | h | h | h | h | h | h <;> subst h <;>
    simp [BlinkTradeWS.formatTicker, Obj.getOwn_setProp]

/-- C5, counterexample. A reply whose `MsgType` is `'Y'` leaves the promise of
`subscribeOrderbook` pending: it is neither resolved nor rejected. -/
theorem C5_other_reply_leaves_pending :
    (BlinkTradeWS.subscribeOrderbook sampleMsgTypes sampleActionTypes
        (fun _ => Outcome.resolved marketDataReject) (JsVal.num 17)
        (JsVal.arr [JsVal.str "BTCUSD"]) false).promise = Outcome.pending ∧
    (BlinkTradeWS.subscribeOrderbook sampleMsgTypes sampleActionTypes
        (fun _ => Outcome.resolved marketDataReject) (JsVal.num 17)
        (JsVal.arr [JsVal.str "BTCUSD"]) false).promise.settled = false :=
  ⟨rfl, rfl⟩

/-- C5, amended. For every reply of `MsgType` `'W'` that `send` delivers, the
promise of `subscribeOrderbook` is settled: it is resolved with the formatted
order book when `MDFullGrp` is an array without `null` or `undefined` entries,
and it is rejected with the `TypeError` of the failed read when `MDFullGrp` is
anything else.  A reply of any other `MsgType` leaves the promise pending. -/
theorem C5_settled_on_full_refresh (MsgTypes : MsgTypesTable) (A : ActionTypes)
    (send : Obj → Outcome Obj) (reqId symbols : JsVal) (hasCallback : Bool) (data : Obj)
    (hsend : send (BlinkTradeWS.subscribeOrderbookMsg MsgTypes reqId symbols)
      = Outcome.resolved data) :
    (∀ orders : List JsVal, (Obj.prop data "MsgType").isStr "W" = true →
      Obj.prop data "MDFullGrp" = JsVal.arr orders → orders.any JsVal.isNullish = false →
      (BlinkTradeWS.subscribeOrderbook MsgTypes A send reqId symbols hasCallback).promise
        = Outcome.resolved (BlinkTradeWS.formatOrderbook data orders)) ∧
    ((Obj.prop data "MsgType").isStr "W" = true →
      (∀ orders : List JsVal, Obj.prop data "MDFullGrp" = JsVal.arr orders →
        orders.any JsVal.isNullish = true) →
      (BlinkTradeWS.subscribeOrderbook MsgTypes A send reqId symbols hasCallback).promise
        = Outcome.rejected Reason.typeError) ∧
    ((Obj.prop data "MsgType").isStr "W" = false →
      (BlinkTradeWS.subscribeOrderbook MsgTypes A send reqId symbols hasCallback).promise
        = Outcome.pending) := by
  refine ⟨?_, ?_, ?_⟩
  · intro orders hW hgrp hnull
    simp [BlinkTradeWS.subscribeOrderbook, hsend, hW, hgrp, hnull]
  · intro hW hbad
    cases hgrp : Obj.prop data "MDFullGrp" with
    | arr orders =>
      have hnull := hbad orders hgrp
      simp [BlinkTradeWS.subscribeOrderbook, hsend, hW, hgrp, hnull]
    | _ => simp [BlinkTradeWS.subscribeOrderbook, hsend, hW, hgrp]
  · intro hW
    simp [BlinkTradeWS.subscribeOrderbook, hsend, hW]

/-- Witness of C5, amended: a full refresh of three entries is delivered, and
the promise is resolved with its order book. -/
theorem C5_settled_on_full_refresh_witness :
    (fun _ => Outcome.resolved fullRefresh : Obj → Outcome Obj)
        (BlinkTradeWS.subscribeOrderbookMsg sampleMsgTypes (JsVal.num 17)
          (JsVal.arr [JsVal.str "BTCUSD"]))
      = Outcome.resolved fullRefresh ∧
    (Obj.prop fullRefresh "MsgType").isStr "W" = true ∧
    Obj.prop fullRefresh "MDFullGrp" = JsVal.arr (Obj.prop fullRefresh "MDFullGrp").elements ∧
    (Obj.prop fullRefresh "MDFullGrp").elements.any JsVal.isNullish = false ∧
    (BlinkTradeWS.subscribeOrderbook sampleMsgTypes sampleActionTypes
        (fun _ => Outcome.resolved fullRefresh) (JsVal.num 17)
        (JsVal.arr [JsVal.str "BTCUSD"]) true).promise
      = Outcome.resolved (BlinkTradeWS.formatOrderbook fullRefresh
          (Obj.prop fullRefresh "MDFullGrp").elements) :=
  ⟨rfl, rfl, rfl, rfl,
    (C5_settled_on_full_refresh sampleMsgTypes sampleActionTypes
      (fun _ => Outcome.resolved fullRefresh) (JsVal.num 17) (JsVal.arr [JsVal.str "BTCUSD"])
      true fullRefresh rfl).1 (Obj.prop fullRefresh "MDFullGrp").elements rfl rfl rfl⟩

/-- C6. `subscribeTicker` treats its acknowledgement as both a reply and the
start of a subscription.  For every reply, which echoes in its
`SecurityStatusReqID` the identifier generated for the submitted message, the
promise resolves with the price-scaled reply (each of the seven price fields
divided by `1e8`, every other field as in the reply), and exactly one standing
listener is registered, under the key `SecurityStatusReqID` and the generated
identifier. -/
theorem C6_ticker_reply_and_subscription (MsgTypes : MsgTypesTable) (send : Obj → Outcome Obj)
    (reqId symbols : JsVal) (hasCallback : Bool) (data : Obj) (c : Core)
    (hsend : send (BlinkTradeWS.subscribeTickerMsg MsgTypes reqId symbols)
      = Outcome.resolved data)
    (hecho : Obj.prop data "SecurityStatusReqID" = reqId) :
    Obj.getOwn (BlinkTradeWS.subscribeTickerMsg MsgTypes reqId symbols) "SecurityStatusReqID"
      = some reqId ∧
    (∃ result : Obj,
      (BlinkTradeWS.subscribeTicker MsgTypes send reqId symbols hasCallback).promise
        = Outcome.resolved result ∧
      (∀ k : String, k ∈ tickerPriceFields →
        Obj.getOwn result k = some (Obj.prop data k).div1e8) ∧
      (∀ k : String, k ∉ tickerPriceFields → Obj.getOwn result k = Obj.getOwn data k)) ∧
    (BlinkTradeWS.subscribeTicker MsgTypes send reqId symbols hasCallback).calls
      = [Call.registerEventEmitter "SecurityStatusReqID" reqId
          (BlinkTradeWS.tickerListener hasCallback)] ∧
    (c.after (BlinkTradeWS.subscribeTicker MsgTypes send reqId symbols hasCallback).calls).registry
      = c.registry ++ [("SecurityStatusReqID", reqId, BlinkTradeWS.tickerListener hasCallback)] := by
  refine ⟨?_, ⟨BlinkTradeWS.formatTicker data, ?_, ?_, ?_⟩, ?_, ?_⟩
  · simp [BlinkTradeWS.subscribeTickerMsg, Obj.getOwn]
  · simp [BlinkTradeWS.subscribeTicker, hsend]
  · exact BlinkTradeWS.formatTicker_field data
  · exact BlinkTradeWS.formatTicker_other data
  · simp [BlinkTradeWS.subscribeTicker, hsend, hecho]
  · simp [BlinkTradeWS.subscribeTicker, hsend, Core.after, Core.step, hecho]

/-- Witness of C6: the reply echoes the identifier 17, and the one listener
stands under 17. -/
theorem C6_ticker_reply_and_subscription_witness :
    (fun _ => Outcome.resolved (tickerReply (JsVal.num 17)) : Obj → Outcome Obj)
        (BlinkTradeWS.subscribeTickerMsg sampleMsgTypes (JsVal.num 17)
          (JsVal.arr [JsVal.str "BTCUSD"]))
      = Outcome.resolved (tickerReply (JsVal.num 17)) ∧
    Obj.prop (tickerReply (JsVal.num 17)) "SecurityStatusReqID" = JsVal.num 17 ∧
    (BlinkTradeWS.subscribeTicker sampleMsgTypes
        (fun _ => Outcome.resolved (tickerReply (JsVal.num 17))) (JsVal.num 17)
        (JsVal.arr [JsVal.str "BTCUSD"]) true).calls
      = [Call.registerEventEmitter "SecurityStatusReqID" (JsVal.num 17)
          (BlinkTradeWS.tickerListener true)] ∧
    (Core.empty.after (BlinkTradeWS.subscribeTicker sampleMsgTypes
        (fun _ => Outcome.resolved (tickerReply (JsVal.num 17))) (JsVal.num 17)
        (JsVal.arr [JsVal.str "BTCUSD"]) true).calls).registry
      = Core.empty.registry ++ [("SecurityStatusReqID", JsVal.num 17,
          BlinkTradeWS.tickerListener true)] ∧
    ((Core.empty.after (BlinkTradeWS.subscribeTicker sampleMsgTypes
        (fun _ => Outcome.resolved (tickerReply (JsVal.num 17))) (JsVal.num 17)
        (JsVal.arr [JsVal.str "BTCUSD"]) true).calls).standing "SecurityStatusReqID"
        (JsVal.num 17)).length = 1 :=
  ⟨rfl, rfl,
    (C6_ticker_reply_and_subscription sampleMsgTypes
      (fun _ => Outcome.resolved (tickerReply (JsVal.num 17))) (JsVal.num 17)
      (JsVal.arr [JsVal.str "BTCUSD"]) true (tickerReply (JsVal.num 17)) Core.empty rfl
      rfl).2.2.1,
    (C6_ticker_reply_and_subscription sampleMsgTypes
      (fun _ => Outcome.resolved (tickerReply (JsVal.num 17))) (JsVal.num 17)
      (JsVal.arr [JsVal.str "BTCUSD"]) true (tickerReply (JsVal.num 17)) Core.empty rfl
      rfl).2.2.2,
    by decide⟩

/-- C7, counterexample. A ticker subscription is acknowledged under the
identifier 17 and then `unSubscribeTicker(17)` is called: an event published
afterwards under that key still reaches the caller's callback. -/
theorem C7_listener_survives_unsubscribe :
    ((Core.empty.after (BlinkTradeWS.subscribeTicker sampleMsgTypes
          (fun _ => Outcome.resolved (tickerReply (JsVal.num 17))) (JsVal.num 17)
          (JsVal.arr [JsVal.str "BTCUSD"]) true).calls).after
        (BlinkTradeWS.unSubscribeTicker sampleMsgTypes (JsVal.num 17)).calls).publish
        "SecurityStatusReqID" (JsVal.num 17) (tickerReply (JsVal.num 17))
      = [Emission.callback JsVal.null
          (JsVal.obj (BlinkTradeWS.formatTicker (tickerReply (JsVal.num 17)))),
         Emission.emit "BLINK:BTCUSD"
          (JsVal.obj (BlinkTradeWS.formatTicker (tickerReply (JsVal.num 17))))] :=
  rfl

/-- C7, amended. `unSubscribeTicker(id)` and `unSubscribeOrderbook(id)` hand
the connection one unsubscribe message carrying `id` (with
`SubscriptionRequestType` `'2'`) and return `id`; they leave the subscription
registry as it was, so every listener stays registered and an event published
later under any key reaches the same callbacks as before. -/
theorem C7_unsubscribe_keeps_registry (MsgTypes : MsgTypesTable) (c : Core) (id : JsVal) :
    (c.after (BlinkTradeWS.unSubscribeTicker MsgTypes id).calls).registry = c.registry ∧
    (c.after (BlinkTradeWS.unSubscribeOrderbook MsgTypes id).calls).registry = c.registry ∧
    (∀ key k event,
      (c.after (BlinkTradeWS.unSubscribeTicker MsgTypes id).calls).publish key k event
        = c.publish key k event) ∧
    (∀ key k event,
      (c.after (BlinkTradeWS.unSubscribeOrderbook MsgTypes id).calls).publish key k event
        = c.publish key k event) ∧
    (c.after (BlinkTradeWS.unSubscribeTicker MsgTypes id).calls).outbound
      = c.outbound ++ [[("MsgType", MsgTypes.SECURITY_STATUS), ("SecurityStatusReqID", id),
          ("SubscriptionRequestType", JsVal.str "2")]] ∧
    (c.after (BlinkTradeWS.unSubscribeOrderbook MsgTypes id).calls).outbound
      = c.outbound ++ [[("MsgType", MsgTypes.MARKET_DATA_UNSUBSCRIBE), ("MDReqID", id),
          ("MarketDepth", JsVal.num 0), ("SubscriptionRequestType", JsVal.str "2")]] ∧
    (BlinkTradeWS.unSubscribeTicker MsgTypes id).returned = id ∧
    (BlinkTradeWS.unSubscribeOrderbook MsgTypes id).returned = id :=
  ⟨rfl, rfl, fun _ _ _ => rfl, fun _ _ _ => rfl, rfl, rfl, rfl, rfl⟩

/-- C8, counterexample. After one `unSubscribeTicker(17)` one message has gone
out; after the second call two have: the second call is not a no-op. -/
theorem C8_second_unsubscribe_sends_again :
    (Core.empty.after (BlinkTradeWS.unSubscribeTicker sampleMsgTypes (JsVal.num 17)).calls
      ).outbound.length = 1 ∧
    ((Core.empty.after (BlinkTradeWS.unSubscribeTicker sampleMsgTypes (JsVal.num 17)).calls).after
      (BlinkTradeWS.unSubscribeTicker sampleMsgTypes (JsVal.num 17)).calls).outbound.length = 2 ∧
    ((Core.empty.after (BlinkTradeWS.unSubscribeOrderbook sampleMsgTypes (JsVal.num 17)).calls
      ).after (BlinkTradeWS.unSubscribeOrderbook sampleMsgTypes (JsVal.num 17)).calls
      ).outbound.length = 2 := by
  decide

/-- C8, amended. A second `unSubscribeTicker(id)` (or
`unSubscribeOrderbook(id)`) raises no error, returns the same `id` and leaves
the subscription registry unchanged, but it is not a no-op: it hands the
connection one more unsubscribe message, equal to the first. -/
theorem C8_second_unsubscribe (MsgTypes : MsgTypesTable) (c : Core) (id : JsVal) :
    (BlinkTradeWS.unSubscribeTicker MsgTypes id).returned = id ∧
    ((c.after (BlinkTradeWS.unSubscribeTicker MsgTypes id).calls).after
        (BlinkTradeWS.unSubscribeTicker MsgTypes id).calls).registry
      = (c.after (BlinkTradeWS.unSubscribeTicker MsgTypes id).calls).registry ∧
    ((c.after (BlinkTradeWS.unSubscribeTicker MsgTypes id).calls).after
        (BlinkTradeWS.unSubscribeTicker MsgTypes id).calls).outbound
      = (c.after (BlinkTradeWS.unSubscribeTicker MsgTypes id).calls).outbound ++
          [[("MsgType", MsgTypes.SECURITY_STATUS), ("SecurityStatusReqID", id),
            ("SubscriptionRequestType", JsVal.str "2")]] ∧
    (BlinkTradeWS.unSubscribeOrderbook MsgTypes id).returned = id ∧
    ((c.after (BlinkTradeWS.unSubscribeOrderbook MsgTypes id).calls).after
        (BlinkTradeWS.unSubscribeOrderbook MsgTypes id).calls).registry
      = (c.after (BlinkTradeWS.unSubscribeOrderbook MsgTypes id).calls).registry ∧
    ((c.after (BlinkTradeWS.unSubscribeOrderbook MsgTypes id).calls).after
        (BlinkTradeWS.unSubscribeOrderbook MsgTypes id).calls).outbound
      = (c.after (BlinkTradeWS.unSubscribeOrderbook MsgTypes id).calls).outbound ++
          [[("MsgType", MsgTypes.MARKET_DATA_UNSUBSCRIBE), ("MDReqID", id),
            ("MarketDepth", JsVal.num 0), ("SubscriptionRequestType", JsVal.str "2")]] :=
  ⟨rfl, rfl, rfl, rfl, rfl, rfl⟩

/-! ## Price scaling -/

namespace Obj

theorem mem_keys_of_getOwn (o : Obj) (k : String) (v : JsVal) (h : getOwn o k = some v) :
    k ∈ keys o := by
  induction o with
  | nil => simp [getOwn] at h
  | cons e more ih =>
    obtain ⟨k', v'⟩ := e
    by_cases hk : k' = k
    · simp [keys, hk]
    · have hm : getOwn more k = some v := by simpa [getOwn, hk] using h
      have := ih hm
      simp only [keys] at this
      simp [keys, this]

theorem keys_setProp_eq (o base : Obj) (k : String) (v : JsVal) (h : keys o = keys base)
    (hm : k ∈ keys base) : keys (setProp o k v) = keys base := by
  rw [keys_setProp_of_mem _ _ _ (h ▸ hm)]
  exact h

theorem prop_of_getOwn (o : Obj) (k : String) (v : JsVal) (h : getOwn o k = some v) :
    prop o k = v := by
  simp [prop, h]

theorem prop_setProp (o : Obj) (k : String) (v : JsVal) (q : String) :
    prop (setProp o k v) q = if k = q then v else prop o q := by
  by_cases h : k = q <;> simp [prop, getOwn_setProp, h]

end Obj

theorem JsVal.div1e8_num (q : ℚ) : (JsVal.num q).div1e8 = roundDouble (q / 100000000) := rfl

theorem JsVal.sub_num (x y : ℚ) : JsVal.sub (JsVal.num x) (JsVal.num y) = roundDouble (x - y) := rfl

theorem sampleTicker_integers (k : String) (hk : k ∈ tickerPriceFields) :
    ∃ n : ℤ, Obj.getOwn (tickerReply (JsVal.num 17)) k = some (JsVal.num n) := by
  simp only [tickerPriceFields, List.mem_cons, List.mem_singleton, List.not_mem_nil,
    or_false] at hk
  rcases hk with h | h | h | h | h | h | h <;> subst h
  · exact ⟨150000000, by simp [tickerReply, Obj.getOwn]⟩
  · exact ⟨100000000, by simp [tickerReply, Obj.getOwn]⟩
  · exact ⟨200000000, by simp [tickerReply, Obj.getOwn]⟩
  · exact ⟨210000000, by simp [tickerReply, Obj.getOwn]⟩
  · exact ⟨300000000, by simp [tickerReply, Obj.getOwn]⟩
  · exact ⟨50000000, by simp [tickerReply, Obj.getOwn]⟩
  · exact ⟨190000000, by simp [tickerReply, Obj.getOwn]⟩

/-- C9, counterexample. The quotient is a double, not the exact quotient: a
`SellVolume` of `1` becomes the double `1e-8`, which is not `1 / 10^8`, and a
`LowPx` of `123456789` becomes the double `1.23456789`, which is not
`123456789 / 10^8`. -/
theorem C9_quotient_is_rounded :
    Obj.getOwn smallTicker "SellVolume" = some (JsVal.num (1 : ℤ)) ∧
    Obj.getOwn (BlinkTradeWS.formatTicker smallTicker) "SellVolume"
      = some (JsVal.num (3022314549036573 / 302231454903657293676544)) ∧
    (3022314549036573 / 302231454903657293676544 : ℚ) ≠ ((1 : ℤ) : ℚ) / 10 ^ 8 ∧
    Obj.getOwn smallTicker "LowPx" = some (JsVal.num (123456789 : ℤ)) ∧
    Obj.getOwn (BlinkTradeWS.formatTicker smallTicker) "LowPx"
      = some (JsVal.num (5559999489367579 / 4503599627370496)) ∧
    (5559999489367579 / 4503599627370496 : ℚ) ≠ ((123456789 : ℤ) : ℚ) / 10 ^ 8 := by
  refine ⟨by simp [smallTicker, Obj.getOwn], ?_, by norm_num, by simp [smallTicker, Obj.getOwn],
    ?_, by norm_num⟩
  · rw [BlinkTradeWS.formatTicker_field smallTicker "SellVolume" (by decide)]
    exact congrArg some (JsVal.eq_num_of_isNum _ _ (by decide!))
  · rw [BlinkTradeWS.formatTicker_field smallTicker "LowPx" (by decide)]
    exact congrArg some (JsVal.eq_num_of_isNum _ _ (by decide!))

/-- C9, amended. Price scaling in `formatTicker`: for a ticker whose
`SellVolume`, `LowPx`, `LastPx`, `BestAsk`, `HighPx`, `BuyVolume` and `BestBid`
are integers, the formatted record holds each of the seven divided by `10^8` in
the arithmetic of doubles: the exact quotient rounded to the nearest double
(ties to even), which is a double that no other double is nearer to the exact
quotient than.  Every other field is unchanged, and there is no field more. -/
theorem C9_formatTicker_scales (data : Obj)
    (hint : ∀ k : String, k ∈ tickerPriceFields →
      ∃ n : ℤ, Obj.getOwn data k = some (JsVal.num n)) :
    (∀ (k : String) (n : ℤ), k ∈ tickerPriceFields → Obj.getOwn data k = some (JsVal.num n) →
      Obj.getOwn (BlinkTradeWS.formatTicker data) k = some (roundDouble ((n : ℚ) / 10 ^ 8)) ∧
      ∀ r : ℚ, roundDouble ((n : ℚ) / 10 ^ 8) = JsVal.num r →
        IsDouble r ∧ ∀ d : ℚ, IsDouble d → |r - (n : ℚ) / 10 ^ 8| ≤ |d - (n : ℚ) / 10 ^ 8|) ∧
    (∀ k : String, k ∉ tickerPriceFields →
      Obj.getOwn (BlinkTradeWS.formatTicker data) k = Obj.getOwn data k) ∧
    (∀ k : String, k ∈ (BlinkTradeWS.formatTicker data).keys ↔ k ∈ data.keys) := by
  have e8 : (100000000 : ℚ) = 10 ^ 8 := by norm_num
  refine ⟨?_, BlinkTradeWS.formatTicker_other data, ?_⟩
  · intro k n hk hn
    refine ⟨?_, fun r hr => roundDouble_nearest _ r hr⟩
    rw [BlinkTradeWS.formatTicker_field data k hk, Obj.prop_of_getOwn _ _ _ hn,
      JsVal.div1e8_num, e8]
  · have hmem : ∀ k : String, k ∈ tickerPriceFields → k ∈ data.keys := by
      intro k hk
      obtain ⟨n, hn⟩ := hint k hk
      exact Obj.mem_keys_of_getOwn _ _ _ hn
    have hkeys : (BlinkTradeWS.formatTicker data).keys = data.keys :=
      Obj.keys_setProp_eq _ _ _ _ (Obj.keys_setProp_eq _ _ _ _ (Obj.keys_setProp_eq _ _ _ _
        (Obj.keys_setProp_eq _ _ _ _ (Obj.keys_setProp_eq _ _ _ _ (Obj.keys_setProp_eq _ _ _ _
        (Obj.keys_setProp_eq _ _ _ _ rfl (hmem "SellVolume" (by decide)))
        (hmem "LowPx" (by decide))) (hmem "LastPx" (by decide))) (hmem "BestAsk" (by decide)))
        (hmem "HighPx" (by decide))) (hmem "BuyVolume" (by decide))) (hmem "BestBid" (by decide))
    intro k
    rw [hkeys]

/-- Witness of C9, amended: the ticker of `tickerReply`, whose `SellVolume` of
`150000000` becomes `1.5` and whose `BestAsk` of `210000000` becomes the double
`2.1`, while its `Symbol` stays as it is. -/
theorem C9_formatTicker_scales_witness :
    (∀ k : String, k ∈ tickerPriceFields →
      ∃ n : ℤ, Obj.getOwn (tickerReply (JsVal.num 17)) k = some (JsVal.num n)) ∧
    Obj.getOwn (BlinkTradeWS.formatTicker (tickerReply (JsVal.num 17))) "SellVolume"
      = some (roundDouble (((150000000 : ℤ) : ℚ) / 10 ^ 8)) ∧
    roundDouble (((150000000 : ℤ) : ℚ) / 10 ^ 8) = JsVal.num (3 / 2) ∧
    Obj.getOwn (BlinkTradeWS.formatTicker (tickerReply (JsVal.num 17))) "BestAsk"
      = some (roundDouble (((210000000 : ℤ) : ℚ) / 10 ^ 8)) ∧
    roundDouble (((210000000 : ℤ) : ℚ) / 10 ^ 8)
      = JsVal.num (4728779608739021 / 2251799813685248) ∧
    Obj.getOwn (BlinkTradeWS.formatTicker (tickerReply (JsVal.num 17))) "Symbol"
      = some (JsVal.str "BTCUSD") :=
  ⟨sampleTicker_integers,
    ((C9_formatTicker_scales (tickerReply (JsVal.num 17)) sampleTicker_integers).1
      "SellVolume" 150000000 (by decide) (by simp [tickerReply, Obj.getOwn])).1,
    JsVal.eq_num_of_isNum _ _ (by decide!),
    ((C9_formatTicker_scales (tickerReply (JsVal.num 17)) sampleTicker_integers).1
      "BestAsk" 210000000 (by decide) (by simp [tickerReply, Obj.getOwn])).1,
    JsVal.eq_num_of_isNum _ _ (by decide!),
    by
      rw [(C9_formatTicker_scales (tickerReply (JsVal.num 17)) sampleTicker_integers).2.1
        "Symbol" (by decide)]
      rfl⟩

/-! ## The full-refresh split -/

namespace BlinkTradeWS

theorem sofar_sideValue (entries : List JsVal) :
    (match sideValue entries with
      | JsVal.arr xs => xs
      | _ => []) = entries := by
  cases entries <;> simp [sideValue]

theorem sideValue_append_singleton (entries : List JsVal) (e : JsVal) :
    sideValue (entries ++ [e]) = JsVal.arr (entries ++ [e]) := by
  simp [sideValue]

theorem splitStep_bid (prev : Obj) (order : JsVal) (B A : List JsVal)
    (hb : Obj.prop prev "bids" = sideValue B) (ha : Obj.prop prev "asks" = sideValue A)
    (h : isBid order = true) :
    Obj.prop (splitStep prev order) "bids" = sideValue (B ++ [bookEntry order]) ∧
    Obj.prop (splitStep prev order) "asks" = sideValue A := by
  have h' : (order.prop "MDEntryType").isStr "0" = true := h
  simp [splitStep, h', Obj.prop_setProp, hb, ha, sofar_sideValue, sideValue_append_singleton]

theorem splitStep_ask (prev : Obj) (order : JsVal) (B A : List JsVal)
    (hb : Obj.prop prev "bids" = sideValue B) (ha : Obj.prop prev "asks" = sideValue A)
    (h : isBid order = false) :
    Obj.prop (splitStep prev order) "bids" = sideValue B ∧
    Obj.prop (splitStep prev order) "asks" = sideValue (A ++ [bookEntry order]) := by
  have h' : (order.prop "MDEntryType").isStr "0" = false := h
  simp [splitStep, h', Obj.prop_setProp, hb, ha, sofar_sideValue, sideValue_append_singleton]

theorem foldl_splitStep (orders : List JsVal) (prev : Obj) (B A : List JsVal)
    (hb : Obj.prop prev "bids" = sideValue B) (ha : Obj.prop prev "asks" = sideValue A) :
    Obj.prop (orders.foldl splitStep prev) "bids"
      = sideValue (B ++ (orders.filter isBid).map bookEntry) ∧
    Obj.prop (orders.foldl splitStep prev) "asks"
      = sideValue (A ++ (orders.filter (fun o => !isBid o)).map bookEntry) := by
  induction orders generalizing prev B A with
  | nil => simp [hb, ha]
  | cons order more ih =>
    cases h : isBid order with
    | true =>
      obtain ⟨hb', ha'⟩ := splitStep_bid prev order B A hb ha h
      have := ih (splitStep prev order) _ _ hb' ha'
      simpa [List.foldl_cons, List.filter_cons, h] using this
    | false =>
      obtain ⟨hb', ha'⟩ := splitStep_ask prev order B A hb ha h
      have := ih (splitStep prev order) _ _ hb' ha'
      simpa [List.foldl_cons, List.filter_cons, h] using this

theorem isStr_exclusive (v : JsVal) (h0 : v.isStr "0" = true) : v.isStr "1" = false := by
  cases v <;> simp_all [JsVal.isStr]

theorem filter_bids (orders : List JsVal) :
    (orders.filter isBidOrAsk).filter isBid = orders.filter isBid := by
  rw [List.filter_filter]
  congr 1
  funext o
  simp only [isBidOrAsk, isBid]
  cases (o.prop "MDEntryType").isStr "0" <;> simp

theorem filter_asks (orders : List JsVal) :
    (orders.filter isBidOrAsk).filter (fun o => !isBid o) = orders.filter isAsk := by
  rw [List.filter_filter]
  congr 1
  funext o
  simp only [isBidOrAsk, isBid, isAsk]
  cases h0 : (o.prop "MDEntryType").isStr "0" with
  | false => simp
  | true => simp [isStr_exclusive _ h0]

theorem splitBook_sides (orders : List JsVal) :
    Obj.prop (splitBook orders) "bids" = sideValue ((orders.filter isBid).map bookEntry) ∧
    Obj.prop (splitBook orders) "asks" = sideValue ((orders.filter isAsk).map bookEntry) := by
  have h := foldl_splitStep (orders.filter isBidOrAsk) [] [] [] rfl rfl
  rw [filter_bids, filter_asks] at h
  simpa [splitBook] using h

theorem length_bids_add_asks (orders : List JsVal) :
    (orders.filter isBid).length + (orders.filter isAsk).length
      = (orders.filter isBidOrAsk).length := by
  induction orders with
  | nil => simp
  | cons o more ih =>
    cases h0 : (o.prop "MDEntryType").isStr "0" with
    | true =>
      have h1 := isStr_exclusive _ h0
      simp [List.filter_cons, isBid, isAsk, isBidOrAsk, h0, h1] at ih ⊢
      omega
    | false =>
      cases h1 : (o.prop "MDEntryType").isStr "1" with
      | true =>
        simp [List.filter_cons, isBid, isAsk, isBidOrAsk, h0, h1] at ih ⊢
        omega
      | false =>
        simp [List.filter_cons, isBid, isAsk, isBidOrAsk, h0, h1] at ih ⊢
        omega

end BlinkTradeWS

/-- C10, counterexample. The full refresh of an empty book resolves with
`bids` and `asks` both `undefined`: neither is an empty list. -/
theorem C10_empty_side_is_undefined :
    (BlinkTradeWS.subscribeOrderbook sampleMsgTypes sampleActionTypes
        (fun _ => Outcome.resolved emptyRefresh) (JsVal.num 17)
        (JsVal.arr [JsVal.str "BTCUSD"]) false).promise
      = Outcome.resolved
        [("MsgType", JsVal.str "W"), ("MDReqID", JsVal.num 17), ("Symbol", JsVal.str "BTCUSD"),
         ("MDFullGrp", JsVal.obj [("BTCUSD",
            JsVal.obj [("bids", JsVal.undefined), ("asks", JsVal.undefined)])])] :=
  rfl

/-- C10, amended. Full-refresh split in `subscribeOrderbook`: for a reply of
`MsgType` `'W'` whose `MDFullGrp` is an array of entries, the promise resolves
with the reply in which `MDFullGrp` is `{ [Symbol]: { bids, asks } }`, where
`bids` holds the entries of type `'0'` and `asks` those of type `'1'`, each in
the order of `MDFullGrp` and each rendered as
`[MDEntryPx / 1e8, MDEntrySize / 1e8, UserID]` (for a numeric price or size,
the exact quotient by `10^8` rounded to the nearest double), and where a side
without an entry is `undefined` instead of an empty list.  Entries of any other
type are in neither, so the rendered bids and asks are together as many as the
entries of type `'0'` or `'1'`. -/
theorem C10_full_refresh_split (MsgTypes : MsgTypesTable) (A : ActionTypes)
    (send : Obj → Outcome Obj) (reqId symbols : JsVal) (hasCallback : Bool) (data : Obj)
    (orders : List JsVal)
    (hsend : send (BlinkTradeWS.subscribeOrderbookMsg MsgTypes reqId symbols)
      = Outcome.resolved data)
    (hW : (Obj.prop data "MsgType").isStr "W" = true)
    (hgrp : Obj.prop data "MDFullGrp" = JsVal.arr orders)
    (hentries : orders.any JsVal.isNullish = false) :
    (∃ result : Obj,
      (BlinkTradeWS.subscribeOrderbook MsgTypes A send reqId symbols hasCallback).promise
        = Outcome.resolved result ∧
      Obj.getOwn result "MDFullGrp" = some (JsVal.obj [((Obj.prop data "Symbol").propertyKey,
        JsVal.obj
          [("bids", sideValue ((orders.filter isBid).map BlinkTradeWS.bookEntry)),
           ("asks", sideValue ((orders.filter isAsk).map BlinkTradeWS.bookEntry))])]) ∧
      ∀ k : String, k ≠ "MDFullGrp" → Obj.getOwn result k = Obj.getOwn data k) ∧
    ((orders.filter isBid).map BlinkTradeWS.bookEntry).length
        + ((orders.filter isAsk).map BlinkTradeWS.bookEntry).length
      = (orders.filter BlinkTradeWS.isBidOrAsk).length ∧
    (∀ (order : JsVal) (px size : ℚ),
      order.prop "MDEntryPx" = JsVal.num px → order.prop "MDEntrySize" = JsVal.num size →
      BlinkTradeWS.bookEntry order
        = JsVal.arr [roundDouble (px / 10 ^ 8), roundDouble (size / 10 ^ 8),
            order.prop "UserID"]) := by
  refine ⟨⟨BlinkTradeWS.formatOrderbook data orders, ?_, ?_, ?_⟩, ?_, ?_⟩
  · simp [BlinkTradeWS.subscribeOrderbook, hsend, hW, hgrp, hentries]
  · obtain ⟨hb, ha⟩ := BlinkTradeWS.splitBook_sides orders
    simp [BlinkTradeWS.formatOrderbook, Obj.getOwn_setProp, hb, ha]
  · intro k hk
    have : ¬ "MDFullGrp" = k := fun h => hk h.symm
    simp [BlinkTradeWS.formatOrderbook, Obj.getOwn_setProp, this]
  · simpa using BlinkTradeWS.length_bids_add_asks orders
  · intro order px size hpx hsize
    have e8 : (100000000 : ℚ) = 10 ^ 8 := by norm_num
    simp only [BlinkTradeWS.bookEntry, hpx, hsize, JsVal.div1e8_num, e8]

/-- Witness of C10, amended: the full refresh with one bid, one trade and one
ask, whose bid of `150000000` for `200000000` is rendered as `[1.5, 2, 90]`. -/
theorem C10_full_refresh_split_witness :
    (fun _ => Outcome.resolved fullRefresh : Obj → Outcome Obj)
        (BlinkTradeWS.subscribeOrderbookMsg sampleMsgTypes (JsVal.num 17)
          (JsVal.arr [JsVal.str "BTCUSD"])) = Outcome.resolved fullRefresh ∧
    (Obj.prop fullRefresh "MsgType").isStr "W" = true ∧
    (Obj.prop fullRefresh "MDFullGrp").elements.any JsVal.isNullish = false ∧
    (∃ result : Obj,
      (BlinkTradeWS.subscribeOrderbook sampleMsgTypes sampleActionTypes
        (fun _ => Outcome.resolved fullRefresh) (JsVal.num 17)
        (JsVal.arr [JsVal.str "BTCUSD"]) true).promise = Outcome.resolved result ∧
      Obj.getOwn result "MDFullGrp" = some (JsVal.obj [((Obj.prop fullRefresh "Symbol").propertyKey,
        JsVal.obj
          [("bids", sideValue (((Obj.prop fullRefresh "MDFullGrp").elements.filter isBid).map
              BlinkTradeWS.bookEntry)),
           ("asks", sideValue (((Obj.prop fullRefresh "MDFullGrp").elements.filter isAsk).map
              BlinkTradeWS.bookEntry))])]) ∧
      ∀ k : String, k ≠ "MDFullGrp" → Obj.getOwn result k = Obj.getOwn fullRefresh k) ∧
    BlinkTradeWS.bookEntry (JsVal.obj [("MDEntryType", JsVal.str "0"),
        ("MDEntryPx", JsVal.num 150000000), ("MDEntrySize", JsVal.num 200000000),
        ("UserID", JsVal.num 90)])
      = JsVal.arr [roundDouble ((150000000 : ℚ) / 10 ^ 8), roundDouble ((200000000 : ℚ) / 10 ^ 8),
          JsVal.num 90] ∧
    roundDouble ((150000000 : ℚ) / 10 ^ 8) = JsVal.num (3 / 2) ∧
    roundDouble ((200000000 : ℚ) / 10 ^ 8) = JsVal.num 2 :=
  ⟨rfl, rfl, rfl,
    (C10_full_refresh_split sampleMsgTypes sampleActionTypes
      (fun _ => Outcome.resolved fullRefresh) (JsVal.num 17) (JsVal.arr [JsVal.str "BTCUSD"]) true
      fullRefresh (Obj.prop fullRefresh "MDFullGrp").elements rfl rfl rfl rfl).1,
    (C10_full_refresh_split sampleMsgTypes sampleActionTypes
      (fun _ => Outcome.resolved fullRefresh) (JsVal.num 17) (JsVal.arr [JsVal.str "BTCUSD"]) true
      fullRefresh (Obj.prop fullRefresh "MDFullGrp").elements rfl rfl rfl rfl).2.2
      (JsVal.obj [("MDEntryType", JsVal.str "0"), ("MDEntryPx", JsVal.num 150000000),
        ("MDEntrySize", JsVal.num 200000000), ("UserID", JsVal.num 90)]) 150000000 200000000
      rfl rfl,
    JsVal.eq_num_of_isNum _ _ (by decide!),
    JsVal.eq_num_of_isNum _ _ (by decide!)⟩

/-! ## Login -/

/-- C11. `login` stores the login information in one piece.  When `send`
delivers a reply whose `UserStatus` is `1`, the promise resolves with the reply
and `session` becomes that reply; when it delivers any other reply, the promise
rejects with the reply and `session` is left as it was; when `send` rejects with
`e`, `login` rejects with the same `e` and `session` is left as it was. -/
theorem C11_login_session (MsgTypes : MsgTypesTable) (send : Obj → Outcome Obj)
    (brokerId reqId username password secondFactor : JsVal) (userAgent session : Obj) :
    (∀ data,
      send (BlinkTradeWS.loginMsg MsgTypes brokerId reqId username password secondFactor
        userAgent) = Outcome.resolved data →
      (BlinkTradeWS.isOne (Obj.prop data "UserStatus") = true →
        (BlinkTradeWS.login MsgTypes send brokerId reqId username password secondFactor
            userAgent session).promise = Outcome.resolved data ∧
        (BlinkTradeWS.login MsgTypes send brokerId reqId username password secondFactor
            userAgent session).session = data) ∧
      (BlinkTradeWS.isOne (Obj.prop data "UserStatus") = false →
        (BlinkTradeWS.login MsgTypes send brokerId reqId username password secondFactor
            userAgent session).promise = Outcome.rejected (Reason.value (JsVal.obj data)) ∧
        (BlinkTradeWS.login MsgTypes send brokerId reqId username password secondFactor
            userAgent session).session = session)) ∧
    (∀ e,
      send (BlinkTradeWS.loginMsg MsgTypes brokerId reqId username password secondFactor
        userAgent) = Outcome.rejected e →
      (BlinkTradeWS.login MsgTypes send brokerId reqId username password secondFactor
          userAgent session).promise = Outcome.rejected e ∧
      (BlinkTradeWS.login MsgTypes send brokerId reqId username password secondFactor
          userAgent session).session = session) := by
  refine ⟨fun data hsend => ⟨fun h1 => ?_, fun h1 => ?_⟩, fun e hsend => ?_⟩
  · simp [BlinkTradeWS.login, hsend, h1]
  · simp [BlinkTradeWS.login, hsend, h1]
  · simp [BlinkTradeWS.login, hsend]

/-- Witness of C11: an accepted login replaces the session, a refused one and
a failed send leave it. -/
theorem C11_login_session_witness :
    ((BlinkTradeWS.login sampleMsgTypes (fun _ => Outcome.resolved loginAccepted) (JsVal.num 5)
        (JsVal.num 17) (JsVal.str "trader") (JsVal.str "secret") JsVal.undefined [] []).promise
      = Outcome.resolved loginAccepted ∧
     (BlinkTradeWS.login sampleMsgTypes (fun _ => Outcome.resolved loginAccepted) (JsVal.num 5)
        (JsVal.num 17) (JsVal.str "trader") (JsVal.str "secret") JsVal.undefined [] []).session
      = loginAccepted) ∧
    ((BlinkTradeWS.login sampleMsgTypes (fun _ => Outcome.resolved loginRefused) (JsVal.num 5)
        (JsVal.num 17) (JsVal.str "trader") (JsVal.str "secret") JsVal.undefined []
        loginAccepted).promise = Outcome.rejected (Reason.value (JsVal.obj loginRefused)) ∧
     (BlinkTradeWS.login sampleMsgTypes (fun _ => Outcome.resolved loginRefused) (JsVal.num 5)
        (JsVal.num 17) (JsVal.str "trader") (JsVal.str "secret") JsVal.undefined []
        loginAccepted).session = loginAccepted) ∧
    ((BlinkTradeWS.login sampleMsgTypes (fun _ => Outcome.rejected Reason.typeError) (JsVal.num 5)
        (JsVal.num 17) (JsVal.str "trader") (JsVal.str "secret") JsVal.undefined []
        loginAccepted).promise = Outcome.rejected Reason.typeError ∧
     (BlinkTradeWS.login sampleMsgTypes (fun _ => Outcome.rejected Reason.typeError) (JsVal.num 5)
        (JsVal.num 17) (JsVal.str "trader") (JsVal.str "secret") JsVal.undefined []
        loginAccepted).session = loginAccepted) :=
  ⟨((C11_login_session sampleMsgTypes (fun _ => Outcome.resolved loginAccepted) (JsVal.num 5)
      (JsVal.num 17) (JsVal.str "trader") (JsVal.str "secret") JsVal.undefined [] []).1
      loginAccepted rfl).1 (by decide),
    ((C11_login_session sampleMsgTypes (fun _ => Outcome.resolved loginRefused) (JsVal.num 5)
      (JsVal.num 17) (JsVal.str "trader") (JsVal.str "secret") JsVal.undefined []
      loginAccepted).1 loginRefused rfl).2 (by decide),
    (C11_login_session sampleMsgTypes (fun _ => Outcome.rejected Reason.typeError) (JsVal.num 5)
      (JsVal.num 17) (JsVal.str "trader") (JsVal.str "secret") JsVal.undefined []
      loginAccepted).2 Reason.typeError rfl⟩

/-! ## The two shapes of `cancelOrder` -/

/-- C12, counterexample. An object whose `orderId` is `0` gives a message
whose `OrderID` is the object itself, and a `clientId` of `0` that is supplied
next to the order 7 gives a message without `ClOrdID`. -/
theorem C12_zero_ids_are_not_taken :
    BaseTransport.cancelOrderMsg sampleMsgTypes (CancelParam.object [("orderId", JsVal.num 0)])
      = [("MsgType", JsVal.str "F"), ("OrderID", JsVal.obj [("orderId", JsVal.num 0)])] ∧
    BaseTransport.cancelOrderMsg sampleMsgTypes
        (CancelParam.object [("orderId", JsVal.num 7), ("clientId", JsVal.num 0)])
      = [("MsgType", JsVal.str "F"), ("OrderID", JsVal.num 7)] := by
  constructor <;> simp [BaseTransport.cancelOrderMsg, CancelParam.toJsVal, JsVal.prop, JsVal.asObj,
    Obj.prop, Obj.getOwn, JsVal.truthy, sampleMsgTypes]

/-- C12, amended. `cancelOrder` accepts its two parameter shapes, telling them
apart by truthiness.  For every number `n`, the message has `OrderID = n` and
no `ClOrdID`.  For every object with a numeric `orderId` other than `0`, the
message has `OrderID = orderId`; it has `ClOrdID = clientId` when a numeric
`clientId` other than `0` is supplied, and no `ClOrdID` when none is supplied
or when the one supplied is `0`.  Both `cancelOrder` operations hand `send`
this message. -/
theorem C12_cancelOrder_shapes (MsgTypes : MsgTypesTable) (o : Obj) (orderId : ℚ)
    (horder : Obj.getOwn o "orderId" = some (JsVal.num orderId)) (hne : orderId ≠ 0) :
    (∀ n : ℚ, BaseTransport.cancelOrderMsg MsgTypes (CancelParam.number n)
      = [("MsgType", MsgTypes.ORDER_CANCEL), ("OrderID", JsVal.num n)]) ∧
    Obj.getOwn (BaseTransport.cancelOrderMsg MsgTypes (CancelParam.object o)) "OrderID"
      = some (JsVal.num orderId) ∧
    (Obj.getOwn o "clientId" = none →
      Obj.getOwn (BaseTransport.cancelOrderMsg MsgTypes (CancelParam.object o)) "ClOrdID"
        = none) ∧
    (∀ c : ℚ, Obj.getOwn o "clientId" = some (JsVal.num c) → c ≠ 0 →
      Obj.getOwn (BaseTransport.cancelOrderMsg MsgTypes (CancelParam.object o)) "ClOrdID"
        = some (JsVal.num c)) ∧
    (Obj.getOwn o "clientId" = some (JsVal.num 0) →
      Obj.getOwn (BaseTransport.cancelOrderMsg MsgTypes (CancelParam.object o)) "ClOrdID"
        = none) ∧
    (∀ (T : Transport) (param : CancelParam),
      BaseTransport.cancelOrder MsgTypes T param
        = T.send (BaseTransport.cancelOrderMsg MsgTypes param) ∧
      BlinkTradeWS.cancelOrder MsgTypes T.send param
        = T.send (BaseTransport.cancelOrderMsg MsgTypes param)) := by
  have hp : (CancelParam.object o).toJsVal.prop "orderId" = JsVal.num orderId := by
    simp [CancelParam.toJsVal, JsVal.prop, JsVal.asObj, Obj.prop, horder]
  have ht : (JsVal.num orderId).truthy = true := by simp [JsVal.truthy, hne]
  have hc : (CancelParam.object o).toJsVal.prop "clientId" = Obj.prop o "clientId" := rfl
  have hmsg : BaseTransport.cancelOrderMsg MsgTypes (CancelParam.object o)
      = if (Obj.prop o "clientId").truthy then
          Obj.setProp [("MsgType", MsgTypes.ORDER_CANCEL), ("OrderID", JsVal.num orderId)]
            "ClOrdID" (Obj.prop o "clientId")
        else [("MsgType", MsgTypes.ORDER_CANCEL), ("OrderID", JsVal.num orderId)] := by
    simp only [BaseTransport.cancelOrderMsg, hp, ht, hc, if_true]
  refine ⟨?_, ?_, ?_, ?_, ?_, ?_⟩
  · intro n
    simp [BaseTransport.cancelOrderMsg, CancelParam.toJsVal, JsVal.prop, JsVal.asObj, Obj.prop,
      Obj.getOwn, JsVal.truthy]
  · rw [hmsg]
    by_cases h : (Obj.prop o "clientId").truthy = true
    · simp [h, Obj.getOwn_setProp, Obj.getOwn]
    · simp [h, Obj.getOwn]
  · intro h
    have hf : (Obj.prop o "clientId").truthy = false := by simp [Obj.prop, h, JsVal.truthy]
    rw [hmsg]
    simp [hf, Obj.getOwn]
  · intro c h hc0
    have hv : Obj.prop o "clientId" = JsVal.num c := by simp [Obj.prop, h]
    have hcT : (JsVal.num c).truthy = true := by simp [JsVal.truthy, hc0]
    rw [hmsg, hv]
    simp [hcT, Obj.getOwn_setProp, Obj.getOwn]
  · intro h
    have hf : (Obj.prop o "clientId").truthy = false := by simp [Obj.prop, h, JsVal.truthy]
    rw [hmsg]
    simp [hf, Obj.getOwn]
  · intro T param
    exact ⟨rfl, rfl⟩

/-- Witness of C12, amended: the order 7 cancelled with the client identifier 9. -/
theorem C12_cancelOrder_shapes_witness :
    Obj.getOwn [("orderId", JsVal.num 7), ("clientId", JsVal.num 9)] "orderId"
      = some (JsVal.num 7) ∧
    (7 : ℚ) ≠ 0 ∧
    BaseTransport.cancelOrderMsg sampleMsgTypes (CancelParam.number 7)
      = [("MsgType", sampleMsgTypes.ORDER_CANCEL), ("OrderID", JsVal.num 7)] ∧
    Obj.getOwn (BaseTransport.cancelOrderMsg sampleMsgTypes
        (CancelParam.object [("orderId", JsVal.num 7), ("clientId", JsVal.num 9)])) "OrderID"
      = some (JsVal.num 7) ∧
    Obj.getOwn (BaseTransport.cancelOrderMsg sampleMsgTypes
        (CancelParam.object [("orderId", JsVal.num 7), ("clientId", JsVal.num 9)])) "ClOrdID"
      = some (JsVal.num 9) :=
  ⟨by simp [Obj.getOwn], by norm_num,
    (C12_cancelOrder_shapes sampleMsgTypes [("orderId", JsVal.num 7), ("clientId", JsVal.num 9)]
      7 (by simp [Obj.getOwn]) (by norm_num)).1 7,
    (C12_cancelOrder_shapes sampleMsgTypes [("orderId", JsVal.num 7), ("clientId", JsVal.num 9)]
      7 (by simp [Obj.getOwn]) (by norm_num)).2.1,
    (C12_cancelOrder_shapes sampleMsgTypes [("orderId", JsVal.num 7), ("clientId", JsVal.num 9)]
      7 (by simp [Obj.getOwn]) (by norm_num)).2.2.2.1 9 (by simp [Obj.getOwn]) (by norm_num)⟩

/-! ## Trade history -/

namespace Obj

theorem mem_keys_setProp (o : Obj) (k : String) (v : JsVal) (q : String) :
    q ∈ keys (setProp o k v) ↔ q = k ∨ q ∈ keys o := by
  by_cases h : k ∈ keys o
  · rw [keys_setProp_of_mem _ _ _ h]
    constructor
    · exact fun hq => Or.inr hq
    · rintro (rfl | hq)
      · exact h
      · exact hq
  · rw [keys_setProp_of_not_mem _ _ _ h]
    simp [or_comm]

theorem nodup_keys_setProp (o : Obj) (k : String) (v : JsVal) (h : (keys o).Nodup) :
    (keys (setProp o k v)).Nodup := by
  by_cases hk : k ∈ keys o
  · rw [keys_setProp_of_mem _ _ _ hk]
    exact h
  · rw [keys_setProp_of_not_mem _ _ _ hk]
    exact List.Nodup.append h (List.nodup_singleton k) (by simpa using hk)

theorem getOwn_isSome_of_mem_keys (o : Obj) (k : String) (h : k ∈ keys o) :
    ∃ v, getOwn o k = some v := by
  induction o with
  | nil => simp [keys] at h
  | cons e more ih =>
    obtain ⟨k', v'⟩ := e
    by_cases hk : k' = k
    · exact ⟨v', by simp [getOwn, hk]⟩
    · have hm : k ∈ keys more := by
        simp only [keys, List.map_cons, List.mem_cons] at h
        rcases h with h | h
        · exact absurd h.symm hk
        · exact h
      obtain ⟨v, hv⟩ := ih hm
      exact ⟨v, by simp [getOwn, hk, hv]⟩

end Obj

namespace BlinkTradeWS

theorem walkTrades_cons (r : JsVal) (more : List JsVal) :
    walkTrades (r :: more) = tradeStep (walkTrades more) r := by
  simp [walkTrades, List.foldl_append]

theorem walkTrades_pump (rows : List JsVal) :
    (walkTrades rows).last = (pumpAfter rows).1 ∧
    (walkTrades rows).IsPump = (pumpAfter rows).2 := by
  induction rows with
  | nil => exact ⟨rfl, rfl⟩
  | cons r more ih =>
    rw [walkTrades_cons]
    simp [tradeStep, pumpAfter, ih.1, ih.2]

theorem listUnder_setProp (history : Obj) (k : String) (xs : List JsVal) (m : String) :
    listUnder (Obj.setProp history k (JsVal.arr xs)) m
      = if k = m then xs else listUnder history m := by
  by_cases h : k = m <;> simp [listUnder, Obj.prop_setProp, h]

theorem listUnder_walkTrades (rows : List JsVal) (m : String) :
    listUnder (walkTrades rows).TradeHistory m
      = ((flagged rows).filter (fun p => decide (marketKey p.1 = m))).map
          (fun p => tradeRecord p.1 p.2) := by
  induction rows with
  | nil => simp [walkTrades, listUnder, flagged, Obj.prop, Obj.getOwn]
  | cons r more ih =>
    rw [walkTrades_cons]
    have hflag : nextPump (walkTrades more).last (walkTrades more).IsPump (r.index 3)
        = (pumpAfter (r :: more)).2 := by
      simp [pumpAfter, (walkTrades_pump more).1, (walkTrades_pump more).2]
    by_cases h : marketKey r = m
    · subst h
      have h' : (r.index 1).propertyKey = marketKey r := rfl
      simp only [tradeStep, listUnder_setProp, h', if_true, flagged, List.filter_cons,
        decide_True, List.map_cons, hflag]
      rw [ih]
    · have h' : ¬ (r.index 1).propertyKey = m := h
      simp only [tradeStep, listUnder_setProp, h', if_false, flagged, List.filter_cons, h,
        decide_False]
      simpa using ih

theorem mem_keys_walkTrades (rows : List JsVal) (m : String) :
    m ∈ Obj.keys (walkTrades rows).TradeHistory ↔ ∃ r ∈ rows, marketKey r = m := by
  induction rows with
  | nil => simp [walkTrades, Obj.keys]
  | cons r more ih =>
    rw [walkTrades_cons]
    simp only [tradeStep, Obj.mem_keys_setProp, ih, List.mem_cons, exists_eq_or_imp, marketKey]
    constructor
    · rintro (h | h)
      · exact Or.inl h.symm
      · exact Or.inr h
    · rintro (h | h)
      · exact Or.inl h.symm
      · exact Or.inr h

theorem nodup_keys_walkTrades (rows : List JsVal) :
    (Obj.keys (walkTrades rows).TradeHistory).Nodup := by
  induction rows with
  | nil => simp [walkTrades, Obj.keys]
  | cons r more ih =>
    rw [walkTrades_cons]
    exact Obj.nodup_keys_setProp _ _ _ ih

theorem values_walkTrades (rows : List JsVal) (m : String) (v : JsVal)
    (h : Obj.getOwn (walkTrades rows).TradeHistory m = some v) :
    ∃ xs, v = JsVal.arr xs := by
  induction rows generalizing v with
  | nil => simp [walkTrades, Obj.getOwn] at h
  | cons r more ih =>
    rw [walkTrades_cons] at h
    simp only [tradeStep, Obj.getOwn_setProp] at h
    by_cases hk : (r.index 1).propertyKey = m
    · simp only [hk, if_true, Option.some.injEq] at h
      exact ⟨_, h.symm⟩
    · simp only [hk, if_false] at h
      exact ih v h

theorem getOwn_walkTrades (rows : List JsVal) (m : String)
    (h : m ∈ Obj.keys (walkTrades rows).TradeHistory) :
    Obj.getOwn (walkTrades rows).TradeHistory m
      = some (JsVal.arr (listUnder (walkTrades rows).TradeHistory m)) := by
  obtain ⟨v, hv⟩ := Obj.getOwn_isSome_of_mem_keys _ _ h
  obtain ⟨xs, rfl⟩ := values_walkTrades rows m v hv
  simp [listUnder, Obj.prop, hv]

end BlinkTradeWS

theorem BlinkTradeWS.nextPump_num (a b : ℚ) (f : Bool) :
    BlinkTradeWS.nextPump (JsVal.num a) f (JsVal.num b)
      = if a = b then f else decide (a ≤ b) := by
  by_cases h : a = b <;>
    simp [BlinkTradeWS.nextPump, JsVal.strictEq, JsVal.lessEq, JsVal.toNumber,
      JsVal.numberLessEq, h]

theorem flagged_eq_zip (rows : List JsVal) :
    flagged rows = rows.zip ((flagged rows).map Prod.snd) := by
  induction rows with
  | nil => rfl
  | cons r more ih =>
    simp only [flagged, List.map_cons, List.zip_cons_cons]
    rw [← ih]

theorem length_flagged (rows : List JsVal) : (flagged rows).length = rows.length := by
  induction rows with
  | nil => rfl
  | cons r more ih => simp [flagged, ih]

theorem pumpAfter_stated (rows : List JsVal) (prices : List ℚ)
    (h : rows.map (fun r => r.index 3) = prices.map JsVal.num) :
    (flagged rows).map Prod.snd = statedPump prices ∧
    pumpAfter rows =
      (match prices with
        | [] => (JsVal.num 0, false)
        | p :: _ => (JsVal.num p, (statedPump prices).headD false)) := by
  induction rows generalizing prices with
  | nil =>
    cases prices with
    | nil => exact ⟨rfl, rfl⟩
    | cons p ps => simp at h
  | cons r more ih =>
    cases prices with
    | nil => simp at h
    | cons p ps =>
      simp only [List.map_cons, List.cons.injEq] at h
      obtain ⟨hr, hmore⟩ := h
      obtain ⟨ih1, ih2⟩ := ih ps hmore
      cases ps with
      | nil =>
        have hnil : more = [] := by simpa using hmore
        subst hnil
        have hflag : BlinkTradeWS.nextPump (JsVal.num 0) false (JsVal.num p) = decide (0 < p) := by
          rw [BlinkTradeWS.nextPump_num]
          by_cases h0 : (0 : ℚ) = p
          · subst h0
            simp
          · have hne : p ≠ 0 := fun h' => h0 h'.symm
            simp [h0, lt_iff_le_and_ne, Ne.symm hne]
        simp [flagged, pumpAfter, statedPump, hr, hflag]
      | cons q qs =>
        simp only at ih2
        have hflag : BlinkTradeWS.nextPump (JsVal.num q) ((statedPump (q :: qs)).headD false)
              (JsVal.num p)
            = if p = q then (statedPump (q :: qs)).headD false else decide (q < p) := by
          rw [BlinkTradeWS.nextPump_num]
          by_cases hpq : p = q
          · subst hpq
            simp
          · have hqp : ¬ q = p := fun h' => hpq h'.symm
            simp [hpq, hqp, lt_iff_le_and_ne]
        have hpump : pumpAfter (r :: more)
            = (JsVal.num p,
                if p = q then (statedPump (q :: qs)).headD false else decide (q < p)) := by
          simp only [pumpAfter, ih2, hr, hflag]
        refine ⟨?_, ?_⟩
        · simp only [flagged, List.map_cons, hpump, ih1, statedPump]
        · simp only [hpump, statedPump, List.headD_cons]

theorem statedPump_length (prices : List ℚ) : (statedPump prices).length = prices.length := by
  induction prices with
  | nil => rfl
  | cons p ps ih =>
    cases ps with
    | nil => rfl
    | cons q qs => simp only [statedPump, List.length_cons] at ih ⊢; omega

theorem statedPump_last (prices : List ℚ) (i : Nat) (p : ℚ) (hp : prices[i]? = some p)
    (hlast : prices[i + 1]? = none) : (statedPump prices)[i]? = some (decide (0 < p)) := by
  induction prices generalizing i with
  | nil => simp at hp
  | cons a ps ih =>
    cases ps with
    | nil =>
      cases i with
      | zero =>
        simp only [List.getElem?_cons_zero, Option.some.injEq] at hp
        simp [statedPump, hp]
      | succ j => simp at hp
    | cons q qs =>
      cases i with
      | zero => simp at hlast
      | succ j =>
        rw [List.getElem?_cons_succ] at hp hlast
        have := ih j hp hlast
        simpa [statedPump] using this

theorem statedPump_earlier (prices : List ℚ) (i : Nat) (p q : ℚ) (hp : prices[i]? = some p)
    (hq : prices[i + 1]? = some q) :
    (statedPump prices)[i]?
      = some (if p = q then (statedPump prices).getD (i + 1) false else decide (q < p)) := by
  induction prices generalizing i with
  | nil => simp at hp
  | cons a ps ih =>
    cases ps with
    | nil => simp at hq
    | cons b qs =>
      cases i with
      | zero =>
        simp only [List.getElem?_cons_zero, Option.some.injEq, zero_add,
          List.getElem?_cons_succ] at hp hq
        subst hp
        subst hq
        cases hs : statedPump (b :: qs) with
        | nil => simp [statedPump, hs]
        | cons f fs => simp [statedPump, hs]
      | succ j =>
        rw [List.getElem?_cons_succ] at hp hq
        have := ih j hp hq
        simpa [statedPump] using this

theorem sum_indicator (ks : List String) (a : String) (hnd : ks.Nodup) (ha : a ∈ ks) :
    (ks.map (fun m => if a = m then 1 else 0)).sum = 1 := by
  induction ks with
  | nil => simp at ha
  | cons k more ih =>
    have hk : k ∉ more := (List.nodup_cons.mp hnd).1
    have hmore : more.Nodup := (List.nodup_cons.mp hnd).2
    by_cases h : a = k
    · subst h
      have hz : (more.map (fun m => if a = m then 1 else 0)).sum = 0 := by
        apply List.sum_eq_zero
        intro x hx
        obtain ⟨m, hm, rfl⟩ := List.mem_map.mp hx
        have : ¬ a = m := fun h' => hk (h' ▸ hm)
        simp [this]
      simp [hz]
    · have ha' : a ∈ more := by
        rcases List.mem_cons.mp ha with h' | h'
        · exact absurd h' h
        · exact h'
      simp [h, ih hmore ha']

theorem sum_lengths_by_key {α : Type} (key : α → String) (ks : List String) (xs : List α)
    (hnd : ks.Nodup) (hall : ∀ x ∈ xs, key x ∈ ks) :
    (ks.map (fun m => (xs.filter (fun x => decide (key x = m))).length)).sum = xs.length := by
  induction xs with
  | nil => simp
  | cons x more ih =>
    have hx : key x ∈ ks := hall x (by simp)
    have hmore : ∀ y ∈ more, key y ∈ ks := fun y hy => hall y (by simp [hy])
    have hsplit : ∀ m, ((x :: more).filter (fun y => decide (key y = m))).length
        = (if key x = m then 1 else 0) + (more.filter (fun y => decide (key y = m))).length := by
      intro m
      by_cases h : key x = m <;> simp [List.filter_cons, h, Nat.add_comm]
    simp only [hsplit, List.sum_map_add, sum_indicator ks (key x) hnd hx, ih hmore,
      List.length_cons]
    omega

theorem any_isNullish_eq_false (rows : List JsVal) (i : Nat)
    (h : ∀ r ∈ rows, r.index i ≠ JsVal.undefined) : rows.any JsVal.isNullish = false := by
  rw [List.any_eq_false]
  intro r hr hnull
  apply h r hr
  cases r <;> simp_all [JsVal.isNullish, JsVal.index]

theorem index_ne_undefined_of_map (rows vals : List JsVal) (i : Nat)
    (h : rows.map (fun r => r.index i) = vals) (hv : ∀ v ∈ vals, v ≠ JsVal.undefined) :
    ∀ r ∈ rows, r.index i ≠ JsVal.undefined := by
  intro r hr
  apply hv
  rw [← h]
  exact List.mem_map.mpr ⟨r, hr, rfl⟩

theorem BlinkTradeWS.tradeHistory_resolves (MsgTypes : MsgTypesTable) (send : Obj → Outcome Obj)
    (reqId page pageSize : JsVal) (data : Obj) (rows : List JsVal)
    (hsend : ∀ msg, send msg = Outcome.resolved data)
    (hgrp : Obj.getOwn data "TradeHistoryGrp" = some (JsVal.arr rows))
    (hrows : rows.any JsVal.isNullish = false) :
    BlinkTradeWS.tradeHistory MsgTypes send reqId page pageSize
      = Outcome.resolved (Obj.setProp (Obj.rest data "Columns") "TradeHistoryGrp"
          (JsVal.obj (BlinkTradeWS.walkTrades rows).TradeHistory)) := by
  have hp : Obj.prop data "TradeHistoryGrp" = JsVal.arr rows := Obj.prop_of_getOwn _ _ _ hgrp
  simp [BlinkTradeWS.tradeHistory, hsend, Outcome.thenCatch, BlinkTradeWS.tradeHistoryHandler, hp,
    hrows]

/-- C13. The IsPump rule of `tradeHistory`: for a reply whose rows have the
numeric prices `p_i = r_i[3]`, the record of every row carries the flag of the
stated rule, under which the last row is a pump exactly when `0 < p_{n-1}`, and
an earlier row `i` takes the flag of row `i+1` when `p_i = p_{i+1}` and is
otherwise a pump exactly when `p_{i+1} < p_i`.  The rule looks at the prices in
the order of the reply only, whatever market a row belongs to. -/
theorem C13_isPump_rule (MsgTypes : MsgTypesTable) (send : Obj → Outcome Obj)
    (reqId page pageSize : JsVal) (data : Obj) (rows : List JsVal) (prices : List ℚ)
    (hsend : ∀ msg, send msg = Outcome.resolved data)
    (hgrp : Obj.getOwn data "TradeHistoryGrp" = some (JsVal.arr rows))
    (hprices : rows.map (fun r => r.index 3) = prices.map JsVal.num) :
    (∃ result history : Obj,
      BlinkTradeWS.tradeHistory MsgTypes send reqId page pageSize = Outcome.resolved result ∧
      Obj.getOwn result "TradeHistoryGrp" = some (JsVal.obj history) ∧
      ∀ m : String, BlinkTradeWS.listUnder history m
        = ((rows.zip (statedPump prices)).filter (fun p => decide (marketKey p.1 = m))).map
            (fun p => BlinkTradeWS.tradeRecord p.1 p.2)) ∧
    (statedPump prices).length = rows.length ∧
    (∀ (i : Nat) (p : ℚ), prices[i]? = some p → prices[i + 1]? = none →
      (statedPump prices)[i]? = some (decide (0 < p))) ∧
    (∀ (i : Nat) (p q : ℚ), prices[i]? = some p → prices[i + 1]? = some q →
      (statedPump prices)[i]?
        = some (if p = q then (statedPump prices).getD (i + 1) false else decide (q < p))) := by
  have hrows : rows.any JsVal.isNullish = false :=
    any_isNullish_eq_false rows 3
      (index_ne_undefined_of_map rows _ 3 hprices (by
        intro v hv
        obtain ⟨p, _, rfl⟩ := List.mem_map.mp hv
        simp))
  refine ⟨⟨_, (BlinkTradeWS.walkTrades rows).TradeHistory,
    BlinkTradeWS.tradeHistory_resolves MsgTypes send reqId page pageSize data rows hsend hgrp hrows,
    by simp [Obj.getOwn_setProp], ?_⟩, ?_, statedPump_last prices, statedPump_earlier prices⟩
  · intro m
    rw [BlinkTradeWS.listUnder_walkTrades, flagged_eq_zip rows, (pumpAfter_stated rows prices hprices).1]
  · have := congrArg List.length hprices
    simpa [statedPump_length] using this.symm

/-- Witness of C13: the four trades of `sampleTrades`, whose flags are
`true, false, true, true`. -/
theorem C13_isPump_rule_witness :
    (∀ msg, (fun _ => Outcome.resolved tradesReply : Obj → Outcome Obj) msg
      = Outcome.resolved tradesReply) ∧
    Obj.getOwn tradesReply "TradeHistoryGrp" = some (JsVal.arr sampleTrades) ∧
    sampleTrades.map (fun r => r.index 3) = [500, 100, 300, 200].map JsVal.num ∧
    statedPump [500, 100, 300, 200] = [true, false, true, true] ∧
    ∃ result history : Obj,
      BlinkTradeWS.tradeHistory sampleMsgTypes (fun _ => Outcome.resolved tradesReply)
        (JsVal.num 17) JsVal.undefined JsVal.undefined = Outcome.resolved result ∧
      Obj.getOwn result "TradeHistoryGrp" = some (JsVal.obj history) ∧
      ∀ m : String, BlinkTradeWS.listUnder history m
        = ((sampleTrades.zip (statedPump [500, 100, 300, 200])).filter
            (fun p => decide (marketKey p.1 = m))).map
            (fun p => BlinkTradeWS.tradeRecord p.1 p.2) :=
  ⟨fun _ => rfl, rfl, rfl, by simp [statedPump]; norm_num,
    (C13_isPump_rule sampleMsgTypes (fun _ => Outcome.resolved tradesReply) (JsVal.num 17)
      JsVal.undefined JsVal.undefined tradesReply sampleTrades [500, 100, 300, 200]
      (fun _ => rfl) rfl rfl).1⟩

theorem fst_mem_of_mem_flagged (rows : List JsVal) (p : JsVal × Bool) (h : p ∈ flagged rows) :
    p.1 ∈ rows := by
  induction rows with
  | nil => simp [flagged] at h
  | cons r more ih =>
    simp only [flagged, List.mem_cons] at h
    rcases h with h | h
    · simp [h]
    · exact List.mem_cons_of_mem _ (ih h)

/-- C14. Grouping in `tradeHistory`: for a reply whose rows name their market
by a string `r_i[1]`, the `TradeHistoryGrp` of the result has one key per
distinct market of the reply; the list under a market `m` holds exactly the rows
whose market is `m`, as named records (`TradeID`, `Market`, `Side`, `Price`,
`Size`, `Buyer`, `Seller`, `Created` from the positions 0 to 7, with the row's
`IsPump`), in the order they have in the reply; and the lengths of the lists add
up to the number of rows. -/
theorem C14_grouping (MsgTypes : MsgTypesTable) (send : Obj → Outcome Obj)
    (reqId page pageSize : JsVal) (data : Obj) (rows : List JsVal) (markets : List String)
    (hsend : ∀ msg, send msg = Outcome.resolved data)
    (hgrp : Obj.getOwn data "TradeHistoryGrp" = some (JsVal.arr rows))
    (hmarkets : rows.map (fun r => r.index 1) = markets.map JsVal.str) :
    (∃ (result history : Obj) (flags : List Bool),
      BlinkTradeWS.tradeHistory MsgTypes send reqId page pageSize = Outcome.resolved result ∧
      Obj.getOwn result "TradeHistoryGrp" = some (JsVal.obj history) ∧
      flags.length = rows.length ∧
      (∀ m : String, m ∈ history.keys ↔ m ∈ markets) ∧
      history.keys.Nodup ∧
      (∀ m : String, m ∈ markets →
        Obj.getOwn history m = some (JsVal.arr
          (((rows.zip flags).filter (fun p => (p.1.index 1).isStr m)).map
            (fun p => BlinkTradeWS.tradeRecord p.1 p.2)))) ∧
      (history.keys.map (fun m => (BlinkTradeWS.listUnder history m).length)).sum
        = rows.length) ∧
    (∀ (a0 a1 a2 a3 a4 a5 a6 a7 : JsVal) (more : List JsVal) (f : Bool),
      BlinkTradeWS.tradeRecord (JsVal.arr (a0 :: a1 :: a2 :: a3 :: a4 :: a5 :: a6 :: a7 :: more)) f
        = JsVal.obj [("TradeID", a0), ("Market", a1), ("Side", a2), ("Price", a3), ("Size", a4),
            ("Buyer", a5), ("Seller", a6), ("Created", a7), ("IsPump", JsVal.bool f)]) := by
  have hkey : ∀ r ∈ rows, ∃ s, s ∈ markets ∧ r.index 1 = JsVal.str s := by
    intro r hr
    have : r.index 1 ∈ markets.map JsVal.str := by
      rw [← hmarkets]
      exact List.mem_map.mpr ⟨r, hr, rfl⟩
    obtain ⟨s, hs, hrs⟩ := List.mem_map.mp this
    exact ⟨s, hs, hrs.symm⟩
  have hrow : ∀ s ∈ markets, ∃ r, r ∈ rows ∧ r.index 1 = JsVal.str s := by
    intro s hs
    have : JsVal.str s ∈ rows.map (fun r => r.index 1) := by
      rw [hmarkets]
      exact List.mem_map.mpr ⟨s, hs, rfl⟩
    obtain ⟨r, hr, hrs⟩ := List.mem_map.mp this
    exact ⟨r, hr, hrs⟩
  have hrows : rows.any JsVal.isNullish = false :=
    any_isNullish_eq_false rows 1
      (index_ne_undefined_of_map rows _ 1 hmarkets (by
        intro v hv
        obtain ⟨s, _, rfl⟩ := List.mem_map.mp hv
        simp))
  have hkeys : ∀ m : String,
      m ∈ Obj.keys (BlinkTradeWS.walkTrades rows).TradeHistory ↔ m ∈ markets := by
    intro m
    rw [BlinkTradeWS.mem_keys_walkTrades]
    constructor
    · rintro ⟨r, hr, hm⟩
      obtain ⟨s, hs, hrs⟩ := hkey r hr
      have : marketKey r = s := by simp [marketKey, hrs, JsVal.propertyKey]
      rw [← hm, this]
      exact hs
    · intro hm
      obtain ⟨r, hr, hrs⟩ := hrow m hm
      exact ⟨r, hr, by simp [marketKey, hrs, JsVal.propertyKey]⟩
  refine ⟨⟨_, (BlinkTradeWS.walkTrades rows).TradeHistory, (flagged rows).map Prod.snd,
    BlinkTradeWS.tradeHistory_resolves MsgTypes send reqId page pageSize data rows hsend hgrp hrows,
    by simp [Obj.getOwn_setProp], by simp [length_flagged], hkeys,
    BlinkTradeWS.nodup_keys_walkTrades rows, ?_, ?_⟩, ?_⟩
  · intro m hm
    rw [BlinkTradeWS.getOwn_walkTrades rows m ((hkeys m).mpr hm),
      BlinkTradeWS.listUnder_walkTrades, ← flagged_eq_zip rows]
    congr 3
    apply List.filter_congr
    intro p hp
    obtain ⟨s, _, hrs⟩ := hkey p.1 (fst_mem_of_mem_flagged rows p hp)
    simp [marketKey, hrs, JsVal.propertyKey, JsVal.isStr]
  · have hfun : (fun m => (BlinkTradeWS.listUnder (BlinkTradeWS.walkTrades rows).TradeHistory m).length)
        = (fun m => ((flagged rows).filter (fun p => decide (marketKey p.1 = m))).length) := by
      funext m
      rw [BlinkTradeWS.listUnder_walkTrades, List.length_map]
    rw [hfun, sum_lengths_by_key (fun p : JsVal × Bool => marketKey p.1) _ (flagged rows)
      (BlinkTradeWS.nodup_keys_walkTrades rows), length_flagged]
    intro p hp
    exact (BlinkTradeWS.mem_keys_walkTrades rows _).mpr
      ⟨p.1, fst_mem_of_mem_flagged rows p hp, rfl⟩
  · intro a0 a1 a2 a3 a4 a5 a6 a7 more f
    rfl

/-- Witness of C14: the four trades of `sampleTrades`, on the markets `BTCUSD`
and `BTCBRL`. -/
theorem C14_grouping_witness :
    (∀ msg, (fun _ => Outcome.resolved tradesReply : Obj → Outcome Obj) msg
      = Outcome.resolved tradesReply) ∧
    Obj.getOwn tradesReply "TradeHistoryGrp" = some (JsVal.arr sampleTrades) ∧
    sampleTrades.map (fun r => r.index 1)
      = ["BTCUSD", "BTCBRL", "BTCUSD", "BTCUSD"].map JsVal.str ∧
    ∃ (result history : Obj) (flags : List Bool),
      BlinkTradeWS.tradeHistory sampleMsgTypes (fun _ => Outcome.resolved tradesReply)
        (JsVal.num 17) JsVal.undefined JsVal.undefined = Outcome.resolved result ∧
      Obj.getOwn result "TradeHistoryGrp" = some (JsVal.obj history) ∧
      flags.length = sampleTrades.length ∧
      (∀ m : String, m ∈ history.keys ↔ m ∈ ["BTCUSD", "BTCBRL", "BTCUSD", "BTCUSD"]) ∧
      history.keys.Nodup ∧
      (∀ m : String, m ∈ ["BTCUSD", "BTCBRL", "BTCUSD", "BTCUSD"] →
        Obj.getOwn history m = some (JsVal.arr
          (((sampleTrades.zip flags).filter (fun p => (p.1.index 1).isStr m)).map
            (fun p => BlinkTradeWS.tradeRecord p.1 p.2)))) ∧
      (history.keys.map (fun m => (BlinkTradeWS.listUnder history m).length)).sum
        = sampleTrades.length :=
  ⟨fun _ => rfl, rfl, rfl,
    (C14_grouping sampleMsgTypes (fun _ => Outcome.resolved tradesReply) (JsVal.num 17)
      JsVal.undefined JsVal.undefined tradesReply sampleTrades
      ["BTCUSD", "BTCBRL", "BTCUSD", "BTCUSD"] (fun _ => rfl) rfl rfl).1⟩

/-! ## Available balance -/

theorem getOwn_foldl_available (balances : JsVal) (ks : List String) (acc : Obj) (c : String) :
    Obj.getOwn (ks.foldl
      (fun (Available : Obj) (currency : String) =>
        if !currency.includesText "locked" then
          Obj.setProp Available currency
            (JsVal.sub (balances.prop currency) (balances.prop (currency ++ "_locked")))
        else Available) acc) c
      = if c ∈ ks ∧ c.includesText "locked" = false then
          some (JsVal.sub (balances.prop c) (balances.prop (c ++ "_locked")))
        else Obj.getOwn acc c := by
  induction ks generalizing acc with
  | nil => simp
  | cons k more ih =>
    rw [List.foldl_cons, ih]
    by_cases hmem : c ∈ more ∧ c.includesText "locked" = false
    · have : c ∈ k :: more ∧ c.includesText "locked" = false :=
        ⟨List.mem_cons_of_mem _ hmem.1, hmem.2⟩
      simp [hmem, this]
    · rw [if_neg hmem]
      by_cases hk : k = c
      · subst hk
        by_cases hl : k.includesText "locked" = false
        · simp [hl, Obj.getOwn_setProp]
        · have hl' : k.includesText "locked" = true := by simpa using hl
          simp [hl']
      · have hne : ¬ c = k := fun h => hk h.symm
        have hiff : (c ∈ k :: more ∧ c.includesText "locked" = false) ↔
            (c ∈ more ∧ c.includesText "locked" = false) := by
          simp [hne]
        rw [if_neg (fun h => hmem (hiff.mp h))]
        by_cases hl : k.includesText "locked" = false
        · simp [hl, Obj.getOwn_setProp, hk]
        · have hl' : k.includesText "locked" = true := by simpa using hl
          simp [hl']

theorem Obj.mem_keys_iff (o : Obj) (k : String) : k ∈ Obj.keys o ↔ Obj.getOwn o k ≠ none := by
  constructor
  · intro h
    obtain ⟨v, hv⟩ := Obj.getOwn_isSome_of_mem_keys o k h
    simp [hv]
  · intro h
    cases hv : Obj.getOwn o k with
    | none => exact absurd hv h
    | some v => exact Obj.mem_keys_of_getOwn o k v hv

/-- C15, counterexample. A reply that has a field `Available` of its own does
not keep it: `{ ...data, Available }` puts the computed table in its place.
And the difference is one of doubles: of `2 ^ 54` units with one locked,
`2 ^ 54` are reported available, not `2 ^ 54 - 1`. -/
theorem C15_own_Available_is_replaced :
    Obj.getOwn staleBalanceReply "Available" = some (JsVal.str "stale") ∧
    Obj.getOwn staleBalanceReply (repliesWith staleBalanceReply).brokerId.propertyKey
      = some (JsVal.obj [("BTC", JsVal.num 300000000), ("BTC_locked", JsVal.num 100000000)]) ∧
    BaseTransport.balance sampleMsgTypes (repliesWith staleBalanceReply) (JsVal.num 17)
      = Outcome.resolved
        [("5", JsVal.obj [("BTC", JsVal.num 300000000), ("BTC_locked", JsVal.num 100000000)]),
         ("MsgType", JsVal.str "U3"),
         ("Available", JsVal.obj [("BTC", JsVal.num 200000000)]),
         ("BalanceReqID", JsVal.num 17)] ∧
    Obj.getOwn largeBalanceReply (repliesWith largeBalanceReply).brokerId.propertyKey
      = some (JsVal.obj [("BTC", JsVal.num 18014398509481984), ("BTC_locked", JsVal.num 1)]) ∧
    BaseTransport.balance sampleMsgTypes (repliesWith largeBalanceReply) (JsVal.num 17)
      = Outcome.resolved
        [("5", JsVal.obj [("BTC", JsVal.num 18014398509481984), ("BTC_locked", JsVal.num 1)]),
         ("MsgType", JsVal.str "U3"), ("BalanceReqID", JsVal.num 17),
         ("Available", JsVal.obj [("BTC", JsVal.num 18014398509481984)])] ∧
    (18014398509481984 : ℚ) ≠ 18014398509481984 - 1 := by
  refine ⟨rfl, rfl, ?_, rfl, ?_, by norm_num⟩
  · have h : BaseTransport.balance sampleMsgTypes (repliesWith staleBalanceReply) (JsVal.num 17)
        = Outcome.resolved
          [("5", JsVal.obj [("BTC", JsVal.num 300000000), ("BTC_locked", JsVal.num 100000000)]),
           ("MsgType", JsVal.str "U3"),
           ("Available", JsVal.obj [("BTC", roundDouble (300000000 - 100000000))]),
           ("BalanceReqID", JsVal.num 17)] := rfl
    rw [h, JsVal.eq_num_of_isNum (roundDouble (300000000 - 100000000)) 200000000 (by decide!)]
  · have h : BaseTransport.balance sampleMsgTypes (repliesWith largeBalanceReply) (JsVal.num 17)
        = Outcome.resolved
          [("5", JsVal.obj [("BTC", JsVal.num 18014398509481984), ("BTC_locked", JsVal.num 1)]),
           ("MsgType", JsVal.str "U3"), ("BalanceReqID", JsVal.num 17),
           ("Available", JsVal.obj [("BTC", roundDouble (18014398509481984 - 1))])] := rfl
    rw [h, JsVal.eq_num_of_isNum (roundDouble (18014398509481984 - 1)) 18014398509481984
      (by decide!)]

/-- C15, amended. Available balance in `balance`: when the reply's entry for the
broker is a balance table, the result's `Available` has exactly the keys of the
table that do not contain the text `locked`, with
`Available[c] = table[c] - table[c + '_locked']` in the arithmetic of doubles
(for two numbers, their exact difference rounded to the nearest double, which
is a double that no other double is nearer to the exact difference than), and
the result holds every field of the reply other than `Available` as the reply
does; `Available` is the computed table, whether or not the reply has a field
of that name. -/
theorem C15_available_balance (MsgTypes : MsgTypesTable) (T : Transport) (reqId : JsVal)
    (data table : Obj)
    (hsend : ∀ msg, T.send msg = Outcome.resolved data)
    (htable : Obj.getOwn data T.brokerId.propertyKey = some (JsVal.obj table)) :
    ∃ result available : Obj,
      BaseTransport.balance MsgTypes T reqId = Outcome.resolved result ∧
      Obj.getOwn result "Available" = some (JsVal.obj available) ∧
      (∀ c : String, c ∈ available.keys ↔ c ∈ table.keys ∧ c.includesText "locked" = false) ∧
      (∀ c : String, c ∈ table.keys → c.includesText "locked" = false →
        Obj.getOwn available c
          = some (JsVal.sub (Obj.prop table c) (Obj.prop table (c ++ "_locked")))) ∧
      (∀ (c : String) (x y : ℚ), c.includesText "locked" = false →
        Obj.getOwn table c = some (JsVal.num x) →
        Obj.getOwn table (c ++ "_locked") = some (JsVal.num y) →
        Obj.getOwn available c = some (roundDouble (x - y)) ∧
        ∀ r : ℚ, roundDouble (x - y) = JsVal.num r →
          IsDouble r ∧ ∀ d : ℚ, IsDouble d → |r - (x - y)| ≤ |d - (x - y)|) ∧
      (∀ k : String, k ≠ "Available" → Obj.getOwn result k = Obj.getOwn data k) := by
  have hp : Obj.prop data T.brokerId.propertyKey = JsVal.obj table :=
    Obj.prop_of_getOwn _ _ _ htable
  have hval : ∀ c : String, c ∈ table.keys → c.includesText "locked" = false →
      Obj.getOwn (availableOf (JsVal.obj table)) c
        = some (JsVal.sub (Obj.prop table c) (Obj.prop table (c ++ "_locked"))) := by
    intro c hc hl
    unfold availableOf
    rw [getOwn_foldl_available]
    have : c ∈ (JsVal.obj table).asObj.keys ∧ c.includesText "locked" = false := ⟨hc, hl⟩
    rw [if_pos this]
    rfl
  have hres : BaseTransport.balance MsgTypes T reqId
      = Outcome.resolved (Obj.setProp data "Available"
          (JsVal.obj (availableOf (JsVal.obj table)))) := by
    simp only [BaseTransport.balance, hsend, Outcome.thenCatch, BaseTransport.balanceHandler, hp,
      JsVal.isNullish]
    rfl
  refine ⟨Obj.setProp data "Available" (JsVal.obj (availableOf (JsVal.obj table))),
    availableOf (JsVal.obj table), hres, ?_, ?_, hval, ?_, ?_⟩
  · simp [Obj.getOwn_setProp]
  · intro c
    unfold availableOf
    rw [Obj.mem_keys_iff, getOwn_foldl_available]
    by_cases h : c ∈ (JsVal.obj table).asObj.keys ∧ c.includesText "locked" = false
    · rw [if_pos h]
      simpa using h
    · rw [if_neg h]
      simpa [Obj.getOwn] using h
  · intro c x y hl hx hy
    have hc : c ∈ table.keys := Obj.mem_keys_of_getOwn _ _ _ hx
    refine ⟨?_, fun r hr => roundDouble_nearest _ r hr⟩
    rw [hval c hc hl, Obj.prop_of_getOwn _ _ _ hx, Obj.prop_of_getOwn _ _ _ hy, JsVal.sub_num]
  · intro k hk
    have : ¬ "Available" = k := fun h => hk h.symm
    simp [Obj.getOwn_setProp, this]

/-- Witness of C15, amended: the balance of `balanceReply`, in which 3 BTC with
1 BTC locked leave 2 BTC available. -/
theorem C15_available_balance_witness :
    (∀ msg, (repliesWith balanceReply).send msg = Outcome.resolved balanceReply) ∧
    Obj.getOwn balanceReply (repliesWith balanceReply).brokerId.propertyKey
      = some (JsVal.obj [("BTC", JsVal.num 300000000), ("BTC_locked", JsVal.num 100000000),
          ("USD", JsVal.num 5000), ("USD_locked", JsVal.num 0)]) ∧
    (∃ result available : Obj,
      BaseTransport.balance sampleMsgTypes (repliesWith balanceReply) (JsVal.num 17)
        = Outcome.resolved result ∧
      Obj.getOwn result "Available" = some (JsVal.obj available) ∧
      (∀ c : String, c ∈ available.keys ↔
        c ∈ Obj.keys [("BTC", JsVal.num 300000000), ("BTC_locked", JsVal.num 100000000),
          ("USD", JsVal.num 5000), ("USD_locked", JsVal.num 0)] ∧
        c.includesText "locked" = false) ∧
      Obj.getOwn available "BTC" = some (roundDouble (300000000 - 100000000))) ∧
    roundDouble (300000000 - 100000000) = JsVal.num 200000000 :=
  ⟨fun _ => rfl, rfl,
    by
      obtain ⟨result, available, h1, h2, h3, _, h5, _⟩ :=
        C15_available_balance sampleMsgTypes (repliesWith balanceReply) (JsVal.num 17)
          balanceReply [("BTC", JsVal.num 300000000), ("BTC_locked", JsVal.num 100000000),
            ("USD", JsVal.num 5000), ("USD_locked", JsVal.num 0)] (fun _ => rfl) (by rfl)
      exact ⟨result, available, h1, h2, h3,
        (h5 "BTC" 300000000 100000000 (by decide) rfl rfl).1⟩,
    JsVal.eq_num_of_isNum _ _ (by decide!)⟩

/-! ## The positional decoder -/

theorem BlinkTradeWS.orderRecord_eq_decodeRow (xs : List JsVal) (h : xs.length = 15) :
    BlinkTradeWS.orderRecord (JsVal.arr xs)
      = BaseTransport.decodeRow (JsVal.arr (orderColumns.map JsVal.str)) (JsVal.arr xs) := by
  match xs, h with
  | [a0, a1, a2, a3, a4, a5, a6, a7, a8, a9, a10, a11, a12, a13, a14], _ => rfl

theorem BlinkTradeWS.myOrdersHandler_eq (data : Obj) (rows : List JsVal)
    (hcols : Obj.getOwn data "Columns" = some (JsVal.arr (orderColumns.map JsVal.str)))
    (hgrp : Obj.getOwn data "OrdListGrp" = some (JsVal.arr rows))
    (hrows : ∀ r ∈ rows, ∃ xs, r = JsVal.arr xs ∧ xs.length = 15) :
    BlinkTradeWS.myOrdersHandler data = BaseTransport.decodeGroupHandler "OrdListGrp" data := by
  have hc : Obj.prop data "Columns" = JsVal.arr (orderColumns.map JsVal.str) :=
    Obj.prop_of_getOwn _ _ _ hcols
  have hg : Obj.prop data "OrdListGrp" = JsVal.arr rows := Obj.prop_of_getOwn _ _ _ hgrp
  have hnull : rows.any JsVal.isNullish = false := by
    rw [List.any_eq_false]
    intro r hr
    obtain ⟨xs, rfl, _⟩ := hrows r hr
    simp [JsVal.isNullish]
  have hmap : rows.map BlinkTradeWS.orderRecord
      = rows.map (BaseTransport.decodeRow (JsVal.arr (orderColumns.map JsVal.str))) := by
    apply List.map_congr_left
    intro r hr
    obtain ⟨xs, rfl, hlen⟩ := hrows r hr
    exact BlinkTradeWS.orderRecord_eq_decodeRow xs hlen
  simp only [BlinkTradeWS.myOrdersHandler, BaseTransport.decodeGroupHandler, hg, hc, hnull,
    Lodash.map, JsVal.elements, hmap]
  rfl

/-- C16. The positional decoder of the `myOrders` of `blinktradeWS.js` agrees
with the `Columns`-driven decoder of `BaseTransport.myOrders`: for a reply whose
`Columns` is the list of the fifteen order columns and whose rows are arrays of
length 15, the two operations resolve with the same result. -/
theorem C16_positional_agrees (MsgTypes : MsgTypesTable) (T : Transport)
    (reqId page pageSize : JsVal) (data : Obj) (rows : List JsVal)
    (hsend : ∀ msg, T.send msg = Outcome.resolved data)
    (hcols : Obj.getOwn data "Columns" = some (JsVal.arr (orderColumns.map JsVal.str)))
    (hgrp : Obj.getOwn data "OrdListGrp" = some (JsVal.arr rows))
    (hrows : ∀ r ∈ rows, ∃ xs, r = JsVal.arr xs ∧ xs.length = 15) :
    ∃ result : Obj,
      BlinkTradeWS.myOrders MsgTypes T.send reqId page pageSize = Outcome.resolved result ∧
      BaseTransport.myOrders MsgTypes T reqId page pageSize = Outcome.resolved result ∧
      Obj.getOwn result "OrdListGrp" = some (JsVal.arr (rows.map BlinkTradeWS.orderRecord)) := by
  have hg : Obj.prop data "OrdListGrp" = JsVal.arr rows := Obj.prop_of_getOwn _ _ _ hgrp
  have hnull : rows.any JsVal.isNullish = false := by
    rw [List.any_eq_false]
    intro r hr
    obtain ⟨xs, rfl, _⟩ := hrows r hr
    simp [JsVal.isNullish]
  have heq := BlinkTradeWS.myOrdersHandler_eq data rows hcols hgrp hrows
  have hh : BlinkTradeWS.myOrdersHandler data
      = Except.ok (some (Obj.setProp (Obj.rest data "Columns") "OrdListGrp"
          (JsVal.arr (rows.map BlinkTradeWS.orderRecord)))) := by
    simp [BlinkTradeWS.myOrdersHandler, hg, hnull]
  refine ⟨Obj.setProp (Obj.rest data "Columns") "OrdListGrp"
    (JsVal.arr (rows.map BlinkTradeWS.orderRecord)), ?_, ?_, ?_⟩
  · simp only [BlinkTradeWS.myOrders, hsend, Outcome.thenCatch, hh]
  · simp only [BaseTransport.myOrders, hsend, Outcome.thenCatch, ← heq, hh]
  · simp [Obj.getOwn_setProp]

/-- Witness of C16: the order list of `ordersReply`. -/
theorem C16_positional_agrees_witness :
    (∀ msg, (repliesWith ordersReply).send msg = Outcome.resolved ordersReply) ∧
    Obj.getOwn ordersReply "Columns" = some (JsVal.arr (orderColumns.map JsVal.str)) ∧
    ∃ result : Obj,
      BlinkTradeWS.myOrders sampleMsgTypes (repliesWith ordersReply).send (JsVal.num 17)
        JsVal.undefined JsVal.undefined = Outcome.resolved result ∧
      BaseTransport.myOrders sampleMsgTypes (repliesWith ordersReply) (JsVal.num 17)
        JsVal.undefined JsVal.undefined = Outcome.resolved result ∧
      Obj.getOwn result "OrdListGrp"
        = some (JsVal.arr ((Obj.prop ordersReply "OrdListGrp").elements.map
            BlinkTradeWS.orderRecord)) :=
  ⟨fun _ => rfl, rfl,
    C16_positional_agrees sampleMsgTypes (repliesWith ordersReply) (JsVal.num 17) JsVal.undefined
      JsVal.undefined ordersReply (Obj.prop ordersReply "OrdListGrp").elements (fun _ => rfl) rfl
      rfl (by
        intro r hr
        simp only [ordersReply, Obj.prop, Obj.getOwn, JsVal.elements] at hr
        simp at hr
        exact ⟨_, hr, rfl⟩)⟩
